import Mathlib

/-!
Shallow embedding of the multi-source rider reconciliation engine of
`funnel_manager.py` (class `DataLoader` and its feed ingestors), together
with theorems checking the specification's claims against it.

Modelling conventions:
* Python strings are Lean `String`s; `str.lower`/`str.strip`/`str.isalnum`
  are modelled on ASCII (`pyLower`, `pyStrip`, `pyIsAlnum`), which is what
  every value occurring in the feeds exercises.
* Tabular cell values are `Val`: a string, Python `None` (missing column),
  or a pandas `NaN` float.  Truthiness and the exceptions raised by calling
  string methods on non-strings are modelled explicitly.
* Python floats are modelled as exact rationals plus a `NaN` point
  (`PyFloat`); no claim depends on binary rounding.
* `datetime` values are the `DateTime` structure; `datetime.strptime` is
  modelled per format below.
* Exceptions are explicit: a stateful step has type `DL → DL × Option PyErr`;
  an error aborts the remaining steps but keeps the state mutated so far,
  matching CPython's in-place mutation of `self.riders`.
-/

namespace Funnel

/-! ### Python string primitives (ASCII model) -/

/-- ASCII model of Python `str.lower`. -/
def pyLower (s : String) : String :=
  ⟨s.data.map Char.toLower⟩

/-- Characters removed by Python `str.strip()` with no argument
(space, tab, newline, carriage return, vertical tab, form feed). -/
def pyIsSpace (c : Char) : Bool :=
  c.toNat = 32 ∨ c.toNat = 9 ∨ c.toNat = 10 ∨ c.toNat = 13 ∨
    c.toNat = 11 ∨ c.toNat = 12

/-- ASCII model of Python `str.strip()`: drop whitespace from both ends. -/
def pyStrip (s : String) : String :=
  ⟨(s.data.dropWhile pyIsSpace).rdropWhile pyIsSpace⟩

/-- ASCII model of Python `str.isalnum` on a single character. -/
def pyIsAlnum (c : Char) : Bool :=
  c.isAlphanum

/-- Python `needle in haystack` on strings (substring test). -/
def pySubstr (needle haystack : String) : Bool :=
  (List.range (haystack.data.length + 1)).any
    (fun i => needle.data.isPrefixOf (haystack.data.drop i))

/-- Python `s.replace(a, b)` for single-character `a`, `b` (the only use). -/
def pyReplaceChar (s : String) (a b : Char) : String :=
  ⟨s.data.map (fun c => if c = a then b else c)⟩

/-- Python `s.replace(c, '')` (delete every occurrence of one character). -/
def pyRemoveChar (s : String) (a : Char) : String :=
  ⟨s.data.filter (fun c => c ≠ a)⟩

/-- Python `s.startswith(p)`. -/
def pyStartsWith (p s : String) : Bool :=
  p.data.isPrefixOf s.data

/-- Python `s.endswith(p)`. -/
def pyEndsWith (p s : String) : Bool :=
  p.data.isSuffixOf s.data

/-- Worker for `pySplitSpace` (structural recursion over the characters,
accumulating the current part reversed). -/
def splitSpaceAux : List Char → List Char → List String
  | [], cur => [⟨cur.reverse⟩]
  | c :: rest, cur =>
    if c = ' ' then (⟨cur.reverse⟩ : String) :: splitSpaceAux rest []
    else splitSpaceAux rest (c :: cur)

/-- Python `s.split(' ')` (split on every single space, keeping empty parts). -/
def pySplitSpace (s : String) : List String :=
  splitSpaceAux s.data []

/-- Python `' '.join parts`. -/
def pyJoinSpace (parts : List String) : String :=
  String.intercalate " " parts

/-! ### Cell values and exceptions -/

/-- Value of one tabular cell: a string, Python `None`, or a float `NaN`
(as produced by pandas for an empty cell). -/
inductive Val where
  | vstr (s : String)
  | vnone
  | vnan
deriving DecidableEq

/-- Python exception classes that the embedded code can raise. -/
inductive PyErr where
  | attributeError
  | valueError
  | typeError
  | nameError
deriving DecidableEq

/-- Python truthiness of a cell value (`NaN` is truthy, `None` and `""` are not). -/
def Val.truthy : Val → Bool
  | .vstr s => s ≠ ""
  | .vnone => false
  | .vnan => true

/-- Python `v.strip()` on a cell: raises `AttributeError` unless `v` is a string. -/
def Val.strip : Val → Except PyErr String
  | .vstr s => .ok (pyStrip s)
  | .vnone => .error .attributeError
  | .vnan => .error .attributeError

/-- Python `v.lower()` on a cell: raises `AttributeError` unless `v` is a string. -/
def Val.lower : Val → Except PyErr String
  | .vstr s => .ok (pyLower s)
  | .vnone => .error .attributeError
  | .vnan => .error .attributeError

/-- Python `str(v)` as used in f-strings. -/
def Val.toPy : Val → String
  | .vstr s => s
  | .vnone => "None"
  | .vnan => "nan"

/-- Python `a or b` on cell values (left operand if truthy, else right). -/
def Val.orElse (a b : Val) : Val :=
  if a.truthy then a else b

/-! ### Python floats (exact-rational model with a NaN point) -/

/-- Python float, modelled as an exact rational or `NaN`; claims in this
development never depend on binary rounding. -/
inductive PyFloat where
  | fin (q : ℚ)
  | fnan
deriving DecidableEq

/-- Value of a decimal digit. -/
def digitVal (c : Char) : Nat := c.toNat - '0'.toNat

/-- Digits to a natural number (most significant first). -/
def digitsToNat (l : List Char) : Nat :=
  l.foldl (fun acc c => 10 * acc + digitVal c) 0

/-- Decimal-literal part of Python `float(s)`: `digits [. digits]` with at
least one digit overall; returns numerator and number of fractional digits. -/
def floatDigits : List Char → Option (Nat × Nat)
  | cs =>
    let intPart := cs.takeWhile Char.isDigit
    let rest := cs.dropWhile Char.isDigit
    match rest with
    | [] => if intPart = [] then none else some (digitsToNat intPart, 0)
    | '.' :: frac =>
      let fracPart := frac.takeWhile Char.isDigit
      if frac.dropWhile Char.isDigit ≠ [] then none
      else if intPart = [] ∧ fracPart = [] then none
      else some (digitsToNat (intPart ++ fracPart), fracPart.length)
    | _ => none

/-- Model of Python `float(s)` restricted to plain decimal literals
`[+-] digits [. digits]` and `nan` (the shapes the feeds produce — `nan`
is reachable through `str(NaN)` in the revenue branch); exponent and
infinity spellings are out of the modelled input space. -/
def pyFloatOfString (s : String) : Except PyErr PyFloat :=
  let t := (pyStrip s).data
  let (sign, body) :=
    match t with
    | '+' :: rest => ((1 : ℚ), rest)
    | '-' :: rest => ((-1 : ℚ), rest)
    | _ => ((1 : ℚ), t)
  if pyLower ⟨body⟩ = "nan" then .ok .fnan
  else
    match floatDigits body with
    | some (n, fracLen) => .ok (.fin (sign * (n : ℚ) / ((10 : ℚ) ^ fracLen)))
    | none => .error .valueError

/-- Python `float(v)` on a cell value: parses strings, passes `NaN` through,
raises `TypeError` on `None`. -/
def pyFloatOfVal : Val → Except PyErr PyFloat
  | .vstr s => pyFloatOfString s
  | .vnan => .ok .fnan
  | .vnone => .error .typeError

/-- Python `x > 0` on a float (`NaN > 0` is false). -/
def PyFloat.posit : PyFloat → Bool
  | .fin q => 0 < q
  | .fnan => false

/-! ### Datetimes -/

/-- Model of `datetime.datetime` (year, month, day, hour, minute, second,
microsecond). -/
structure DateTime where
  year : Nat
  month : Nat
  day : Nat
  hour : Nat
  minute : Nat
  second : Nat
  micro : Nat
deriving DecidableEq

/-- Lexicographic key used to compare datetimes. -/
def DateTime.key (d : DateTime) : Nat :=
  ((((((d.year * 13 + d.month) * 32 + d.day) * 24 + d.hour) * 60
      + d.minute) * 61 + d.second) * 1000000) + d.micro

/-- Python `<` on datetimes. -/
def DateTime.lt (a b : DateTime) : Bool :=
  a.key < b.key

/-- Gregorian leap year. -/
def isLeap (y : Nat) : Bool :=
  y % 4 = 0 ∧ (y % 100 ≠ 0 ∨ y % 400 = 0)

/-- Days in a month of the proleptic Gregorian calendar. -/
def daysInMonth (y m : Nat) : Nat :=
  if m = 2 then (if isLeap y then 29 else 28)
  else if m = 4 ∨ m = 6 ∨ m = 9 ∨ m = 11 then 30
  else 31

/-! ### `datetime.strptime`, for the fixed format list of `_parse_date`

Each `%`-directive of `_strptime` compiles to a regex alternation tried
left to right (`%d ↦ 3[01]|[12]\d|0[1-9]|[1-9]`, etc.); in the eight
formats below every numeric directive is followed by a non-digit literal
or the end of the string, so the first alternative that matches is the one
the whole regex keeps (backtracking into a directive can never help), and
the match must consume the entire string.  Literals match
case-insensitively (`re.IGNORECASE`) and a space in the format matches one
or more whitespace characters. -/

/-- Format token of a `strptime` format string. -/
inductive FTok where
  | d | m | Y | H | Mi | S | f
  | ws
  | lit (c : Char)
deriving DecidableEq

/-- Matches regex `3[01]|[12]\d|0[1-9]|[1-9]` (directive `%d`). -/
def matchD : List Char → Option (Nat × List Char)
  | c1 :: c2 :: rest =>
    if c1 = '3' ∧ (c2 = '0' ∨ c2 = '1') then some (digitsToNat [c1, c2], rest)
    else if (c1 = '1' ∨ c1 = '2') ∧ c2.isDigit then some (digitsToNat [c1, c2], rest)
    else if c1 = '0' ∧ (c2.isDigit ∧ c2 ≠ '0') then some (digitVal c2, rest)
    else if c1.isDigit ∧ c1 ≠ '0' then some (digitVal c1, c2 :: rest)
    else none
  | [c1] => if c1.isDigit ∧ c1 ≠ '0' then some (digitVal c1, []) else none
  | [] => none

/-- Matches regex `1[0-2]|0[1-9]|[1-9]` (directive `%m`). -/
def matchM : List Char → Option (Nat × List Char)
  | c1 :: c2 :: rest =>
    if c1 = '1' ∧ (c2 = '0' ∨ c2 = '1' ∨ c2 = '2') then some (digitsToNat [c1, c2], rest)
    else if c1 = '0' ∧ (c2.isDigit ∧ c2 ≠ '0') then some (digitVal c2, rest)
    else if c1.isDigit ∧ c1 ≠ '0' then some (digitVal c1, c2 :: rest)
    else none
  | [c1] => if c1.isDigit ∧ c1 ≠ '0' then some (digitVal c1, []) else none
  | [] => none

/-- Matches regex `\d\d\d\d` (directive `%Y`). -/
def matchY : List Char → Option (Nat × List Char)
  | c1 :: c2 :: c3 :: c4 :: rest =>
    if c1.isDigit ∧ c2.isDigit ∧ c3.isDigit ∧ c4.isDigit then
      some (digitsToNat [c1, c2, c3, c4], rest)
    else none
  | _ => none

/-- Matches regex `2[0-3]|[0-1]\d|\d` (directive `%H`). -/
def matchH : List Char → Option (Nat × List Char)
  | c1 :: c2 :: rest =>
    if c1 = '2' ∧ (c2 = '0' ∨ c2 = '1' ∨ c2 = '2' ∨ c2 = '3') then
      some (digitsToNat [c1, c2], rest)
    else if (c1 = '0' ∨ c1 = '1') ∧ c2.isDigit then some (digitsToNat [c1, c2], rest)
    else if c1.isDigit then some (digitVal c1, c2 :: rest)
    else none
  | [c1] => if c1.isDigit then some (digitVal c1, []) else none
  | [] => none

/-- Matches regex `[0-5]\d|\d` (directive `%M`). -/
def matchMi : List Char → Option (Nat × List Char)
  | c1 :: c2 :: rest =>
    if (c1.isDigit ∧ digitVal c1 ≤ 5) ∧ c2.isDigit then some (digitsToNat [c1, c2], rest)
    else if c1.isDigit then some (digitVal c1, c2 :: rest)
    else none
  | [c1] => if c1.isDigit then some (digitVal c1, []) else none
  | [] => none

/-- Matches regex `6[0-1]|[0-5]\d|\d` (directive `%S`). -/
def matchS : List Char → Option (Nat × List Char)
  | c1 :: c2 :: rest =>
    if c1 = '6' ∧ (c2 = '0' ∨ c2 = '1') then some (digitsToNat [c1, c2], rest)
    else if (c1.isDigit ∧ digitVal c1 ≤ 5) ∧ c2.isDigit then some (digitsToNat [c1, c2], rest)
    else if c1.isDigit then some (digitVal c1, c2 :: rest)
    else none
  | [c1] => if c1.isDigit then some (digitVal c1, []) else none
  | [] => none

/-- Matches regex `[0-9]{1,6}` greedily (directive `%f`); yields microseconds
(right-padded to six digits). -/
def matchF (cs : List Char) : Option (Nat × List Char) :=
  let ds := (cs.take 6).takeWhile Char.isDigit
  if ds = [] then none
  else some (digitsToNat ds * 10 ^ (6 - ds.length), cs.drop ds.length)

/-- Partial parse state of `strptime` (defaults as in `_strptime`). -/
structure PState where
  y : Nat := 1900
  mo : Nat := 1
  d : Nat := 1
  h : Nat := 0
  mi : Nat := 0
  s : Nat := 0
  f : Nat := 0
deriving DecidableEq

/-- Runs a token list against the input characters (whole input must be
consumed). -/
def matchToks : List FTok → List Char → PState → Option PState
  | [], [], st => some st
  | [], _ :: _, _ => none
  | tok :: toks, cs, st =>
    match tok with
    | .d => (matchD cs).bind (fun (v, rest) => matchToks toks rest { st with d := v })
    | .m => (matchM cs).bind (fun (v, rest) => matchToks toks rest { st with mo := v })
    | .Y => (matchY cs).bind (fun (v, rest) => matchToks toks rest { st with y := v })
    | .H => (matchH cs).bind (fun (v, rest) => matchToks toks rest { st with h := v })
    | .Mi => (matchMi cs).bind (fun (v, rest) => matchToks toks rest { st with mi := v })
    | .S => (matchS cs).bind (fun (v, rest) => matchToks toks rest { st with s := v })
    | .f => (matchF cs).bind (fun (v, rest) => matchToks toks rest { st with f := v })
    | .ws =>
      match cs with
      | c :: rest =>
        if pyIsSpace c then matchToks toks (rest.dropWhile pyIsSpace) st else none
      | [] => none
    | .lit c =>
      match cs with
      | c' :: rest => if c'.toLower = c.toLower then matchToks toks rest st else none
      | [] => none

/-- Constructor validation of `datetime(...)`: what the regex lets through
but the constructor rejects (day beyond month end, leap seconds, year 0). -/
def mkDateTime (st : PState) : Option DateTime :=
  if 1 ≤ st.y ∧ st.d ≤ daysInMonth st.y st.mo ∧ st.s ≤ 59 then
    some ⟨st.y, st.mo, st.d, st.h, st.mi, st.s, st.f⟩
  else none

/-- Model of `datetime.strptime(s, fmt)` for one tokenised format. -/
def strptime (fmt : List FTok) (s : String) : Option DateTime :=
  (matchToks fmt s.data {}).bind mkDateTime

/-- Tokenisation of `'%d/%m/%Y %H:%M:%S'`. -/
def fmtDmySlashTime : List FTok :=
  [.d, .lit '/', .m, .lit '/', .Y, .ws, .H, .lit ':', .Mi, .lit ':', .S]

/-- Tokenisation of `'%Y-%m-%d %H:%M:%S'`. -/
def fmtIsoSpaceTime : List FTok :=
  [.Y, .lit '-', .m, .lit '-', .d, .ws, .H, .lit ':', .Mi, .lit ':', .S]

/-- Tokenisation of `'%Y-%m-%d'`. -/
def fmtIsoDate : List FTok :=
  [.Y, .lit '-', .m, .lit '-', .d]

/-- Tokenisation of `'%d/%m/%Y'`. -/
def fmtDmySlash : List FTok :=
  [.d, .lit '/', .m, .lit '/', .Y]

/-- Tokenisation of `'%m/%d/%Y %H:%M:%S'`. -/
def fmtMdySlashTime : List FTok :=
  [.m, .lit '/', .d, .lit '/', .Y, .ws, .H, .lit ':', .Mi, .lit ':', .S]

/-- Tokenisation of `'%m/%d/%Y'`. -/
def fmtMdySlash : List FTok :=
  [.m, .lit '/', .d, .lit '/', .Y]

/-- Tokenisation of `'%Y-%m-%dT%H:%M:%S.%fZ'`. -/
def fmtIsoTFracZ : List FTok :=
  [.Y, .lit '-', .m, .lit '-', .d, .lit 'T', .H, .lit ':', .Mi, .lit ':', .S,
    .lit '.', .f, .lit 'Z']

/-- Tokenisation of `'%Y-%m-%dT%H:%M:%SZ'`. -/
def fmtIsoTZ : List FTok :=
  [.Y, .lit '-', .m, .lit '-', .d, .lit 'T', .H, .lit ':', .Mi, .lit ':', .S, .lit 'Z']

/-- The fixed ordered format list of `DataLoader._parse_date`. -/
def dateFormats : List (List FTok) :=
  [fmtDmySlashTime, fmtIsoSpaceTime, fmtIsoDate, fmtDmySlash,
    fmtMdySlashTime, fmtMdySlash, fmtIsoTFracZ, fmtIsoTZ]

/-- Loop body of `_parse_date`: try each format in order, first success wins
(`except ValueError: continue`). -/
def tryFormats : List (List FTok) → String → Option DateTime
  | [], _ => none
  | fmt :: fmts, s =>
    match strptime fmt s with
    | some d => some d
    | none => tryFormats fmts s

/-- Embedding of `DataLoader._parse_date` on a string argument
(`if not date_str: return None`, then the format loop on
`date_str.strip()`, then `return None`). -/
def parseDateStr (s : String) : Option DateTime :=
  if s = "" then none
  else tryFormats dateFormats (pyStrip s)

/-- Embedding of `DataLoader._parse_date` on a raw cell value: a `None`
cell is falsy (returns `None`); a `NaN` cell is truthy and
`date_str.strip()` then raises `AttributeError`, which `_parse_date` does
not catch. -/
def parseDateVal : Val → Except PyErr (Option DateTime)
  | .vstr s => .ok (parseDateStr s)
  | .vnone => .ok none
  | .vnan => .error .attributeError

/-! ### Funnel stages

The Python `FunnelStage` enum has canonical members plus value-aliases
(`OUTREACH = "Messaged"`, `REGISTERED = "Podium Contenders Blueprint
Started"`, `SALE_CLOSED = "Client"`, `NO_SALE = "Not a good fit"`); Python
enum aliases are the same member, so the Lean type has only the canonical
members and the aliases are abbreviations.  `stageList` is the member
iteration order of `for stage in FunnelStage` (aliases skipped). -/

inductive FunnelStage where
  | contact | messaged | replied | raceWeekend | linkSent
  | blueprintStarted | day1Complete | day2Complete | strategyCallBooked
  | client | notAFit | followUp | flowProfileCompleted
  | mindsetQuizCompleted | sleepTestCompleted | noSocials
  | raceReviewComplete | seasonReviewSent | seasonReviewComplete
  | blueprintLinkSent
deriving DecidableEq

/-- Alias `FunnelStage.OUTREACH` (same member as `MESSAGED`). -/
def FunnelStage.outreach : FunnelStage := .messaged

/-- Alias `FunnelStage.REGISTERED` (same member as `BLUEPRINT_STARTED`). -/
def FunnelStage.registered : FunnelStage := .blueprintStarted

/-- Alias `FunnelStage.SALE_CLOSED` (same member as `CLIENT`). -/
def FunnelStage.saleClosed : FunnelStage := .client

/-- Alias `FunnelStage.NO_SALE` (same member as `NOT_A_FIT`). -/
def FunnelStage.noSale : FunnelStage := .notAFit

/-- String value of each `FunnelStage` member. -/
def FunnelStage.value : FunnelStage → String
  | .contact => "Contact"
  | .messaged => "Messaged"
  | .replied => "Replied"
  | .raceWeekend => "Race Weekend"
  | .linkSent => "Link Sent"
  | .blueprintStarted => "Podium Contenders Blueprint Started"
  | .day1Complete => "Day 1 Completed"
  | .day2Complete => "Day 2 Completed"
  | .strategyCallBooked => "Strategy Call Booked"
  | .client => "Client"
  | .notAFit => "Not a good fit"
  | .followUp => "Follow up"
  | .flowProfileCompleted => "Flow Profile Completed"
  | .mindsetQuizCompleted => "Mindset Quiz Completed"
  | .sleepTestCompleted => "Sleep Test Completed"
  | .noSocials => "No Socials Found"
  | .raceReviewComplete => "Race Weekend Review Completed"
  | .seasonReviewSent => "End of Season Review Link Sent"
  | .seasonReviewComplete => "End of Season Review Completed"
  | .blueprintLinkSent => "Blueprint Link Sent"

/-- Iteration order of `for stage in FunnelStage` (declaration order,
aliases skipped as in Python). -/
def stageList : List FunnelStage :=
  [.contact, .messaged, .replied, .raceWeekend, .linkSent,
    .blueprintStarted, .day1Complete, .day2Complete, .strategyCallBooked,
    .client, .notAFit, .followUp, .flowProfileCompleted,
    .mindsetQuizCompleted, .sleepTestCompleted, .noSocials,
    .raceReviewComplete, .seasonReviewSent, .seasonReviewComplete,
    .blueprintLinkSent]

/-- The `OutreachChannel` enum. -/
inductive OutreachChannel where
  | email | facebookDm | instagramDm
deriving DecidableEq

/-! ### The Rider record

Fields as in the `Rider` dataclass.  Optional-string fields are `Val`
(`Val.vnone` is the Python `None` default).  The trailing four fields
(`magic_link`, `tags`, `biggest_mistake`, `day1_date`) are not dataclass
fields: Python code sets them dynamically, so they are `Option`-wrapped
with `none` meaning "attribute absent" (`hasattr` is false). -/

structure Rider where
  email : String
  first_name : Val
  last_name : Val
  phone : Val := .vnone
  outreach_channel : Option OutreachChannel := none
  outreach_date : Option DateTime := none
  current_stage : FunnelStage := .contact
  registered_date : Option DateTime := none
  day1_complete_date : Option DateTime := none
  day2_complete_date : Option DateTime := none
  strategy_call_booked_date : Option DateTime := none
  strategy_call_complete_date : Option DateTime := none
  sale_closed_date : Option DateTime := none
  facebook_url : Val := .vnone
  instagram_url : Val := .vnone
  linkedin_url : Val := .vnone
  championship : Val := .vnone
  race_weekend_review_date : Option DateTime := none
  race_weekend_review_status : Val := .vstr "pending"
  end_of_season_review_date : Option DateTime := none
  day1_score : Option PyFloat := none
  day2_scores : Option (List (String × PyFloat)) := none
  flow_profile_date : Option DateTime := none
  flow_profile_score : Option PyFloat := none
  flow_profile_result : Val := .vnone
  flow_profile_url : Val := .vnone
  sleep_test_date : Option DateTime := none
  sleep_score : Option PyFloat := none
  mindset_quiz_date : Option DateTime := none
  mindset_score : Option PyFloat := none
  mindset_result : Val := .vnone
  rescue_messages_sent : List String := []
  last_rescue_date : Option DateTime := none
  notes : Val := .vnone
  follow_up_date : Option DateTime := none
  is_disqualified : Bool := false
  disqualification_reason : Val := .vnone
  sale_value : Option PyFloat := none
  payment_plan : Bool := false
  monthly_payment : Option PyFloat := none
  country : Val := .vnone
  rider_type : Val := .vnone
  magic_link : Option Val := none
  tags : Option Val := none
  biggest_mistake : Option Val := none
  day1_date : Option (Option DateTime) := none
deriving DecidableEq

/-- Constructor call `Rider(email=…, first_name=…, last_name=…)` with all
other fields at their dataclass defaults. -/
def mkRider (email first last : String) : Rider :=
  { email := email, first_name := .vstr first, last_name := .vstr last }

/-- Python `full_name` property:
`f"{first_name} {last_name}".strip()` falling back to the email. -/
def Rider.fullName (r : Rider) : String :=
  let name := pyStrip (r.first_name.toPy ++ " " ++ r.last_name.toPy)
  if name = "" then r.email else name

/-! ### The registry (`self.riders`, an insertion-ordered dict) -/

/-- Registry: insertion-ordered association list, as a Python dict. -/
abbrev Reg := List (String × Rider)

/-- Membership of a key (`k in self.riders`). -/
def rLookup (reg : Reg) (k : String) : Option Rider :=
  match reg with
  | [] => none
  | (k', r) :: rest => if k' = k then some r else rLookup rest k

/-- Replaces the value stored at an existing key, keeping dict order. -/
def rSet (reg : Reg) (k : String) (r : Rider) : Reg :=
  match reg with
  | [] => []
  | (k', r') :: rest =>
    if k' = k then (k', r) :: rest else (k', r') :: rSet rest k r

/-- Keys of the registry in insertion order (`self.riders.keys()`). -/
def rKeys (reg : Reg) : List String :=
  (reg : List (String × Rider)).map Prod.fst

/-- Values of the registry in insertion order (`self.riders.values()`). -/
def rValues (reg : Reg) : List Rider :=
  (reg : List (String × Rider)).map Prod.snd

/-- The identity key `email.lower().strip()` of `_get_or_create_rider`. -/
def normKey (email : String) : String :=
  pyStrip (pyLower email)

/-- Constructor name argument `name.strip() if name else ''`. -/
def stripName (v : Val) : Except PyErr String :=
  if v.truthy then v.strip else .ok ""

/-- Embedding of `DataLoader._get_or_create_rider`: look the normalised key
up; create and append a fresh `Rider` when absent (names stripped, empty
when falsy); otherwise fill `first_name`/`last_name` only when the stored
one is falsy and the supplied one truthy.  The result pairs the registry
after the call (in-place mutations survive a raise, as in CPython) with
the returned key or the `AttributeError` raised when a truthy non-string
(NaN cell) is stripped. -/
def getOrCreateRider (reg : Reg) (email : String) (first last : Val) :
    Reg × Except PyErr String :=
  let key := normKey email
  match rLookup reg key with
  | none =>
    match stripName first, stripName last with
    | .ok f, .ok l => (reg ++ [(key, mkRider key f l)], .ok key)
    | .error e, _ => (reg, .error e)
    | _, .error e => (reg, .error e)
  | some r =>
    match (if first.truthy ∧ ¬ r.first_name.truthy then
        (first.strip).map (fun f => { r with first_name := .vstr f })
      else .ok r) with
    | .error e => (reg, .error e)
    | .ok r1 =>
      match (if last.truthy ∧ ¬ r1.last_name.truthy then
          (last.strip).map (fun s => { r1 with last_name := .vstr s })
        else .ok r1) with
      | .error e => (rSet reg key r1, .error e)
      | .ok r2 => (rSet reg key r2, .ok key)

/-- A sequence of `_get_or_create_rider` calls with string name arguments
(such calls never raise), folded over the registry. -/
def applyCalls (calls : List (String × String × String)) (reg : Reg) : Reg :=
  calls.foldl
    (fun reg c => (getOrCreateRider reg c.1 (.vstr c.2.1) (.vstr c.2.2)).1)
    reg

/-! ### Tabular rows and the loader state -/

/-- Raw tabular row: cells keyed by header strings, in column order. -/
abbrev RawRow := List (String × Val)

/-- Generic ordered-dict insert: keeps the first-occurrence position of an
existing key and overwrites its value; appends new keys. -/
def alInsert {α : Type} (l : List (String × α)) (k : String) (v : α) :
    List (String × α) :=
  match l with
  | [] => [(k, v)]
  | (k', v') :: rest =>
    if k' = k then (k', v) :: rest else (k', v') :: alInsert rest k v

/-- First value stored under a key. -/
def alLookup {α : Type} (l : List (String × α)) (k : String) : Option α :=
  match l with
  | [] => none
  | (k', v') :: rest => if k' = k then some v' else alLookup rest k

/-- Python `row.get(k, d)`. -/
def rowGet (row : RawRow) (k : String) (d : Val) : Val :=
  (alLookup row k).getD d

/-- Python `row.get(k)` (default `None`). -/
def rowGetD (row : RawRow) (k : String) : Val :=
  rowGet row k .vnone

/-- Keys of a row in insertion order (`row.keys()`). -/
def rowKeys (row : RawRow) : List String :=
  row.map Prod.fst

/-- The empty-string default cell `''`. -/
def vempty : Val := .vstr ""

/-- Python `v == "t"` for a cell value against a string literal. -/
def valEqStr : Val → String → Bool
  | .vstr s, t => s = t
  | _, _ => false

/-- Key normalisation of `_get_data_iter`:
`{str(k).lower().strip(): v for k, v in row.items() if k}` (falsy keys
dropped; a later duplicate normalised key overwrites the value but keeps
the first position, as in a dict comprehension). -/
def normRow (row : RawRow) : RawRow :=
  row.foldl
    (fun acc kv =>
      if kv.1 = "" then acc
      else alInsert acc (pyStrip (pyLower kv.1)) kv.2)
    []

/-- One CSV file as `csv.DictReader` sees it: the header row and the data
rows (a short row yields `None` cells, never `NaN`). -/
structure CsvFile where
  headers : List String
  rows : List RawRow

/-- One row of the Facebook Messenger history as pandas parses it:
conversation `title` (`none` for `NaN`) and `messages__timestamp_ms`
(`none` where `pd.to_datetime(…, errors="coerce")` yields `NaT`). -/
structure FbRow where
  title : Option String
  tsMs : Option Int
deriving DecidableEq

/-- The Facebook Messenger history file as read by
`pd.read_csv(filepath, header=1)`. -/
structure FbData where
  hasTitle : Bool
  rows : List FbRow

/-- One Airtable master record (the fields `_load_from_airtable` reads,
all string-valued in the fetched JSON except the multi-select `Tags`). -/
structure ATRec where
  email : Option String := none
  fullName : Option String := none
  firstName : Option String := none
  lastName : Option String := none
  phoneNumber : Option String := none
  fbUrl : Option String := none
  igUrl : Option String := none
  websiteUrl : Option String := none
  tags : Option (List String) := none
  overallScore : Option String := none
  biggestMistake : Option String := none
  dateBlueprintStarted : Option String := none
  dateDay1 : Option String := none
  stage : Option String := none
  notes : Option String := none
  champ : Option String := none
  followUpDate : Option String := none

/-- Python truthiness of `r.get('Field')` on an optional string. -/
def optTruthy : Option String → Bool
  | some s => s ≠ ""
  | none => false

/-- Input configuration of one reconciliation run: the `overrides` mapping,
the CSV files of the data directory (in `os.listdir` order), the pandas
view of the Facebook history file, the Airtable record set (`none` when no
Airtable manager is configured), and the current wall-clock time (for
`datetime.now()`). -/
structure Cfg where
  overrides : List (String × List RawRow) := []
  files : List (String × CsvFile) := []
  fbFile : Option FbData := none
  airtable : Option (List ATRec) := none
  now : DateTime := ⟨2025, 1, 1, 0, 0, 0, 0⟩

/-- Embedding of `DataLoader._get_data_iter`: overrides first, then the
file system, each row with keys lowercased and stripped. -/
def getDataIter (cfg : Cfg) (filename : String) : List RawRow :=
  match alLookup cfg.overrides filename with
  | some rows => rows.map normRow
  | none =>
    match alLookup cfg.files filename with
    | some file => file.rows.map normRow
    | none => []

/-- Mutable `DataLoader` state: the rider registry and the load report. -/
structure DL where
  riders : Reg := []
  total : Nat := 0
  loaded : Nat := 0
  skipped : Nat := 0
  reasons : List (String × Nat) := []
deriving DecidableEq

/-- One stateful ingestion step: final state plus the exception it raised,
if any (state mutated before the raise persists, as in CPython). -/
abbrev Step := DL → DL × Option PyErr

/-- Mutates the rider stored under a key in place (no-op when absent; the
loaders only use keys just returned by `_get_or_create_rider`). -/
def updRider (st : DL) (k : String) (g : Rider → Rider) : DL :=
  { st with riders :=
      match rLookup st.riders k with
      | some r => rSet st.riders k (g r)
      | none => st.riders }

/-- Runs a per-row step over the rows of a feed, stopping at the first
uncaught exception (which aborts the `for` loop). -/
def runRows (f : RawRow → Step) : List RawRow → Step
  | [], st => (st, none)
  | row :: rows, st =>
    match f row st with
    | (st', none) => runRows f rows st'
    | (st', some e) => (st', some e)

/-- Runs steps in sequence, stopping at the first uncaught exception. -/
def runSteps : List Step → Step
  | [], st => (st, none)
  | s :: rest, st =>
    match s st with
    | (st', none) => runSteps rest st'
    | (st', some e) => (st', some e)

/-- Python `try: … except Exception: pass` around a whole step: the
exception is swallowed, the state mutated so far is kept. -/
def pyTry (s : Step) : Step := fun st => ((s st).1, none)

/-- The common milestone date chain
`row.get('submit_date_utc','') or row.get('stage_date_utc','') or
row.get('date','') or row.get('timestamp','') or row.get('created at','')
or row.get('submit date','')`. -/
def milestoneDateVal (row : RawRow) : Val :=
  (rowGet row "submit_date_utc" vempty).orElse
    ((rowGet row "stage_date_utc" vempty).orElse
      ((rowGet row "date" vempty).orElse
        ((rowGet row "timestamp" vempty).orElse
          ((rowGet row "created at" vempty).orElse
            (rowGet row "submit date" vempty)))))

/-! ### Feed ingestors

Each `_load_*` method of `DataLoader` is one `Cfg → Step`.  The
`self.airtable.upsert_rider(...)` side calls are writes to the remote
store wrapped in `try: … except Exception: pass`; they never touch
`self.riders` or the load report and are not part of the state, so they
are omitted from the embedding. -/

/-- Embedding of `_load_strategy_call_applications`
(`Strategy Call Application.csv`): unconditional stage write to
`STRATEGY_CALL_BOOKED`, unconditional timestamp and contact-field
assignments. -/
def strategyRowStep (row : RawRow) : Step := fun st =>
      match (rowGet row "email" vempty).strip with
      | .error e => (st, some e)
      | .ok email =>
        if email = "" then (st, none)
        else
          let (reg1, res) := getOrCreateRider st.riders email
            (rowGet row "first_name" vempty) (rowGet row "last_name" vempty)
          let st1 := { st with riders := reg1 }
          match res with
          | .error e => (st1, some e)
          | .ok key =>
            let st2 := updRider st1 key
              (fun r => { r with current_stage := .strategyCallBooked })
            match parseDateVal (milestoneDateVal row) with
            | .error e => (st2, some e)
            | .ok d =>
              let st3 := updRider st2 key
                (fun r => { r with strategy_call_booked_date := d })
              let st4 := updRider st3 key
                (fun r => { r with phone := rowGet row "phone" vempty })
              let st5 := updRider st4 key
                (fun r => { r with country := rowGet row "country" vempty })
              let st6 := updRider st5 key
                (fun r => { r with rider_type := rowGet row "rider_type" vempty })
              let st7 := updRider st6 key
                (fun r => { r with championship := rowGet row "championship_racing_in" vempty })
              (st7, none)

def loadStrategyCallApplications (cfg : Cfg) : Step :=
  runRows strategyRowStep (getDataIter cfg "Strategy Call Application.csv")

/-- Embedding of `_load_blueprint_registrations`
(`Podium Contenders Blueprint Registered.csv`): stage advanced only from
`OUTREACH` (= `MESSAGED`), timestamp written unconditionally,
contact fields only when not already set. -/
def blueprintRowStep (row : RawRow) : Step := fun st =>
      match (rowGet row "email" vempty).strip with
      | .error e => (st, some e)
      | .ok email =>
        if email = "" then (st, none)
        else
          let (reg1, res) := getOrCreateRider st.riders email
            (rowGet row "first_name" vempty) (rowGet row "last_name" vempty)
          let st1 := { st with riders := reg1 }
          match res with
          | .error e => (st1, some e)
          | .ok key =>
            let st2 := updRider st1 key
              (fun r =>
                if r.current_stage = FunnelStage.outreach then
                  { r with current_stage := FunnelStage.registered }
                else r)
            match parseDateVal (milestoneDateVal row) with
            | .error e => (st2, some e)
            | .ok d =>
              let st3 := updRider st2 key (fun r => { r with registered_date := d })
              let st4 := updRider st3 key
                (fun r =>
                  if ¬ r.phone.truthy then { r with phone := rowGet row "phone" vempty }
                  else r)
              let st5 := updRider st4 key
                (fun r =>
                  if ¬ r.country.truthy then { r with country := rowGet row "country" vempty }
                  else r)
              let st6 := updRider st5 key
                (fun r =>
                  if ¬ r.rider_type.truthy then
                    { r with rider_type := rowGet row "rider_type" vempty }
                  else r)
              (st6, none)

def loadBlueprintRegistrations (cfg : Cfg) : Step :=
  runRows blueprintRowStep (getDataIter cfg "Podium Contenders Blueprint Registered.csv")

/-- The day-1 date chain (`scorecard_finished_at` first, then the generic
milestone chain without `stage_date_utc`). -/
def day1DateVal (row : RawRow) : Val :=
  (rowGet row "scorecard_finished_at" vempty).orElse
    ((rowGet row "submit_date_utc" vempty).orElse
      ((rowGet row "date" vempty).orElse
        ((rowGet row "timestamp" vempty).orElse
          ((rowGet row "created at" vempty).orElse
            (rowGet row "submit date" vempty)))))

/-- Embedding of `_load_day1_assessments`
(`7 Biggest Mistakes Assessment.csv`): only rows with
`completed == 'yes'`; stage advanced only from `OUTREACH`/`REGISTERED`;
timestamp written unconditionally; `day1_score` from
`row.get('Overall Score - Actual', '0')` (the capitalised key never
survives key normalisation, so the default `'0'` applies), `ValueError`
swallowed. -/
def day1RowStep (row : RawRow) : Step := fun st =>
      match (rowGet row "email" vempty).strip with
      | .error e => (st, some e)
      | .ok email =>
        if email = "" then (st, none)
        else
          match (rowGet row "completed" vempty).lower with
          | .error e => (st, some e)
          | .ok completed =>
            if completed ≠ "yes" then (st, none)
            else
              let (reg1, res) := getOrCreateRider st.riders email
                (rowGet row "first_name" vempty) (rowGet row "last_name" vempty)
              let st1 := { st with riders := reg1 }
              match res with
              | .error e => (st1, some e)
              | .ok key =>
                let st2 := updRider st1 key
                  (fun r =>
                    if r.current_stage = FunnelStage.outreach ∨
                        r.current_stage = FunnelStage.registered then
                      { r with current_stage := .day1Complete }
                    else r)
                match parseDateVal (day1DateVal row) with
                | .error e => (st2, some e)
                | .ok d =>
                  let st3 := updRider st2 key (fun r => { r with day1_complete_date := d })
                  let scoreStr := rowGet row "Overall Score - Actual" (.vstr "0")
                  if scoreStr.truthy then
                    match pyFloatOfVal scoreStr with
                    | .ok v => (updRider st3 key (fun r => { r with day1_score := some v }), none)
                    | .error .valueError => (st3, none)
                    | .error e => (st3, some e)
                  else (updRider st3 key (fun r => { r with day1_score := none }), none)

def loadDay1Assessments (cfg : Cfg) : Step :=
  runRows day1RowStep (getDataIter cfg "7 Biggest Mistakes Assessment.csv")

/-- The pillar-score column mapping of `_load_day2_assessments`. -/
def day2Pillars : List (String × String) :=
  [("Pillar 1", "mindset"), ("Pillar 2", "preparation"), ("Pillar 3", "flow"),
    ("Pillar 4", "feedback"), ("Pillar 5", "sponsorship")]

/-- One pillar extraction: the first column whose lowercased name contains
both the pillar name and `'rate'`; `float` errors are swallowed. -/
def day2PillarStep (row : RawRow) (scores : List (String × PyFloat))
    (csvKey scoreKey : String) : List (String × PyFloat) :=
  match (rowKeys row).find? (fun col =>
      pySubstr (pyLower csvKey) (pyLower col) ∧ pySubstr "rate" (pyLower col)) with
  | none => scores
  | some col =>
    match pyFloatOfVal (rowGetD row col) with
    | .ok v => alInsert scores scoreKey v
    | .error _ => scores

/-- Embedding of `_load_day2_assessments` (`Day 2 Self Assessment.csv`):
stage advanced only from `OUTREACH`/`REGISTERED`/`DAY1_COMPLETE`;
timestamp written unconditionally; `day2_scores` reset to a fresh dict
each row and filled per pillar. -/
def day2RowStep (row : RawRow) : Step := fun st =>
      match (rowGet row "email" vempty).strip with
      | .error e => (st, some e)
      | .ok email =>
        if email = "" then (st, none)
        else
          let (reg1, res) := getOrCreateRider st.riders email
            (rowGet row "first_name" vempty) (rowGet row "last_name" vempty)
          let st1 := { st with riders := reg1 }
          match res with
          | .error e => (st1, some e)
          | .ok key =>
            let st2 := updRider st1 key
              (fun r =>
                if r.current_stage = FunnelStage.outreach ∨
                    r.current_stage = FunnelStage.registered ∨
                    r.current_stage = FunnelStage.day1Complete then
                  { r with current_stage := .day2Complete }
                else r)
            match parseDateVal (milestoneDateVal row) with
            | .error e => (st2, some e)
            | .ok d =>
              let st3 := updRider st2 key (fun r => { r with day2_complete_date := d })
              let scores := day2Pillars.foldl
                (fun sc p => day2PillarStep row sc p.1 p.2) []
              (updRider st3 key (fun r => { r with day2_scores := some scores }), none)

def loadDay2Assessments (cfg : Cfg) : Step :=
  runRows day2RowStep (getDataIter cfg "Day 2 Self Assessment.csv")

/-- Tag-to-stage mapping of `_load_xperiencify_csv` (given the lowercased
tag string and the rider's current stage). -/
def xperiencifyNewStage (tLower : String) (cur : FunnelStage) : Option FunnelStage :=
  if pySubstr "day 3 completed" tLower then none
  else if pySubstr "day 2 completed" tLower then
    if cur ≠ .strategyCallBooked ∧ cur ≠ .client then some .day2Complete else none
  else if pySubstr "day 1 completed" tLower then
    if cur ≠ .day2Complete ∧ cur ≠ .strategyCallBooked ∧ cur ≠ .client then
      some .day1Complete
    else none
  else if pySubstr "mission accepted" tLower ∨ pySubstr "blueprint started" tLower then
    if cur = FunnelStage.outreach ∨ cur = .contact then some .blueprintStarted else none
  else none

/-- Embedding of `_load_xperiencify_csv` (`Xperiencify.csv`): guarded
contact fields, fill-once `registered_date`/`outreach_date` from
`date_joined`, and the tag-based stage mapping. -/
def xperiencifyRowStep (row : RawRow) : Step := fun st =>
      match (rowGet row "email" vempty).strip with
      | .error e => (st, some e)
      | .ok email =>
        if email = "" then (st, none)
        else
          let (reg1, res) := getOrCreateRider st.riders email
            (rowGet row "first_name" vempty) (rowGet row "last_name" vempty)
          let st1 := { st with riders := reg1 }
          match res with
          | .error e => (st1, some e)
          | .ok key =>
            let st2 :=
              if (rowGetD row "phone").truthy then
                updRider st1 key (fun r => { r with phone := rowGetD row "phone" })
              else st1
            let st3 :=
              if (rowGetD row "magic_link").truthy then
                updRider st2 key
                  (fun r => { r with magic_link := some (rowGetD row "magic_link") })
              else st2
            let joinedStep : DL × Option PyErr :=
              if (rowGetD row "date_joined").truthy then
                match parseDateVal (rowGetD row "date_joined") with
                | .error e => (st3, some e)
                | .ok none => (st3, none)
                | .ok (some d) =>
                  (updRider st3 key
                    (fun r =>
                      let r1 := if r.registered_date = none then
                          { r with registered_date := some d } else r
                      if r1.outreach_date = none then
                        { r1 with outreach_date := some d } else r1), none)
              else (st3, none)
            match joinedStep with
            | (st4, some e) => (st4, some e)
            | (st4, none) =>
              match (rowGet row "tags" vempty).lower with
              | .error e => (st4, some e)
              | .ok tLower =>
                (updRider st4 key
                  (fun r =>
                    match xperiencifyNewStage tLower r.current_stage with
                    | some s => { r with current_stage := s }
                    | none => r), none)

def loadXperiencifyCsv (cfg : Cfg) : Step :=
  runRows xperiencifyRowStep (getDataIter cfg "Xperiencify.csv")

/-- Embedding of `_load_flow_profile_results` (`Flow Profile.csv`). -/
def flowRowStep (row : RawRow) : Step := fun st =>
      match (rowGet row "email" vempty).strip with
      | .error e => (st, some e)
      | .ok email =>
        if email = "" then (st, none)
        else
          let (reg1, res) := getOrCreateRider st.riders email
            (rowGet row "first name" vempty) (rowGet row "last name" vempty)
          let st1 := { st with riders := reg1 }
          match res with
          | .error e => (st1, some e)
          | .ok key =>
            match parseDateVal (rowGet row "submit date (utc)" vempty) with
            | .error e => (st1, some e)
            | .ok d =>
              let st2 := updRider st1 key (fun r => { r with flow_profile_date := d })
              let st3 :=
                match pyFloatOfVal (rowGet row "score" (.vstr "0")) with
                | .ok v => updRider st2 key (fun r => { r with flow_profile_score := some v })
                | .error _ => st2
              let endingUrl := rowGet row "ending" vempty
              let st4 := updRider st3 key (fun r => { r with flow_profile_url := endingUrl })
              let st5 := updRider st4 key
                (fun r =>
                  if r.current_stage = .contact ∨ r.current_stage = FunnelStage.outreach then
                    { r with current_stage := .flowProfileCompleted }
                  else r)
              if endingUrl.truthy then
                match endingUrl.lower with
                | .error e => (st5, some e)
                | .ok low =>
                  let result :=
                    if pySubstr "go-getter" low then "Go Getter"
                    else if pySubstr "deepthinker" low then "Deep Thinker"
                    else "Completed"
                  (updRider st5 key
                    (fun r => { r with flow_profile_result := .vstr result }), none)
              else (st5, none)

def loadFlowProfileResults (cfg : Cfg) : Step :=
  runRows flowRowStep (getDataIter cfg "Flow Profile.csv")

/-- Embedding of `_load_sleep_test` (`Sleep Test.csv`): note that
`load_all_data` runs this ingestor twice. -/
def sleepRowStep (row : RawRow) : Step := fun st =>
      match (rowGet row "email" vempty).strip with
      | .error e => (st, some e)
      | .ok email =>
        if email = "" then (st, none)
        else
          let (reg1, res) := getOrCreateRider st.riders email
            (rowGet row "first_name" vempty) (rowGet row "last_name" vempty)
          let st1 := { st with riders := reg1 }
          match res with
          | .error e => (st1, some e)
          | .ok key =>
            match parseDateVal ((rowGet row "submit_date_utc" vempty).orElse
                (rowGet row "stage_date_utc" vempty)) with
            | .error e => (st1, some e)
            | .ok d =>
              let st2 := updRider st1 key (fun r => { r with sleep_test_date := d })
              let score := (rowGet row "Overall Score - Actual" vempty).orElse
                (rowGet row "Score" vempty)
              let scoreStep : DL × Option PyErr :=
                if score.truthy then
                  match pyFloatOfVal score with
                  | .ok v => (updRider st2 key (fun r => { r with sleep_score := some v }), none)
                  | .error .valueError => (st2, none)
                  | .error e => (st2, some e)
                else (st2, none)
              match scoreStep with
              | (st3, some e) => (st3, some e)
              | (st3, none) =>
                (updRider st3 key
                  (fun r =>
                    if r.current_stage = .contact ∨ r.current_stage = FunnelStage.outreach then
                      { r with current_stage := .sleepTestCompleted }
                    else r), none)

def loadSleepTest (cfg : Cfg) : Step :=
  runRows sleepRowStep (getDataIter cfg "Sleep Test.csv")

/-- Embedding of `_load_mindset_quiz` (`Mindset Quiz.csv`). -/
def mindsetRowStep (row : RawRow) : Step := fun st =>
      match (rowGet row "email" vempty).strip with
      | .error e => (st, some e)
      | .ok email =>
        if email = "" then (st, none)
        else
          let (reg1, res) := getOrCreateRider st.riders email
            (rowGet row "first_name" vempty) (rowGet row "last_name" vempty)
          let st1 := { st with riders := reg1 }
          match res with
          | .error e => (st1, some e)
          | .ok key =>
            match parseDateVal ((rowGet row "submit_date_utc" vempty).orElse
                (rowGet row "stage_date_utc" vempty)) with
            | .error e => (st1, some e)
            | .ok d =>
              let st2 := updRider st1 key (fun r => { r with mindset_quiz_date := d })
              let score := (rowGet row "Overall Score - Actual" vempty).orElse
                (rowGet row "Score" vempty)
              let scoreStep : DL × Option PyErr :=
                if score.truthy then
                  match pyFloatOfVal score with
                  | .ok v => (updRider st2 key (fun r => { r with mindset_score := some v }), none)
                  | .error .valueError => (st2, none)
                  | .error e => (st2, some e)
                else (st2, none)
              match scoreStep with
              | (st3, some e) => (st3, some e)
              | (st3, none) =>
                let outcome := (rowGet row "Outcome" vempty).orElse
                  (rowGet row "Your Mindset" vempty)
                let outcomeStep : DL × Option PyErr :=
                  if outcome.truthy then
                    match outcome.strip with
                    | .error e => (st3, some e)
                    | .ok s =>
                      (updRider st3 key (fun r => { r with mindset_result := .vstr s }), none)
                  else (st3, none)
                match outcomeStep with
                | (st4, some e) => (st4, some e)
                | (st4, none) =>
                  (updRider st4 key
                    (fun r =>
                      if r.current_stage = .contact ∨
                          r.current_stage = FunnelStage.outreach then
                        { r with current_stage := .mindsetQuizCompleted }
                      else r), none)

def loadMindsetQuiz (cfg : Cfg) : Step :=
  runRows mindsetRowStep (getDataIter cfg "Mindset Quiz.csv")

/-- Embedding of `_load_race_reviews` (`export (15).csv`): keeps the latest
review date seen so far. -/
def raceReviewRowStep (row : RawRow) : Step := fun st =>
      match (rowGet row "email" vempty).strip with
      | .error e => (st, some e)
      | .ok email =>
        if email = "" then (st, none)
        else
          let (reg1, res) := getOrCreateRider st.riders email
            (rowGet row "first_name" vempty) (rowGet row "last_name" vempty)
          let st1 := { st with riders := reg1 }
          match res with
          | .error e => (st1, some e)
          | .ok key =>
            match parseDateVal ((rowGetD row "scorecard_finished_at").orElse
                ((rowGetD row "submit_date_utc").orElse
                  (rowGetD row "Submit Date (UTC)"))) with
            | .error e => (st1, some e)
            | .ok none => (st1, none)
            | .ok (some d) =>
              (updRider st1 key
                (fun r =>
                  if r.race_weekend_review_date = none ∨
                      (r.race_weekend_review_date.all (fun old => old.lt d)) then
                    { r with
                      race_weekend_review_date := some d
                      race_weekend_review_status := .vstr "completed" }
                  else r), none)

def loadRaceReviews (cfg : Cfg) : Step :=
  runRows raceReviewRowStep (getDataIter cfg "export (15).csv")

/-- Embedding of `_load_manual_updates` (`manual_updates.csv`, read from
the file system only, the whole loader inside `try: … except: pass`): for
each row, the stage whose enum `value` equals the stage cell is applied
unconditionally, and a manual move to `MESSAGED` always overwrites
`outreach_date` with the row timestamp. -/
def manualUpdateRowStep (row : RawRow) : Step := fun st =>
          match (rowGet row "email" vempty).strip with
          | .error e => (st, some e)
          | .ok emailStripped =>
            let email := pyLower emailStripped
            let stageVal := rowGet row "stage" vempty
            let tsVal := rowGet row "timestamp" vempty
            if email = "" ∨ ¬ stageVal.truthy then (st, none)
            else
              match stageList.find? (fun s => valEqStr stageVal s.value) with
              | none => (st, none)
              | some stg =>
                let (reg1, res) := getOrCreateRider st.riders email
                  (.vstr "") (.vstr "")
                let st1 := { st with riders := reg1 }
                match res with
                | .error e => (st1, some e)
                | .ok key =>
                  let st2 := updRider st1 key
                    (fun r => { r with current_stage := stg })
                  if stg = .messaged ∧ tsVal.truthy then
                    match parseDateVal tsVal with
                    | .error e => (st2, some e)
                    | .ok none => (st2, none)
                    | .ok (some t) =>
                      (updRider st2 key (fun r => { r with outreach_date := some t }), none)
                  else (st2, none)

def loadManualUpdates (cfg : Cfg) : Step := fun st =>
  match alLookup cfg.files "manual_updates.csv" with
  | none => (st, none)
  | some file =>
    pyTry (runRows manualUpdateRowStep file.rows) st

/-- Embedding of `_load_revenue_log` (`revenue_log.csv`, file system only,
whole loader inside `try: … except: pass`): a positive amount sets
`sale_value` and forces the stage to `SALE_CLOSED` (= `CLIENT`). -/
def revenueRowStep (row : RawRow) : Step := fun st =>
          match (rowGet row "email" vempty).strip with
          | .error e => (st, some e)
          | .ok emailStripped =>
            let email := pyLower emailStripped
            let amountRes :=
              match alLookup row "amount" with
              | none => Except.ok (PyFloat.fin 0)
              | some v => pyFloatOfVal v
            match amountRes with
            | .error .valueError => (st, none)
            | .error e => (st, some e)
            | .ok amount =>
              if email ≠ "" ∧ amount.posit then
                let (reg1, res) := getOrCreateRider st.riders email (.vstr "") (.vstr "")
                let st1 := { st with riders := reg1 }
                match res with
                | .error e => (st1, some e)
                | .ok key =>
                  let st2 := updRider st1 key (fun r => { r with sale_value := some amount })
                  (updRider st2 key
                    (fun r =>
                      if r.current_stage ≠ FunnelStage.saleClosed then
                        { r with current_stage := FunnelStage.saleClosed }
                      else r), none)
              else (st, none)

def loadRevenueLog (cfg : Cfg) : Step := fun st =>
  match alLookup cfg.files "revenue_log.csv" with
  | none => (st, none)
  | some file =>
    pyTry (runRows revenueRowStep file.rows) st

/-- Python `setattr(rider, field_name, value)` after a true
`hasattr(rider, field_name)`, for the generic branch of
`_load_rider_details`.  Modelled for the dataclass fields whose embedded
type is `Val` (the fields this log stores: notes, championship,
disqualification_reason, names, contact and social fields) and for the
dynamically-added attributes (present only once set).  Fields whose
embedded type is not `Val` (`email`, stage, dates, scores, flags) are
returned as unsettable here: Python would store the raw string in the
typed slot, which no caller of this log does. -/
def setattrStr (r : Rider) (fieldName : String) (v : Val) : Option Rider :=
  if fieldName = "first_name" then some { r with first_name := v }
  else if fieldName = "last_name" then some { r with last_name := v }
  else if fieldName = "phone" then some { r with phone := v }
  else if fieldName = "facebook_url" then some { r with facebook_url := v }
  else if fieldName = "instagram_url" then some { r with instagram_url := v }
  else if fieldName = "linkedin_url" then some { r with linkedin_url := v }
  else if fieldName = "championship" then some { r with championship := v }
  else if fieldName = "race_weekend_review_status" then
    some { r with race_weekend_review_status := v }
  else if fieldName = "flow_profile_result" then some { r with flow_profile_result := v }
  else if fieldName = "flow_profile_url" then some { r with flow_profile_url := v }
  else if fieldName = "mindset_result" then some { r with mindset_result := v }
  else if fieldName = "notes" then some { r with notes := v }
  else if fieldName = "disqualification_reason" then
    some { r with disqualification_reason := v }
  else if fieldName = "country" then some { r with country := v }
  else if fieldName = "rider_type" then some { r with rider_type := v }
  else if fieldName = "magic_link" ∧ r.magic_link.isSome then
    some { r with magic_link := some v }
  else if fieldName = "tags" ∧ r.tags.isSome then some { r with tags := some v }
  else if fieldName = "biggest_mistake" ∧ r.biggest_mistake.isSome then
    some { r with biggest_mistake := some v }
  else none

/-- Embedding of `_load_rider_details` (`rider_details.csv`, file system
only, whole loader inside `try: … except: pass`): replays the append-only
`(email, field, value)` log. -/
def riderDetailsRowStep (row : RawRow) : Step := fun st =>
          match (rowGet row "email" vempty).strip with
          | .error e => (st, some e)
          | .ok emailStripped =>
            let email := pyLower emailStripped
            let fieldName := rowGetD row "field"
            let valueStr := rowGetD row "value"
            if email = "" ∨ ¬ fieldName.truthy then (st, none)
            else
              let (reg1, res) := getOrCreateRider st.riders email (.vstr "") (.vstr "")
              let st1 := { st with riders := reg1 }
              match res with
              | .error e => (st1, some e)
              | .ok key =>
                if valEqStr fieldName "follow_up_date" then
                  match parseDateVal valueStr with
                  | .error e => (st1, some e)
                  | .ok d => (updRider st1 key (fun r => { r with follow_up_date := d }), none)
                else if valEqStr fieldName "is_disqualified" then
                  (updRider st1 key
                    (fun r => { r with is_disqualified := valEqStr valueStr "True" }), none)
                else if valEqStr fieldName "sale_value" then
                  match pyFloatOfVal valueStr with
                  | .ok v => (updRider st1 key (fun r => { r with sale_value := some v }), none)
                  | .error _ => (st1, none)
                else
                  match fieldName with
                  | .vstr fn =>
                    (updRider st1 key
                      (fun r => (setattrStr r fn valueStr).getD r), none)
                  | _ => (st1, some .typeError)

def loadRiderDetails (cfg : Cfg) : Step := fun st =>
  match alLookup cfg.files "rider_details.csv" with
  | none => (st, none)
  | some file =>
    pyTry (runRows riderDetailsRowStep file.rows) st

/-- Sequencing of stateful sub-steps inside one row (an exception skips
the rest). -/
def andThen (a : DL × Option PyErr) (f : DL → DL × Option PyErr) : DL × Option PyErr :=
  match a with
  | (st, none) => f st
  | e => e

/-- A guarded rider write (`if cond: setattr(rider, …)`). -/
def atUpd (c : Prop) [Decidable c] (k : String) (g : Rider → Rider) (st : DL) : DL :=
  if c then updRider st k g else st

/-- A rider write fed by an optional value (`if x is not None: …`). -/
def atUpdOpt {α : Type} (o : Option α) (k : String) (g : α → Rider → Rider)
    (st : DL) : DL :=
  match o with
  | some a => updRider st k (g a)
  | none => st

/-- A guarded numeric-field write whose conversion may raise
(`rider.f = float(x)` under a guard). -/
def atScore (score : Option (Except PyErr PyFloat)) (k : String)
    (g : PyFloat → Rider → Rider) (st : DL) : DL × Option PyErr :=
  match score with
  | none => (st, none)
  | some (.ok v) => (updRider st k (g v), none)
  | some (.error e) => (st, some e)

/-- The name slug of `_load_rider_database`:
`f"{first} {last}".lower().strip().replace(' ','_')` with every character
that is not alphanumeric or underscore removed, and the `unknown_rider`
sentinel when empty. -/
def riderDbSlug (first last : String) : String :=
  let s0 := pyReplaceChar (pyStrip (pyLower (first ++ " " ++ last))) ' ' '_'
  let s1 : String := ⟨s0.data.filter (fun c => pyIsAlnum c ∨ c = '_')⟩
  if s1 = "" then "unknown_rider" else s1

/-- Stage-string mapping of `_load_rider_database`: first exact match on
the lowercased enum value (iteration order), else the alias table built
inside the same loop (`client`/`won`, `lost`/`not a fit`,
`messaged`/`outreach`). -/
def riderDbMapStage (sClean : String) : Option FunnelStage :=
  match stageList.find? (fun s => pyLower s.value = sClean) with
  | some s => some s
  | none =>
    if sClean = "client" ∨ sClean = "won" then some .client
    else if sClean = "lost" ∨ sClean = "not a fit" then some .notAFit
    else if sClean = "messaged" ∨ sClean = "outreach" then some .messaged
    else none

/-- Python `str(v).lower() in ['yes', 'true', '1', 'y']`. -/
def pyFlagYes (v : Val) : Bool :=
  pyLower v.toPy = "yes" ∨ pyLower v.toPy = "true" ∨ pyLower v.toPy = "1" ∨
    pyLower v.toPy = "y"

/-- Identity resolution of one `Rider Database.csv` row: the first
`*email*` column, then an `id`/`user_id` cell carrying a `no_email_…` key,
then the name slug.  Returns `none` when the row has no identity (it is
skipped and counted), otherwise the identity key, the (possibly stripped)
name cells and the row after the `row['last name']` injection performed
when a full name was split. -/
def riderDbIdentity (row : RawRow) :
    Except PyErr (Option (String × Val × Val × RawRow)) := do
  let emailV0 : Val :=
    match (rowKeys row).find? (fun k => pySubstr "email" k) with
    | some k => rowGetD row k
    | none => .vnone
  let emailV1 ←
    if emailV0.truthy then pure emailV0
    else do
      let v1 ← (rowGet row "id" vempty).strip
      if pyStartsWith "no_email_" v1 then pure (Val.vstr v1)
      else do
        let v2 ← (rowGet row "user_id" vempty).strip
        if pyStartsWith "no_email_" v2 then pure (Val.vstr v2) else pure emailV0
  let emailV2 ←
    if emailV1.truthy then do
      let s ← emailV1.strip
      pure (Val.vstr s)
    else pure emailV1
  let firstV0 := (rowGetD row "first name").orElse
    ((rowGetD row "first_name").orElse (rowGetD row "firstname"))
  let (firstV1, row1) ←
    if ¬ firstV0.truthy then do
      let full := (rowGetD row "name").orElse
        ((rowGetD row "full name").orElse
          ((rowGetD row "fullname").orElse
            ((rowGetD row "rider").orElse
              ((rowGetD row "competitor").orElse
                ((rowGetD row "driver").orElse (rowGetD row "rider name"))))))
      if full.truthy then do
        let fs ← full.strip
        let parts := pySplitSpace fs
        let first := Val.vstr (parts.headD "")
        if parts.length > 1 then
          pure (first, alInsert row "last name" (.vstr (pyJoinSpace parts.tail)))
        else pure (first, row)
      else pure (firstV0, row)
    else pure (firstV0, row)
  let lastV0 := (rowGetD row1 "last name").orElse
    ((rowGetD row1 "last_name").orElse
      ((rowGetD row1 "lastname").orElse (rowGetD row1 "surname")))
  let firstV ←
    if firstV1.truthy then do
      let s ← firstV1.strip
      pure (Val.vstr s)
    else pure firstV1
  let lastV ←
    if lastV0.truthy then do
      let s ← lastV0.strip
      pure (Val.vstr s)
    else pure lastV0
  let emailV3 :=
    if ¬ emailV2.truthy then
      if firstV.truthy then
        Val.vstr (riderDbSlug firstV.toPy (if lastV.truthy then lastV.toPy else ""))
      else emailV2
    else emailV2
  match emailV3 with
  | .vstr s => if s = "" then pure none else pure (some (s, firstV, lastV, row1))
  | _ => pure none

/-- The Instagram cell selection of `_load_rider_database`: the first
column whose name contains `instagram` wins (the loop breaks there);
otherwise the last `ig`/`*username*` column (no break). -/
def riderDbIgVal (row : RawRow) : Option Val :=
  match (rowKeys row).find? (fun k => pySubstr "instagram" k) with
  | some k => some (rowGetD row k)
  | none =>
    match ((rowKeys row).filter (fun k => k = "ig" ∨ pySubstr "username" k)).getLast? with
    | some k => some (rowGetD row k)
    | none => none

/-- Field application of one `Rider Database.csv` row after
`_get_or_create_rider` returned `key` (the row passed in already carries
the injected `last name`). -/
def riderDbFields (cfg : Cfg) (row1 : RawRow) (key : String)
    (firstV lastV : Val) : Step := fun st =>
  andThen
    (match rLookup st.riders key with
      | none => (st, none)
      | some r =>
        let djs := rowGetD row1 "date_joined"
        if djs.truthy ∧ r.outreach_date = none then
          match parseDateVal djs with
          | .error e => (st, some e)
          | .ok d => (updRider st key (fun r => { r with outreach_date := d }), none)
        else (st, none))
    (fun st =>
  let st := updRider st key
    (fun r =>
      if r.current_stage = .messaged ∧ r.outreach_date = none then
        { r with current_stage := .contact }
      else r)
  andThen
    (let fbV : Val :=
      match (rowKeys row1).find? (fun k => pySubstr "facebook" k ∨ k = "fb") with
      | some k => rowGetD row1 k
      | none => .vnone
    if fbV.truthy then
      match fbV.strip with
      | .error e => (st, some e)
      | .ok s => (updRider st key (fun r => { r with facebook_url := .vstr s }), none)
    else (st, none))
    (fun st =>
  andThen
    (let phV : Val :=
      match (rowKeys row1).find? (fun k => pySubstr "phone" k) with
      | some k => rowGetD row1 k
      | none => .vnone
    if phV.truthy then
      match phV.strip with
      | .error e => (st, some e)
      | .ok s => (updRider st key (fun r => { r with phone := .vstr s }), none)
    else (st, none))
    (fun st =>
  andThen
    (match riderDbIgVal row1 with
      | some igV =>
        if igV.truthy then
          match igV.strip with
          | .error e => (st, some e)
          | .ok s =>
            let url :=
              if pySubstr "instagram.com" s then s
              else if ¬ (pyStartsWith "http" s) ∧ ¬ pySubstr "facebook" s then
                "https://www.instagram.com/" ++ s ++ "/"
              else s
            (updRider st key (fun r => { r with instagram_url := .vstr url }), none)
        else (st, none)
      | none => (st, none))
    (fun st =>
  andThen
    (let champ := (rowGetD row1 "championship").orElse
      ((rowGetD row1 "series").orElse (rowGetD row1 "class"))
    if champ.truthy then
      match champ.strip with
      | .error e => (st, some e)
      | .ok s => (updRider st key (fun r => { r with championship := .vstr s }), none)
    else (st, none))
    (fun st =>
  andThen
    (let notes := (rowGetD row1 "notes").orElse
      ((rowGetD row1 "note").orElse (rowGetD row1 "comments"))
    if notes.truthy then
      match notes.strip with
      | .error e => (st, some e)
      | .ok s => (updRider st key (fun r => { r with notes := .vstr s }), none)
    else (st, none))
    (fun st =>
  let rev := (rowGetD row1 "revenue").orElse
    ((rowGetD row1 "sale value").orElse
      ((rowGetD row1 "sale_value").orElse (rowGetD row1 "amount")))
  let st := atUpdOpt
    (if rev.truthy then
      match pyFloatOfString
          (pyStrip (pyRemoveChar (pyRemoveChar (pyRemoveChar rev.toPy '£') '$') ',')) with
      | .ok v => some v
      | .error _ => none
    else none)
    key (fun v r => { r with sale_value := some v }) st
  andThen
    (let statusRaw := (rowGetD row1 "status").orElse (rowGetD row1 "stage")
    if statusRaw.truthy then
      match statusRaw.strip with
      | .error e => (st, some e)
      | .ok s =>
        let sClean := pyLower s
        match riderDbMapStage sClean with
        | some stg => (updRider st key (fun r => { r with current_stage := stg }), none)
        | none => (st, none)
    else (st, none))
    (fun st =>
  let isClient := (rowGetD row1 "client").orElse (rowGetD row1 "is_client")
  let st := atUpd (isClient.truthy ∧ pyFlagYes isClient) key
    (fun r =>
      let r1 := { r with current_stage := FunnelStage.client }
      if r1.sale_closed_date = none then { r1 with sale_closed_date := some cfg.now }
      else r1) st
  let notFit := (rowGetD row1 "not a fit").orElse
    ((rowGetD row1 "not_fit").orElse (rowGetD row1 "dq"))
  let st := atUpd (notFit.truthy ∧ pyFlagYes notFit) key
    (fun r => { r with current_stage := FunnelStage.notAFit, is_disqualified := true }) st
  let fu := (rowGetD row1 "follow up").orElse (rowGetD row1 "follow_up")
  let st := atUpdOpt
    (if fu.truthy then
      match parseDateVal fu with
      | .ok d => some d
      | .error _ => none
    else none)
    key (fun d r => { r with follow_up_date := d }) st
  let st := atUpd firstV.truthy key (fun r => { r with first_name := firstV }) st
  let st := atUpd lastV.truthy key (fun r => { r with last_name := lastV }) st
  (st, none))))))))

/-- Embedding of `_load_rider_database` (`Rider Database.csv`): the
full-report counters, identity rescue via name slug, social/CRM field
harvesting, the unconditional status-column stage write, boolean
client/not-a-fit flags and the explicit name overwrite; every row body is
inside `try: … except Exception: pass`. -/
def riderDbRowStep (cfg : Cfg) (row : RawRow) : Step := fun st =>
      let st0 := { st with total := st.total + 1 }
      -- per-row `try: … except Exception: pass`
      (match riderDbIdentity row with
        | .error _ => (st0, none)
        | .ok none =>
          let reason := "Missing Identity (Col 1 Empty & No Name found)"
          ({ st0 with
              skipped := st0.skipped + 1
              reasons := alInsert st0.reasons reason
                ((alLookup st0.reasons reason).getD 0 + 1) }, none)
        | .ok (some (email, firstV, lastV, row1)) =>
          let (reg1, res) := getOrCreateRider st0.riders email
            (firstV.orElse vempty) (lastV.orElse vempty)
          let st1 := { st0 with riders := reg1 }
          match res with
          | .error _ => (st1, none)
          | .ok key =>
            let st2 := { st1 with loaded := st1.loaded + 1 }
            ((riderDbFields cfg row1 key firstV lastV st2).1, none))

def loadRiderDatabase (cfg : Cfg) : Step :=
  runRows (riderDbRowStep cfg) (getDataIter cfg "Rider Database.csv")

/-- The social-link column assignments inside one scanned row: every
column value is stripped (a `None` cell raises and aborts the file), and
matching `* url` columns overwrite the social links. -/
def scanSocialsList (key : String) : List String → RawRow → Step
  | [], _, st => (st, none)
  | col :: rest, row, st =>
    let cLow := pyLower col
    match (rowGetD row col).strip with
    | .error e => (st, some e)
    | .ok val =>
      let st' :=
        if val ≠ "" then
          if pySubstr "facebook" cLow ∧ pySubstr "url" cLow then
            updRider st key (fun r => { r with facebook_url := .vstr val })
          else if pySubstr "instagram" cLow ∧ pySubstr "url" cLow then
            updRider st key (fun r => { r with instagram_url := .vstr val })
          else if pySubstr "linked" cLow ∧ pySubstr "url" cLow then
            updRider st key (fun r => { r with linkedin_url := .vstr val })
          else st
        else st
      scanSocialsList key rest row st'

/-- One row of `_scan_for_social_and_reviews`. -/
def scanRowStep (_cfg : Cfg) (headers : List String) (isRace isSeason : Bool)
    (row : RawRow) : Step := fun st =>
  let emailV : Val :=
    match row.find? (fun kv => pyLower kv.1 = "email") with
    | some kv => kv.2
    | none => .vnone
  if ¬ emailV.truthy then (st, none)
  else
    match emailV with
    | .vstr s =>
      if ¬ pySubstr "@" s then (st, none)
      else
        let (reg1, res) := getOrCreateRider st.riders s (.vstr "") (.vstr "")
        let st1 := { st with riders := reg1 }
        match res with
        | .error e => (st1, some e)
        | .ok key =>
          andThen (scanSocialsList key (rowKeys row) row st1) (fun st2 =>
            let st3 := updRider st2 key
              (fun r =>
                if ¬ r.first_name.truthy ∧ headers.contains "first_name" then
                  { r with first_name := rowGet row "first_name" vempty }
                else r)
            let st4 := updRider st3 key
              (fun r =>
                if ¬ r.last_name.truthy ∧ headers.contains "last_name" then
                  { r with last_name := rowGet row "last_name" vempty }
                else r)
            let dateStr := (rowGetD row "scorecard_finished_at").orElse
              ((rowGetD row "submit_date_utc").orElse
                ((rowGetD row "Sumit Date (UTC)").orElse
                  (rowGetD row "Submit Date (UTC)")))
            match (if dateStr.truthy then parseDateVal dateStr else .ok none) with
            | .error e => (st4, some e)
            | .ok submitDate =>
              let st5 :=
                match submitDate with
                | some d =>
                  if isRace then
                    updRider st4 key
                      (fun r =>
                        if r.race_weekend_review_date = none ∨
                            (r.race_weekend_review_date.all (fun old => old.lt d)) then
                          { r with
                            race_weekend_review_date := some d
                            race_weekend_review_status := .vstr "completed" }
                        else r)
                  else st4
                | none => st4
              let st6 :=
                match submitDate with
                | some d =>
                  if isSeason then
                    updRider st5 key
                      (fun r =>
                        if r.end_of_season_review_date = none ∨
                            (r.end_of_season_review_date.all (fun old => old.lt d)) then
                          { r with end_of_season_review_date := some d }
                        else r)
                  else st5
                | none => st5
              (st6, none))
    | _ => (st, some .typeError)

/-- One file of `_scan_for_social_and_reviews` (inside its per-file
`try: … except: pass`). -/
def scanFileStep (cfg : Cfg) (filename : String) (file : CsvFile) : Step := fun st =>
  if file.headers = [] then (st, none)
  else
    let headers := file.headers.map pyLower
    if ¬ headers.contains "email" then (st, none)
    else
      let isRace := headers.any (fun h => pySubstr "what circuit did you race at" h) ∨
        pySubstr "race weekend" (pyLower filename)
      let isSeason := headers.any (fun h => pySubstr "what championship did you race in" h) ∨
        pySubstr "end of season" (pyLower filename)
      let hasFb := headers.any (fun h => pySubstr "facebook" h)
      let hasIg := headers.any (fun h => pySubstr "instagram" h)
      let hasLi := headers.any (fun h => pySubstr "linked" h)
      if ¬ (hasFb ∨ hasIg ∨ hasLi ∨ isRace ∨ isSeason) then (st, none)
      else runRows (scanRowStep cfg headers isRace isSeason) file.rows st

/-- Embedding of `_scan_for_social_and_reviews`: every `.csv` file of the
data directory with an `email` header and recognisable columns is
harvested; each file is isolated by its own `try`. -/
def scanForSocialAndReviews (cfg : Cfg) : Step := fun st =>
  (cfg.files.foldl
    (fun st f =>
      if pyEndsWith ".csv" f.1 then (pyTry (scanFileStep cfg f.1 f.2) st).1 else st)
    st, none)

/-! ### Facebook Messenger history -/

/-- Python string `<` (codepoint-lexicographic), as pandas sorts group
keys. -/
def strLtList : List Char → List Char → Bool
  | [], [] => false
  | [], _ :: _ => true
  | _ :: _, [] => false
  | a :: as, b :: bs =>
    if a.toNat < b.toNat then true
    else if b.toNat < a.toNat then false
    else strLtList as bs

/-- Python `a < b` on strings. -/
def pyStrLt (a b : String) : Bool := strLtList a.data b.data

/-- Insert into a sorted list of strings. -/
def insertSorted (x : String) : List String → List String
  | [] => [x]
  | y :: rest => if pyStrLt x y then x :: y :: rest else y :: insertSorted x rest

/-- Group keys of `df.groupby('title')`: distinct non-`NaN` titles in
ascending order. -/
def fbTitles (rows : List FbRow) : List String :=
  (rows.filterMap FbRow.title).foldl
    (fun acc t => if acc.contains t then acc else insertSorted t acc) []

/-- Minimum of the millisecond timestamps of one conversation
(`pd.to_datetime(…, errors='coerce').min()`, skipping `NaT`). -/
def fbMinTs (rows : List FbRow) : Option Int :=
  (rows.filterMap FbRow.tsMs).foldl
    (fun acc x =>
      match acc with
      | none => some x
      | some m => some (min m x)) none

/-- Civil date from days since the Unix epoch (proleptic Gregorian). -/
def civilFromDays (z0 : Int) : Int × Int × Int :=
  let z := z0 + 719468
  let era : Int := (if 0 ≤ z then z else z - 146096) / 146097
  let doe : Int := z - era * 146097
  let yoe : Int := (doe - doe / 1460 + doe / 36524 - doe / 146096) / 365
  let y : Int := yoe + era * 400
  let doy : Int := doe - (365 * yoe + yoe / 4 - yoe / 100)
  let mp : Int := (5 * doy + 2) / 153
  let d : Int := doy - (153 * mp + 2) / 5 + 1
  let m : Int := mp + (if mp < 10 then 3 else -9)
  (y + (if m ≤ 2 then 1 else 0), m, d)

/-- UTC datetime of a millisecond Unix timestamp
(`pd.to_datetime(ts, unit='ms')`). -/
def msToDateTime (ms : Int) : DateTime :=
  let days := Int.fdiv ms 86400000
  let remMs := (ms - days * 86400000).toNat
  let c := civilFromDays days
  { year := c.1.toNat, month := c.2.1.toNat, day := c.2.2.toNat,
    hour := remMs / 3600000, minute := remMs / 60000 % 60,
    second := remMs / 1000 % 60, micro := remMs % 1000 * 1000 }

/-- The identity resolution of one Facebook conversation: match against an
existing rider by case-insensitive full name, else create under the
`no_email_`-prefixed slug and record the `FACEBOOK_DM` channel. -/
def fbKeyRes (st : DL) (cleanName slug : String) : DL × Except PyErr String :=
  let existing := (st.riders.find?
    (fun kv => pyLower kv.2.fullName = pyLower cleanName)).map (fun kv => kv.2.email)
  match existing with
  | some emailK => (st, .ok emailK)
  | none =>
    let fakeEmail := "no_email_" ++ slug
    let parts := pySplitSpace cleanName
    let fname := parts.headD ""
    let lname := if parts.length > 1 then pyJoinSpace parts.tail else ""
    let (reg1, res) := getOrCreateRider st.riders fakeEmail (.vstr fname) (.vstr lname)
    let st1 := { st with riders := reg1 }
    match res with
    | .error e => (st1, .error e)
    | .ok key =>
      (updRider st1 key
        (fun r => { r with outreach_channel := some .facebookDm }), .ok key)

/-- One conversation group of `_load_facebook_history`: name cleaning,
match against an existing rider by case-insensitive full name, otherwise
creation under the `no_email_`-prefixed slug; then the guarded stage bump
to `MESSAGED` and the earliest-message `outreach_date` update. -/
def fbGroupStep (_cfg : Cfg) (rows : List FbRow) (title : String) : Step := fun st =>
  let name := pyStrip title
  if name = "" ∨ pyLower name = "craig muirhead" ∨ pyLower name = "nan" then (st, none)
  else
    let cleanName := pyStrip ⟨name.data.filter (fun c => pyIsAlnum c ∨ c = ' ')⟩
    let slug := pyReplaceChar (pyLower cleanName) ' ' '_'
    match fbKeyRes st cleanName slug with
    | (st1, .error e) => (st1, some e)
    | (st1, .ok key) =>
      let st2 := updRider st1 key
        (fun r =>
          if r.current_stage = .contact ∨ r.current_stage = FunnelStage.outreach then
            { r with current_stage := .messaged }
          else r)
      match fbMinTs (rows.filter (fun fr => fr.title = some title)) with
      | none => (st2, none)
      | some m =>
        let dt := msToDateTime m
        (updRider st2 key
          (fun r =>
            if r.outreach_date = none ∨ (r.outreach_date.all (fun od => dt.lt od)) then
              if dt.year > 2000 then { r with outreach_date := some dt } else r
            else r), none)

/-- Embedding of `_load_facebook_history`
(`Facebook Messenger History - Sheet1 (1).csv`, read with
`pd.read_csv(header=1)`, whole loader inside `try: … except`): one step
per conversation title in pandas group order. -/
def loadFacebookHistory (cfg : Cfg) : Step := fun st =>
  match cfg.fbFile with
  | none => (st, none)
  | some fb =>
    pyTry
      (fun st =>
        if ¬ fb.hasTitle then (st, none)
        else runSteps ((fbTitles fb.rows).map (fbGroupStep cfg fb.rows)) st)
      st

/-! ### Airtable master source -/

/-- The name-slug fallback used by the Airtable loader and (with
`first + " " + last`) by the rider database. -/
def slugOfName (s : String) : String :=
  let s0 := pyReplaceChar (pyStrip (pyLower s)) ' ' '_'
  let s1 : String := ⟨s0.data.filter (fun c => pyIsAlnum c ∨ c = '_')⟩
  if s1 = "" then "unknown_rider" else s1

/-- Stage-string mapping of `_load_from_airtable`: exact value match
first, else the alias table built inside the loop. -/
def airtableMapStage (sClean : String) : Option FunnelStage :=
  match stageList.find? (fun s => pyLower s.value = sClean) with
  | some s => some s
  | none =>
    if sClean = "messaged" ∨ sClean = "outreach" then some .messaged
    else if sClean = "client" ∨ sClean = "won" then some .client
    else if sClean = "lost" ∨ sClean = "not a fit" then some .notAFit
    else if sClean = "registered" ∨ sClean = "blueprint started" then some .blueprintStarted
    else none

/-- The guarded field mapping of one Airtable record after
`_get_or_create_rider` returned `key`: contact and social fields, tags,
the fallible `Overall Score` float, the date fields, and the
unconditional stage write for a recognised `Stage` string. -/
def airtableFields (_cfg : Cfg) (r : ATRec) (key : String) : Step := fun st1 =>
  let st2 := atUpd (optTruthy r.phoneNumber) key
    (fun rd => { rd with phone := .vstr (r.phoneNumber.getD "") }) st1
  let st3 := atUpd (optTruthy r.fbUrl) key
    (fun rd => { rd with facebook_url := .vstr (r.fbUrl.getD "") }) st2
  let st4 := atUpd (optTruthy r.igUrl) key
    (fun rd => { rd with instagram_url := .vstr (r.igUrl.getD "") }) st3
  let st5 := atUpd (optTruthy r.websiteUrl) key
    (fun rd => { rd with magic_link := some (.vstr (r.websiteUrl.getD "")) }) st4
  let st6 := atUpdOpt
    (match r.tags with
      | some l => if l ≠ [] then some l else none
      | none => none)
    key (fun l rd => { rd with tags := some (.vstr (String.intercalate "," l)) }) st5
  andThen
    (atScore
      (if optTruthy r.overallScore then
        some (pyFloatOfString (r.overallScore.getD ""))
      else none)
      key (fun v rd => { rd with day1_score := some v }) st6)
    (fun st7 =>
      let st8 := atUpd (optTruthy r.biggestMistake) key
        (fun rd => { rd with biggest_mistake := some (.vstr (r.biggestMistake.getD "")) })
        st7
      let st9 := atUpd (optTruthy r.dateBlueprintStarted) key
        (fun rd =>
          { rd with outreach_date := parseDateStr (r.dateBlueprintStarted.getD "") }) st8
      let st10 := atUpd (optTruthy r.dateDay1) key
        (fun rd => { rd with day1_date := some (parseDateStr (r.dateDay1.getD "")) }) st9
      let st11 := atUpdOpt
        (if optTruthy r.stage then airtableMapStage (pyLower (pyStrip (r.stage.getD "")))
        else none)
        key (fun stg rd => { rd with current_stage := stg }) st10
      (st11, none))

/-- One Airtable record: identity (email, else name slug), guarded field
mapping, and the unconditional stage write for a recognised `Stage`
string.  Returns the key of the rider bound by this record (the Python
`rider` variable), or the incoming one when the record was skipped. -/
def airtableRecord (_cfg : Cfg) (r : ATRec) (st : DL) (lastKey : Option String) :
    DL × Option String × Option PyErr :=
  let riderEmail0 := r.email
  let riderEmail1 :=
    if ¬ optTruthy riderEmail0 ∧ optTruthy r.fullName then
      some (slugOfName (r.fullName.getD ""))
    else riderEmail0
  if ¬ optTruthy riderEmail1 then (st, lastKey, none)
  else
    let riderEmail := pyStrip (riderEmail1.getD "")
    let (first1, last1) :=
      if ¬ optTruthy r.firstName ∧ optTruthy r.fullName then
        let parts := pySplitSpace (r.fullName.getD "")
        (some (parts.headD ""),
          if parts.length > 1 then some (pyJoinSpace parts.tail) else r.lastName)
      else (r.firstName, r.lastName)
    let (reg1, res) := getOrCreateRider st.riders riderEmail
      (.vstr (if optTruthy first1 then first1.getD "" else ""))
      (.vstr (if optTruthy last1 then last1.getD "" else ""))
    let st1 := { st with riders := reg1 }
    match res with
    | .error e => (st1, lastKey, some e)
    | .ok key =>
      match airtableFields _cfg r key st1 with
      | (stF, eF) => (stF, some key, eF)

/-- The per-record loop of `_load_from_airtable`, threading the last bound
`rider` variable. -/
def airtableLoop (cfg : Cfg) : List ATRec → DL → Option String →
    DL × Option String × Option PyErr
  | [], st, lastKey => (st, lastKey, none)
  | r :: rest, st, lastKey =>
    match airtableRecord cfg r st lastKey with
    | (st', lk', none) => airtableLoop cfg rest st' lk'
    | (st', lk', some e) => (st', lk', some e)

/-- Embedding of `_load_from_airtable`: a no-op without an Airtable
manager; otherwise the per-record loop, followed by the CRM-field block
that sits outside the `for` loop in the source (so it reads the loop
variables `r` and `rider` after the loop — a `NameError` when they were
never bound). -/
def loadFromAirtable (cfg : Cfg) : Step := fun st =>
  match cfg.airtable with
  | none => (st, none)
  | some records =>
    match airtableLoop cfg records st none with
    | (st', _, some e) => (st', some e)
    | (st', lastKey, none) =>
      match records.getLast? with
      | none => (st', some .nameError)
      | some rl =>
        andThen
          (if optTruthy rl.notes then
            match lastKey with
            | none => (st', some .nameError)
            | some k =>
              (updRider st' k (fun rd => { rd with notes := .vstr (rl.notes.getD "") }), none)
          else (st', none))
          (fun st2 =>
        andThen
          (if optTruthy rl.champ then
            match lastKey with
            | none => (st2, some .nameError)
            | some k =>
              (updRider st2 k
                (fun rd => { rd with championship := .vstr (rl.champ.getD "") }), none)
          else (st2, none))
          (fun st3 =>
            if optTruthy rl.followUpDate then
              match lastKey with
              | none => (st3, some .nameError)
              | some k =>
                (updRider st3 k
                  (fun rd =>
                    { rd with follow_up_date := parseDateStr (rl.followUpDate.getD "") }),
                  none)
            else (st3, none)))

/-! ### The pipeline orchestrator -/

/-- The sixteen local-feed steps `load_all_data` runs before the Airtable
master source (`_load_sleep_test` appears twice, as in the source). -/
def preAirtableSteps (cfg : Cfg) : List Step :=
  [loadStrategyCallApplications cfg, loadBlueprintRegistrations cfg,
    loadDay1Assessments cfg, loadDay2Assessments cfg, loadXperiencifyCsv cfg,
    loadFlowProfileResults cfg, loadSleepTest cfg, loadSleepTest cfg,
    loadMindsetQuiz cfg, loadRaceReviews cfg, loadManualUpdates cfg,
    loadRevenueLog cfg, loadRiderDetails cfg, loadRiderDatabase cfg,
    scanForSocialAndReviews cfg, loadFacebookHistory cfg]

/-- Embedding of `DataLoader.load_all_data`: the fixed ingestion sequence,
with the Airtable master source applied last (`--- FINAL OVERRIDE:
AIRTABLE ---`); an uncaught exception from one step aborts the remaining
steps (there is no per-feed isolation in the source). -/
def loadAllData (cfg : Cfg) : Step := fun st =>
  runSteps
    [loadStrategyCallApplications cfg, loadBlueprintRegistrations cfg,
      loadDay1Assessments cfg, loadDay2Assessments cfg, loadXperiencifyCsv cfg,
      loadFlowProfileResults cfg, loadSleepTest cfg, loadSleepTest cfg,
      loadMindsetQuiz cfg, loadRaceReviews cfg, loadManualUpdates cfg,
      loadRevenueLog cfg, loadRiderDetails cfg, loadRiderDatabase cfg,
      scanForSocialAndReviews cfg, loadFacebookHistory cfg, loadFromAirtable cfg]
    st

/-! ### Canonical funnel ordering and concrete fixtures -/

/-- Rank of a stage in the canonical funnel ordering
(`contact → messaged → replied → link_sent → registered/blueprint_started
→ day1 → day2 → strategy_call_booked → client`); side states
(`not_a_fit`, lead magnets, reviews, …) carry no rank. -/
def stageRank : FunnelStage → Option Nat
  | .contact => some 0
  | .messaged => some 1
  | .replied => some 2
  | .linkSent => some 3
  | .blueprintStarted => some 4
  | .day1Complete => some 5
  | .day2Complete => some 6
  | .strategyCallBooked => some 7
  | .client => some 8
  | _ => none

/-- A stage transition that never moves strictly earlier in the canonical
ordering (unranked side states are incomparable). -/
def noRegress (a b : FunnelStage) : Prop :=
  ∀ i j, stageRank a = some i → stageRank b = some j → i ≤ j

/-- A decidable strengthening of `noRegress` that is transitive and closed
under every stage write of the monotone ingestors: a ranked stage may move
up in rank, only `Contact`/`Messaged` may move to an unranked side state,
and an unranked state may only move to rank ≥ 5 (a day-completion or
client write). -/
def autoLe (a b : FunnelStage) : Bool :=
  match stageRank a, stageRank b with
  | some i, some j => i ≤ j
  | some i, none => i ≤ 1
  | none, some j => 5 ≤ j
  | none, none => a = b

/-- Registry evolution in which every stored rider survives (its key is
never dropped) and its stage only moves along `autoLe`. -/
def stMonoR (a b : Reg) : Prop :=
  ∀ k r, rLookup a k = some r →
    ∃ r', rLookup b k = some r' ∧ autoLe r.current_stage r'.current_stage

/-- Registry evolution in which every stored key survives. -/
def regMonoR (a b : Reg) : Prop :=
  ∀ k, (rLookup a k).isSome → (rLookup b k).isSome

/-- Test fixture: one registered rider at stage `Client` with a phone
number and a recorded day-1 completion date. -/
def fixtureRider : Rider :=
  { mkRider "a@b.com" "Jo" "D" with
    phone := .vstr "123"
    current_stage := .client
    day1_complete_date := some ⟨2024, 1, 1, 0, 0, 0, 0⟩ }

/-- Test fixture: the registry holding `fixtureRider`. -/
def fixtureDL : DL := { riders := [("a@b.com", fixtureRider)] }

/-- Fixture feed: one strategy-call application row for the fixture rider,
with no phone/country/date columns. -/
def strategyRowCfg : Cfg :=
  { overrides := [("Strategy Call Application.csv", [[("email", .vstr "a@b.com")]])] }

/-- Fixture feed: one completed day-1 assessment row for the fixture
rider, with no date columns. -/
def day1RowCfg : Cfg :=
  { overrides := [("7 Biggest Mistakes Assessment.csv",
      [[("email", .vstr "a@b.com"), ("completed", .vstr "Yes")]])] }

/-- Fixture: the pandas view of a Facebook Messenger history with a single
conversation titled `"Andy DiBrino"`. -/
def fbAndyData : FbData :=
  { hasTitle := true
    rows := [{ title := some "Andy DiBrino", tsMs := some 1700000000000 }] }

/-- Fixture: a Facebook Messenger history with a single conversation
titled `"Andy DiBrino"`. -/
def fbAndyCfg : Cfg :=
  { fbFile := some fbAndyData }

/-- Fixture: a strategy-call feed whose row carries a NaN email cell
(as a pandas override does for an empty cell), followed in pipeline order
by a well-formed blueprint-registration feed. -/
def nanEmailCfg : Cfg :=
  { overrides :=
      [("Strategy Call Application.csv", [[("email", Val.vnan)]]),
        ("Podium Contenders Blueprint Registered.csv", [[("email", .vstr "b@c.com")]])] }

/-- Fixture: a rider in both the blueprint feed (by email, with names) and
the Facebook history (by name only) — the interplay that makes a second
ingestion run drift. -/
def driftCfg : Cfg :=
  { overrides := [("Podium Contenders Blueprint Registered.csv",
      [[("email", .vstr "x@y.com"), ("first_name", .vstr "Andy"),
        ("last_name", .vstr "DiBrino")]])]
    fbFile := some fbAndyData }

/-- Fixture: the manual-updates log that the C6 scenario uses. -/
def masterManualFile : CsvFile :=
  { headers := ["email", "stage", "timestamp"]
    rows := [[("email", .vstr "x@y.com"), ("stage", .vstr "Day 2 Completed"),
      ("timestamp", .vstr "")]] }

/-- Fixture: local feeds leave a rider at `Day 2 Completed`; the Airtable
master record reports `Stage = "client"`. -/
def masterCfg : Cfg :=
  { files := [("manual_updates.csv", masterManualFile)]
    airtable := some [{ email := some "x@y.com", stage := some "client" }] }

/-- Fixture: a rider-database feed with a bad (NaN-email) row followed by
a well-formed row. -/
def riderDbIsolationCfg : Cfg :=
  { overrides := [("Rider Database.csv",
      [[("email", Val.vnan)],
        [("email", .vstr "good@x.com"), ("first name", .vstr "Gd")]])] }

/-- Fixture: the rider-database feed resolves `Andy`+`DiBrino` without an
email, and the Facebook history later sees the literal name
`"Andy DiBrino"`. -/
def dbFbCollapseData : FbData :=
  { hasTitle := true
    rows := [{ title := some "Andy DiBrino", tsMs := none }] }

/-- Fixture: the rider-database feed resolves `Andy`+`DiBrino` without an
email, and the Facebook history later sees the literal name
`"Andy DiBrino"` (configuration). -/
def dbFbCollapseCfg : Cfg :=
  { overrides := [("Rider Database.csv",
      [[("first name", .vstr "Andy"), ("last name", .vstr "DiBrino")]])]
    fbFile := some dbFbCollapseData }

/-- Fixture: the rider-database feed followed by the Facebook history, on
the name-collapse configuration. -/
def dbFbCollapseRun : DL × Option PyErr :=
  runSteps [loadRiderDatabase dbFbCollapseCfg, loadFacebookHistory dbFbCollapseCfg] {}

-- ===================================================================
-- THEOREMS
-- ===================================================================

/-- Helper: `tryFormats` is first-match over the format list. -/
theorem tryFormats_eq_findSome (s : String) :
    ∀ fmts : List (List FTok), tryFormats fmts s = fmts.findSome? (fun f => strptime f s)
  | [] => rfl
  | fmt :: fmts => by
    simp only [tryFormats, List.findSome?]
    cases strptime fmt s with
    | none => simpa using tryFormats_eq_findSome s fmts
    | some d => rfl

/-! ### Normalisation lemmas for identity keys -/

/-- Helper: `Char.ofNat` round-trips on valid code points below `0xd800`. -/
theorem char_toNat_ofNat_valid (n : Nat) (h : n < 55296) : (Char.ofNat n).toNat = n := by
  unfold Char.ofNat
  rw [dif_pos (Or.inl h)]
  show (UInt32.ofNatCore n _).toNat = n
  simp [UInt32.ofNatCore, UInt32.toNat, BitVec.toNat_ofNatLt]

/-- Helper: `Char.toLower` is idempotent. -/
theorem char_toLower_toLower (c : Char) : c.toLower.toLower = c.toLower := by
  unfold Char.toLower
  by_cases h : c.toNat ≥ 65 ∧ c.toNat ≤ 90
  · rw [if_pos h]
    have h32 : (Char.ofNat (c.toNat + 32)).toNat = c.toNat + 32 :=
      char_toNat_ofNat_valid _ (by omega)
    rw [if_neg (by rw [h32]; omega)]
  · rw [if_neg h, if_neg h]

/-- Helper: lowering a character does not change whether it is whitespace. -/
theorem pyIsSpace_toLower (c : Char) : pyIsSpace c.toLower = pyIsSpace c := by
  unfold Char.toLower
  by_cases h : c.toNat ≥ 65 ∧ c.toNat ≤ 90
  · rw [if_pos h]
    have h32 : (Char.ofNat (c.toNat + 32)).toNat = c.toNat + 32 :=
      char_toNat_ofNat_valid _ (by omega)
    simp only [pyIsSpace, h32]
    rw [decide_eq_decide]
    omega
  · rw [if_neg h]

/-- Helper: `dropWhile pyIsSpace` commutes with lowercasing. -/
theorem dropWhile_map_toLower (l : List Char) :
    (l.map Char.toLower).dropWhile pyIsSpace =
      (l.dropWhile pyIsSpace).map Char.toLower := by
  induction l with
  | nil => rfl
  | cons c t ih =>
    simp only [List.map_cons, List.dropWhile_cons, pyIsSpace_toLower]
    cases h : pyIsSpace c with
    | true => simpa [h] using ih
    | false => simp [h]

/-- Helper: `rdropWhile pyIsSpace` commutes with lowercasing. -/
theorem rdropWhile_map_toLower (l : List Char) :
    (l.map Char.toLower).rdropWhile pyIsSpace =
      (l.rdropWhile pyIsSpace).map Char.toLower := by
  simp only [List.rdropWhile, ← List.map_reverse, dropWhile_map_toLower]

/-- Helper: `str.lower` and `str.strip` commute. -/
theorem pyLower_pyStrip (s : String) : pyLower (pyStrip s) = pyStrip (pyLower s) := by
  show (⟨((s.data.dropWhile pyIsSpace).rdropWhile pyIsSpace).map Char.toLower⟩ : String) =
    ⟨((s.data.map Char.toLower).dropWhile pyIsSpace).rdropWhile pyIsSpace⟩
  rw [dropWhile_map_toLower, rdropWhile_map_toLower]

/-- Helper: `str.lower` is idempotent. -/
theorem pyLower_idem (s : String) : pyLower (pyLower s) = pyLower s := by
  show (⟨(s.data.map Char.toLower).map Char.toLower⟩ : String) = ⟨s.data.map Char.toLower⟩
  rw [List.map_map]
  exact congrArg _ (List.map_congr_left (fun c _ => char_toLower_toLower c))

/-- Helper: a list that survives `dropWhile` unchanged passes that on to
its prefixes. -/
theorem dropWhile_eq_self_of_isPrefixOf (p : Char → Bool) (A B : List Char)
    (hpre : B <+: A) (hA : A.dropWhile p = A) : B.dropWhile p = B := by
  cases B with
  | nil => rfl
  | cons b bs =>
    obtain ⟨t, ht⟩ := hpre
    rw [← ht] at hA
    simp only [List.cons_append, List.dropWhile_cons] at hA ⊢
    cases h : p b with
    | false => simp
    | true =>
      rw [h] at hA
      simp only [if_true] at hA
      have hlen := congrArg List.length hA
      have hle := (List.dropWhile_suffix (l := bs ++ t) p).length_le
      simp only [List.length_cons] at hlen
      omega

/-- Helper: a stripped character list has no leading whitespace. -/
theorem dropWhile_strip_core (l : List Char) :
    ((l.dropWhile pyIsSpace).rdropWhile pyIsSpace).dropWhile pyIsSpace =
      (l.dropWhile pyIsSpace).rdropWhile pyIsSpace :=
  dropWhile_eq_self_of_isPrefixOf pyIsSpace (l.dropWhile pyIsSpace) _
    (List.rdropWhile_prefix pyIsSpace _)
    (List.dropWhile_idempotent pyIsSpace l)

/-- Helper: `str.strip` is idempotent. -/
theorem pyStrip_idem (s : String) : pyStrip (pyStrip s) = pyStrip s := by
  show (⟨((((s.data.dropWhile pyIsSpace).rdropWhile pyIsSpace).dropWhile
      pyIsSpace).rdropWhile pyIsSpace : List Char)⟩ : String) =
    ⟨(s.data.dropWhile pyIsSpace).rdropWhile pyIsSpace⟩
  rw [dropWhile_strip_core, List.rdropWhile_idempotent]

/-- Helper: the identity-key normalisation is idempotent. -/
theorem normKey_idem (e : String) : normKey (normKey e) = normKey e := by
  unfold normKey
  rw [pyLower_pyStrip, pyLower_idem, pyStrip_idem]

/-! ### Registry lemmas -/

/-- Helper: lookup across a single-entry append. -/
theorem rLookup_append_single (reg : Reg) (k0 k : String) (r0 : Rider) :
    rLookup (reg ++ [(k0, r0)]) k =
      match rLookup reg k with
      | some r => some r
      | none => if k0 = k then some r0 else none := by
  induction reg with
  | nil => simp [rLookup]
  | cons hd tl ih =>
    obtain ⟨k', r'⟩ := hd
    by_cases h : k' = k <;> simp [rLookup, h, ih]

/-- Helper: replacing the value at a present key is seen by lookup. -/
theorem rLookup_rSet_self (reg : Reg) (k : String) (r0 : Rider)
    (h : (rLookup reg k).isSome) : rLookup (rSet reg k r0) k = some r0 := by
  induction reg with
  | nil => simp [rLookup] at h
  | cons hd tl ih =>
    obtain ⟨k', r'⟩ := hd
    by_cases hk : k' = k
    · simp [rLookup, rSet, hk]
    · simp only [rLookup, rSet, if_neg hk] at h ⊢
      exact ih h

/-- Helper: replacing a value at one key leaves other keys unchanged. -/
theorem rLookup_rSet_ne (reg : Reg) (k0 k : String) (r0 : Rider)
    (h : k0 ≠ k) : rLookup (rSet reg k0 r0) k = rLookup reg k := by
  induction reg with
  | nil => simp [rSet]
  | cons hd tl ih =>
    obtain ⟨k', r'⟩ := hd
    by_cases hk : k' = k0
    · subst hk
      simp [rLookup, rSet, h]
    · simp only [rSet, if_neg hk, rLookup]
      by_cases hk2 : k' = k <;> simp [hk2, ih]

/-- Helper: replacing at an absent key is a no-op. -/
theorem rSet_absent (reg : Reg) (k : String) (r0 : Rider)
    (h : rLookup reg k = none) : rSet reg k r0 = reg := by
  induction reg with
  | nil => rfl
  | cons hd tl ih =>
    obtain ⟨k', r'⟩ := hd
    by_cases hk : k' = k
    · simp [rLookup, hk] at h
    · simp only [rLookup, if_neg hk] at h
      simp [rSet, hk, ih h]

/-- C8: `_parse_date` is total: on every string it returns the result of the
first format in the fixed ordered list that parses (`none` when the string
is empty or no format matches, never an exception), and the invalid
calendar date `"31/02/2024"` yields `none` while a well-formed date
parses. -/
theorem parse_date_first_match_and_total :
    (∀ s : String,
      parseDateStr s =
        if s = "" then none
        else dateFormats.findSome? (fun f => strptime f (pyStrip s))) ∧
    parseDateStr "" = none ∧
    parseDateStr "31/02/2024" = none ∧
    parseDateStr "25/12/2024 10:30:00" = some ⟨2024, 12, 25, 10, 30, 0, 0⟩ := by
  refine ⟨fun s => ?_, by decide, by decide, by decide⟩
  simp only [parseDateStr, tryFormats_eq_findSome]

/-! ### `_get_or_create_rider` -/

/-- Helper: the name argument of the `Rider` constructor call, on a string
cell, is just the stripped string. -/
theorem stripName_vstr (s : String) : stripName (.vstr s) = .ok (pyStrip s) := by
  by_cases h : s = ""
  · subst h
    rfl
  · simp [stripName, Val.truthy, Val.strip, h]

/-- Helper: full evaluation of `_get_or_create_rider` on string-valued
name arguments (no exception possible). -/
theorem getOrCreate_vstr_eq (reg : Reg) (e f l : String) :
    getOrCreateRider reg e (.vstr f) (.vstr l) =
      (match rLookup reg (normKey e) with
        | none => reg ++ [(normKey e, mkRider (normKey e) (pyStrip f) (pyStrip l))]
        | some r =>
          rSet reg (normKey e)
            { r with
              first_name :=
                if f ≠ "" ∧ ¬ r.first_name.truthy then .vstr (pyStrip f)
                else r.first_name,
              last_name :=
                if l ≠ "" ∧ ¬ r.last_name.truthy then .vstr (pyStrip l)
                else r.last_name },
        .ok (normKey e)) := by
  simp only [getOrCreateRider]
  cases hl : rLookup reg (normKey e) with
  | none => rw [stripName_vstr, stripName_vstr]
  | some r =>
    try dsimp only
    have hf : (((Val.vstr f).truthy : Prop) ∧ ¬ r.first_name.truthy) ↔
        (f ≠ "" ∧ ¬ r.first_name.truthy) := by
      simp [Val.truthy]
    by_cases c1 : f ≠ "" ∧ ¬ r.first_name.truthy
    · rw [if_pos (hf.mpr c1)]
      simp only [Val.strip, Except.map]
      try dsimp only
      have hl2 : (((Val.vstr l).truthy : Prop) ∧
          ¬ ({ r with first_name := Val.vstr (pyStrip f) } : Rider).last_name.truthy) ↔
          (l ≠ "" ∧ ¬ r.last_name.truthy) := by
        simp [Val.truthy]
      by_cases c2 : l ≠ "" ∧ ¬ r.last_name.truthy
      · rw [if_pos (hl2.mpr c2)]
        simp only [Val.strip, Except.map]
        try dsimp only
        rw [if_pos c1, if_pos c2]
      · rw [if_neg (fun hh => c2 (hl2.mp hh))]
        try dsimp only
        rw [if_pos c1, if_neg c2]
    · rw [if_neg (fun hh => c1 (hf.mp hh))]
      try dsimp only
      have hl2 : (((Val.vstr l).truthy : Prop) ∧ ¬ r.last_name.truthy) ↔
          (l ≠ "" ∧ ¬ r.last_name.truthy) := by
        simp [Val.truthy]
      by_cases c2 : l ≠ "" ∧ ¬ r.last_name.truthy
      · rw [if_pos (hl2.mpr c2)]
        simp only [Val.strip, Except.map]
        try dsimp only
        rw [if_neg c1, if_pos c2]
      · rw [if_neg (fun hh => c2 (hl2.mp hh))]
        try dsimp only
        rw [if_neg c1, if_neg c2]

/-- C4: contract of `_get_or_create_rider` with key `k = lower(trim(email))`:
when `k` is absent it creates, registers and returns a fresh rider at the
initial stage `Contact` with the trimmed names; when `k` is present it
returns the existing record, filling each name only when the stored one is
empty and the supplied one non-empty, and never overwriting a non-empty
stored name. -/
theorem get_or_create_contract (reg : Reg) (email f l : String) :
    (rLookup reg (normKey email) = none →
      getOrCreateRider reg email (.vstr f) (.vstr l) =
        (reg ++ [(normKey email, mkRider (normKey email) (pyStrip f) (pyStrip l))],
          .ok (normKey email)) ∧
      (mkRider (normKey email) (pyStrip f) (pyStrip l)).current_stage = .contact ∧
      (mkRider (normKey email) (pyStrip f) (pyStrip l)).email = normKey email) ∧
    (∀ r, rLookup reg (normKey email) = some r →
      getOrCreateRider reg email (.vstr f) (.vstr l) =
        (rSet reg (normKey email)
          { r with
            first_name :=
              if f ≠ "" ∧ ¬ r.first_name.truthy then .vstr (pyStrip f) else r.first_name,
            last_name :=
              if l ≠ "" ∧ ¬ r.last_name.truthy then .vstr (pyStrip l) else r.last_name },
          .ok (normKey email)) ∧
      (r.first_name.truthy →
        (if f ≠ "" ∧ ¬ r.first_name.truthy then Val.vstr (pyStrip f) else r.first_name)
          = r.first_name) ∧
      (r.last_name.truthy →
        (if l ≠ "" ∧ ¬ r.last_name.truthy then Val.vstr (pyStrip l) else r.last_name)
          = r.last_name)) := by
  constructor
  · intro h
    refine ⟨?_, rfl, rfl⟩
    rw [getOrCreate_vstr_eq, h]
  · intro r h
    refine ⟨?_, fun ht => ?_, fun ht => ?_⟩
    · rw [getOrCreate_vstr_eq, h]
    · rw [if_neg (fun hc => hc.2 ht)]
    · rw [if_neg (fun hc => hc.2 ht)]

/-- Witness for C4: a fresh creation (normalising `" Jo@X.Com "`, trimming
the names) and a fill of an empty stored last name that leaves the
non-empty first name alone. -/
theorem get_or_create_contract_witness :
    (rLookup ([] : Reg) (normKey " Jo@X.Com ") = none ∧
      getOrCreateRider [] " Jo@X.Com " (.vstr " Jo ") (.vstr "Doe") =
        ([(normKey " Jo@X.Com ",
            mkRider (normKey " Jo@X.Com ") (pyStrip " Jo ") (pyStrip "Doe"))],
          .ok (normKey " Jo@X.Com "))) ∧
    (rLookup [("jo@x.com", mkRider "jo@x.com" "Jo" "")] (normKey "jo@x.com") =
        some (mkRider "jo@x.com" "Jo" "") ∧
      getOrCreateRider [("jo@x.com", mkRider "jo@x.com" "Jo" "")] "jo@x.com"
          (.vstr "Zed") (.vstr "Smith") =
        ([("jo@x.com", mkRider "jo@x.com" "Jo" "Smith")], .ok (normKey "jo@x.com"))) := by
  constructor
  · refine ⟨rfl, ?_⟩
    have h := ((get_or_create_contract [] " Jo@X.Com " " Jo " "Doe").1 rfl).1
    simpa using h
  · refine ⟨by decide, ?_⟩
    have h := ((get_or_create_contract [("jo@x.com", mkRider "jo@x.com" "Jo" "")]
      "jo@x.com" "Zed" "Smith").2 (mkRider "jo@x.com" "Jo" "") (by decide)).1
    rw [h]
    rfl

/-- Helper: the registry-key invariant (normalised keys, record email equal
to its key) is preserved by one `_get_or_create_rider` call. -/
theorem getOrCreate_step_inv (reg : Reg) (e f l : String)
    (h : ∀ k r, rLookup reg k = some r → k = normKey k ∧ r.email = k) :
    ∀ k r, rLookup (getOrCreateRider reg e (.vstr f) (.vstr l)).1 k = some r →
      k = normKey k ∧ r.email = k := by
  intro k r
  rw [getOrCreate_vstr_eq]
  cases hl : rLookup reg (normKey e) with
  | none =>
    simp only
    rw [rLookup_append_single]
    cases hk : rLookup reg k with
    | some r0 =>
      intro hr
      simp only at hr
      cases hr
      exact h k _ hk
    | none =>
      simp only
      by_cases hke : normKey e = k
      · rw [if_pos hke]
        intro hr
        cases hr
        exact ⟨hke ▸ (normKey_idem e).symm, hke⟩
      · rw [if_neg hke]
        intro hr
        cases hr
  | some r0 =>
    simp only
    by_cases hke : normKey e = k
    · subst hke
      rw [rLookup_rSet_self _ _ _ (by rw [hl]; rfl)]
      intro hr
      cases hr
      obtain ⟨h1, h2⟩ := h _ _ hl
      exact ⟨h1, h2⟩
    · rw [rLookup_rSet_ne _ _ _ _ hke]
      exact h k r

/-- C10: registry key invariant.  After any sequence of
`_get_or_create_rider` calls from an empty registry, every key is
lowercased and trimmed and the stored record's `email` equals its key; an
existing entry is never replaced (only its empty names can be filled); and
lookups with any case/whitespace variant of an email resolve to the same
call result. -/
theorem registry_key_invariant :
    (∀ calls : List (String × String × String),
      ∀ k r, rLookup (applyCalls calls []) k = some r →
        k = normKey k ∧ r.email = k) ∧
    (∀ (reg : Reg) (email f l k : String) (r : Rider), rLookup reg k = some r →
      ∃ r', rLookup (getOrCreateRider reg email (.vstr f) (.vstr l)).1 k = some r' ∧
        r' = { r with first_name := r'.first_name, last_name := r'.last_name } ∧
        (r.first_name.truthy → r'.first_name = r.first_name) ∧
        (r.last_name.truthy → r'.last_name = r.last_name)) ∧
    (∀ (reg : Reg) (e e' f l : String), normKey e = normKey e' →
      getOrCreateRider reg e (.vstr f) (.vstr l) =
        getOrCreateRider reg e' (.vstr f) (.vstr l)) := by
  refine ⟨?_, ?_, ?_⟩
  · intro calls
    suffices hgen : ∀ (reg : Reg),
        (∀ k r, rLookup reg k = some r → k = normKey k ∧ r.email = k) →
        ∀ k r, rLookup (applyCalls calls reg) k = some r →
          k = normKey k ∧ r.email = k by
      exact hgen [] (fun k r hkr => by cases hkr)
    induction calls with
    | nil => exact fun reg h => h
    | cons c rest ih =>
      intro reg h
      exact ih _ (getOrCreate_step_inv reg c.1 c.2.1 c.2.2 h)
  · intro reg email f l k r hk
    rw [getOrCreate_vstr_eq]
    cases hl : rLookup reg (normKey email) with
    | none =>
      refine ⟨r, ?_, by simp, fun _ => rfl, fun _ => rfl⟩
      simp only
      rw [rLookup_append_single, hk]
    | some r0 =>
      by_cases hke : normKey email = k
      · subst hke
        rw [hk] at hl
        cases hl
        refine ⟨_, by simp only; rw [rLookup_rSet_self _ _ _ (by rw [hk]; rfl)],
          by simp, fun ht => ?_, fun ht => ?_⟩
        · simp only
          rw [if_neg (fun hc => hc.2 ht)]
        · simp only
          rw [if_neg (fun hc => hc.2 ht)]
      · refine ⟨r, ?_, by simp, fun _ => rfl, fun _ => rfl⟩
        simp only
        rw [rLookup_rSet_ne _ _ _ _ hke, hk]
  · intro reg e e' f l h
    simp only [getOrCreateRider, h]

/-- Witness for C10: a two-call sequence (one creation, one variant-email
lookup) satisfies all three parts of the invariant on concrete data. -/
theorem registry_key_invariant_witness :
    (rLookup (applyCalls [(" Jo@X.Com ", "Jo", "Doe"), ("JO@x.com", "Max", "Zorn")] [])
        "jo@x.com" = some (mkRider "jo@x.com" "Jo" "Doe") →
      "jo@x.com" = normKey "jo@x.com" ∧
        (mkRider "jo@x.com" "Jo" "Doe").email = "jo@x.com") ∧
    (∃ r', rLookup (getOrCreateRider [("jo@x.com", mkRider "jo@x.com" "Jo" "Doe")]
          "JO@x.com" (.vstr "Max") (.vstr "Zorn")).1 "jo@x.com" = some r' ∧
        r' = { mkRider "jo@x.com" "Jo" "Doe" with
          first_name := r'.first_name, last_name := r'.last_name } ∧
        ((mkRider "jo@x.com" "Jo" "Doe").first_name.truthy →
          r'.first_name = (mkRider "jo@x.com" "Jo" "Doe").first_name) ∧
        ((mkRider "jo@x.com" "Jo" "Doe").last_name.truthy →
          r'.last_name = (mkRider "jo@x.com" "Jo" "Doe").last_name)) ∧
    getOrCreateRider [] " Jo@X.Com " (.vstr "Jo") (.vstr "Doe") =
      getOrCreateRider [] "jo@x.com  " (.vstr "Jo") (.vstr "Doe") := by
  refine ⟨registry_key_invariant.1 [(" Jo@X.Com ", "Jo", "Doe"), ("JO@x.com", "Max", "Zorn")]
      "jo@x.com" (mkRider "jo@x.com" "Jo" "Doe"),
    registry_key_invariant.2.1 [("jo@x.com", mkRider "jo@x.com" "Jo" "Doe")]
      "JO@x.com" "Max" "Zorn" "jo@x.com" (mkRider "jo@x.com" "Jo" "Doe") (by decide),
    registry_key_invariant.2.2 [] " Jo@X.Com " "jo@x.com  " "Jo" "Doe" (by decide)⟩

/-! ### Monotonicity infrastructure -/

/-- Helper: `autoLe` is reflexive. -/
theorem autoLe_refl (a : FunnelStage) : autoLe a a := by
  unfold autoLe
  cases h : stageRank a <;> simp

/-- Helper: `autoLe` is transitive. -/
theorem autoLe_trans {a b c : FunnelStage} (h1 : autoLe a b) (h2 : autoLe b c) :
    autoLe a c := by
  unfold autoLe at *
  cases ha : stageRank a <;> cases hb : stageRank b <;> cases hc : stageRank c <;>
    simp_all
  all_goals omega

/-- Helper: `autoLe` implies the canonical-order non-regression of the
specification. -/
theorem autoLe_noRegress {a b : FunnelStage} (h : autoLe a b) : noRegress a b := by
  intro i j hi hj
  unfold autoLe at h
  rw [hi, hj] at h
  simpa using h

/-- Helper: `stMonoR` is reflexive. -/
theorem stMonoR_refl (a : Reg) : stMonoR a a :=
  fun _ r h => ⟨r, h, autoLe_refl _⟩

/-- Helper: `stMonoR` is transitive. -/
theorem stMonoR_trans {a b c : Reg} (h1 : stMonoR a b) (h2 : stMonoR b c) :
    stMonoR a c := by
  intro k r h
  obtain ⟨r1, hb, l1⟩ := h1 k r h
  obtain ⟨r2, hc, l2⟩ := h2 k r1 hb
  exact ⟨r2, hc, autoLe_trans l1 l2⟩

/-- Helper: stage-monotone evolution preserves keys. -/
theorem stMonoR_regMonoR {a b : Reg} (h : stMonoR a b) : regMonoR a b := by
  intro k hk
  obtain ⟨r, hr⟩ := Option.isSome_iff_exists.mp hk
  obtain ⟨r', hr', _⟩ := h k r hr
  exact Option.isSome_iff_exists.mpr ⟨r', hr'⟩

/-- Helper: `regMonoR` is reflexive. -/
theorem regMonoR_refl (a : Reg) : regMonoR a a := fun _ h => h

/-- Helper: `regMonoR` is transitive. -/
theorem regMonoR_trans {a b c : Reg} (h1 : regMonoR a b) (h2 : regMonoR b c) :
    regMonoR a c := fun k h => h2 k (h1 k h)

/-- Helper: the three registry shapes `_get_or_create_rider` can return:
unchanged, one fresh entry appended at a previously-absent key, or an
in-place name-fill (stage unchanged) at a present key. -/
theorem getOrCreate_shape (reg : Reg) (e : String) (f l : Val) :
    (getOrCreateRider reg e f l).1 = reg ∨
    (∃ k0 r0, rLookup reg k0 = none ∧
      (getOrCreateRider reg e f l).1 = reg ++ [(k0, r0)]) ∨
    (∃ k0 r0 r1, rLookup reg k0 = some r0 ∧ r1.current_stage = r0.current_stage ∧
      (getOrCreateRider reg e f l).1 = rSet reg k0 r1) := by
  unfold getOrCreateRider
  dsimp only
  cases hx : rLookup reg (normKey e) with
  | none =>
    cases hf : stripName f with
    | error ef =>
      cases hl : stripName l with
      | error el => left; rfl
      | ok sl => left; rfl
    | ok sf =>
      cases hl : stripName l with
      | error el => left; rfl
      | ok sl => right; left; exact ⟨normKey e, _, hx, rfl⟩
  | some r0 =>
    dsimp only
    cases hc1 : (if (f.truthy : Prop) ∧ ¬ r0.first_name.truthy then
        (f.strip).map (fun s => { r0 with first_name := .vstr s })
      else .ok r0) with
    | error e1 => left; rfl
    | ok r1 =>
      dsimp only
      have hst1 : r1.current_stage = r0.current_stage := by
        by_cases hcond : (f.truthy : Prop) ∧ ¬ r0.first_name.truthy
        · rw [if_pos hcond] at hc1
          cases hfs : f.strip with
          | error ee => rw [hfs] at hc1; cases hc1
          | ok s =>
            rw [hfs] at hc1
            cases hc1
            rfl
        · rw [if_neg hcond] at hc1
          cases hc1
          rfl
      cases hc2 : (if (l.truthy : Prop) ∧ ¬ r1.last_name.truthy then
          (l.strip).map (fun s => { r1 with last_name := .vstr s })
        else .ok r1) with
      | error e2 =>
        right; right
        exact ⟨normKey e, r0, r1, hx, hst1, rfl⟩
      | ok r2 =>
        have hst2 : r2.current_stage = r1.current_stage := by
          by_cases hcond : (l.truthy : Prop) ∧ ¬ r1.last_name.truthy
          · rw [if_pos hcond] at hc2
            cases hls : l.strip with
            | error ee => rw [hls] at hc2; cases hc2
            | ok s =>
              rw [hls] at hc2
              cases hc2
              rfl
          · rw [if_neg hcond] at hc2
            cases hc2
            rfl
        right; right
        exact ⟨normKey e, r0, r2, hx, hst2.trans hst1, rfl⟩

/-- Helper: `_get_or_create_rider` is stage-monotone (it never touches
`current_stage` of an existing rider and never drops a key). -/
theorem getOrCreate_stMonoR (reg : Reg) (e : String) (f l : Val) :
    stMonoR reg (getOrCreateRider reg e f l).1 := by
  rcases getOrCreate_shape reg e f l with h | ⟨k0, r0, hk0, h⟩ | ⟨k0, r0, r1, hk0, hst, h⟩ <;>
    rw [h] <;> intro k r hkr
  · exact ⟨r, hkr, autoLe_refl _⟩
  · refine ⟨r, ?_, autoLe_refl _⟩
    rw [rLookup_append_single, hkr]
  · by_cases hkk : k0 = k
    · subst hkk
      rw [hkr] at hk0
      cases hk0
      refine ⟨r1, rLookup_rSet_self _ _ _ (by rw [hkr]; rfl), ?_⟩
      rw [hst]
      exact autoLe_refl _

    · exact ⟨r, by rw [rLookup_rSet_ne _ _ _ _ hkk]; exact hkr, autoLe_refl _⟩

/-- Helper: a rider update whose stage change respects `autoLe` is
stage-monotone on the whole registry. -/
theorem updRider_stMonoR (st : DL) (k : String) (g : Rider → Rider)
    (h : ∀ r, autoLe r.current_stage (g r).current_stage) :
    stMonoR st.riders (updRider st k g).riders := by
  intro k' r' hk'
  unfold updRider
  cases hx : rLookup st.riders k with
  | none => exact ⟨r', hk', autoLe_refl _⟩
  | some r0 =>
    simp only
    by_cases hkk : k = k'
    · subst hkk
      rw [hx] at hk'
      injection hk' with hk'
      subst hk'
      exact ⟨g r0, rLookup_rSet_self _ _ _ (by rw [hx]; rfl), h r0⟩
    · exact ⟨r', by rw [rLookup_rSet_ne _ _ _ _ hkk]; exact hk', autoLe_refl _⟩

/-- Helper: a stage-preserving rider update is stage-monotone. -/
theorem updRider_stMonoR_of_stage_eq (st : DL) (k : String) (g : Rider → Rider)
    (h : ∀ r, (g r).current_stage = r.current_stage) :
    stMonoR st.riders (updRider st k g).riders :=
  updRider_stMonoR st k g (fun r => by rw [h r]; exact autoLe_refl _)

/-- Helper: `runRows` preserves any reflexive-transitive relation that
every row step preserves (also across the state kept by an aborting
exception). -/
theorem runRows_rel (R : Reg → Reg → Prop)
    (hrefl : ∀ a, R a a) (htrans : ∀ {a b c}, R a b → R b c → R a c)
    (f : RawRow → Step) (hf : ∀ row st, R st.riders ((f row) st).1.riders) :
    ∀ rows st, R st.riders ((runRows f rows) st).1.riders
  | [], st => hrefl st.riders
  | row :: rows, st => by
    unfold runRows
    cases hx : f row st with
    | mk st' e =>
      cases e with
      | none =>
        have h1 := hf row st
        rw [hx] at h1
        exact htrans h1 (runRows_rel R hrefl htrans f hf rows st')
      | some err =>
        have h1 := hf row st
        rw [hx] at h1
        exact h1

/-- Helper: `runSteps` preserves any reflexive-transitive relation that
every step preserves. -/
theorem runSteps_rel (R : Reg → Reg → Prop)
    (hrefl : ∀ a, R a a) (htrans : ∀ {a b c}, R a b → R b c → R a c) :
    ∀ steps : List Step, (∀ s ∈ steps, ∀ st, R st.riders ((s) st).1.riders) →
    ∀ st, R st.riders ((runSteps steps) st).1.riders
  | [], _, st => hrefl st.riders
  | s :: steps, hs, st => by
    unfold runSteps
    cases hx : s st with
    | mk st' e =>
      cases e with
      | none =>
        have h1 := hs s (List.mem_cons_self s steps) st
        rw [hx] at h1
        exact htrans h1
          (runSteps_rel R hrefl htrans steps
            (fun s' hmem st'' => hs s' (List.mem_cons_of_mem _ hmem) st'') st')
      | some err =>
        have h1 := hs s (List.mem_cons_self s steps) st
        rw [hx] at h1
        exact h1

/-! ### Per-ingestor stage monotonicity -/

/-- Helper: one blueprint-registration row is stage-monotone. -/
theorem blueprintRow_stMonoR (row : RawRow) (st : DL) :
    stMonoR st.riders ((blueprintRowStep row) st).1.riders := by
  unfold blueprintRowStep
  cases h1 : (rowGet row "email" vempty).strip with
  | error e => exact stMonoR_refl _
  | ok email =>
    dsimp only
    by_cases he : email = ""
    · rw [if_pos he]
      exact stMonoR_refl _
    · rw [if_neg he]
      cases hgoc : getOrCreateRider st.riders email (rowGet row "first_name" vempty)
          (rowGet row "last_name" vempty) with
      | mk reg1 res =>
        dsimp only
        have hmono1 : stMonoR st.riders reg1 := by
          have h := getOrCreate_stMonoR st.riders email (rowGet row "first_name" vempty)
            (rowGet row "last_name" vempty)
          rw [hgoc] at h
          exact h
        have hstage : ∀ r : Rider,
            autoLe r.current_stage
              ((fun r : Rider =>
                if r.current_stage = FunnelStage.outreach then
                  { r with current_stage := FunnelStage.registered }
                else r) r).current_stage := by
          intro r
          dsimp only
          by_cases h : r.current_stage = FunnelStage.outreach
          · simp only [if_pos h]
            show autoLe r.current_stage FunnelStage.registered
            rw [h]
            decide
          · simp only [if_neg h]
            exact autoLe_refl _
        cases res with
        | error e => exact hmono1
        | ok key =>
          dsimp only
          cases hpd : parseDateVal (milestoneDateVal row) with
          | error e =>
            dsimp only
            exact stMonoR_trans hmono1
              (updRider_stMonoR { st with riders := reg1 } _ _ hstage)
          | ok d =>
            dsimp only
            refine stMonoR_trans ?_
              (updRider_stMonoR_of_stage_eq _ _ _ (fun r => by split <;> rfl))
            refine stMonoR_trans ?_
              (updRider_stMonoR_of_stage_eq _ _ _ (fun r => by split <;> rfl))
            refine stMonoR_trans ?_
              (updRider_stMonoR_of_stage_eq _ _ _ (fun r => by split <;> rfl))
            refine stMonoR_trans ?_
              (updRider_stMonoR_of_stage_eq _ _ _ (fun r => rfl))
            exact stMonoR_trans hmono1
              (updRider_stMonoR { st with riders := reg1 } _ _ hstage)

/-- Helper: one day-1 assessment row is stage-monotone. -/
theorem day1Row_stMonoR (row : RawRow) (st : DL) :
    stMonoR st.riders ((day1RowStep row) st).1.riders := by
  unfold day1RowStep
  cases h1 : (rowGet row "email" vempty).strip with
  | error e => exact stMonoR_refl _
  | ok email =>
    dsimp only
    by_cases he : email = ""
    · rw [if_pos he]
      exact stMonoR_refl _
    · rw [if_neg he]
      cases h2 : (rowGet row "completed" vempty).lower with
      | error e => exact stMonoR_refl _
      | ok completed =>
        dsimp only
        by_cases hc : completed ≠ "yes"
        · rw [if_pos hc]
          exact stMonoR_refl _
        · rw [if_neg hc]
          cases hgoc : getOrCreateRider st.riders email (rowGet row "first_name" vempty)
              (rowGet row "last_name" vempty) with
          | mk reg1 res =>
            dsimp only
            have hmono1 : stMonoR st.riders reg1 := by
              have h := getOrCreate_stMonoR st.riders email (rowGet row "first_name" vempty)
                (rowGet row "last_name" vempty)
              rw [hgoc] at h
              exact h
            have hstage : ∀ r : Rider,
                autoLe r.current_stage
                  ((fun r : Rider =>
                    if r.current_stage = FunnelStage.outreach ∨
                        r.current_stage = FunnelStage.registered then
                      { r with current_stage := .day1Complete }
                    else r) r).current_stage := by
              intro r
              dsimp only
              by_cases h : r.current_stage = FunnelStage.outreach ∨
                  r.current_stage = FunnelStage.registered
              · simp only [if_pos h]
                show autoLe r.current_stage FunnelStage.day1Complete
                rcases h with h | h <;> rw [h] <;> decide
              · simp only [if_neg h]
                exact autoLe_refl _
            cases res with
            | error e => exact hmono1
            | ok key =>
              dsimp only
              cases hpd : parseDateVal (day1DateVal row) with
              | error e =>
                dsimp only
                exact stMonoR_trans hmono1
                  (updRider_stMonoR { st with riders := reg1 } _ _ hstage)
              | ok d =>
                dsimp only
                by_cases hsc : ((rowGet row "Overall Score - Actual" (.vstr "0")).truthy : Prop)
                · rw [if_pos hsc]
                  cases hfv : pyFloatOfVal (rowGet row "Overall Score - Actual" (.vstr "0")) with
                  | ok v =>
                    dsimp only
                    refine stMonoR_trans ?_
                      (updRider_stMonoR_of_stage_eq _ _ _ (fun r => rfl))
                    refine stMonoR_trans ?_
                      (updRider_stMonoR_of_stage_eq _ _ _ (fun r => rfl))
                    exact stMonoR_trans hmono1
                      (updRider_stMonoR { st with riders := reg1 } _ _ hstage)
                  | error ev =>
                    cases ev <;> dsimp only <;>
                      refine stMonoR_trans ?_
                        (updRider_stMonoR_of_stage_eq _ _ _ (fun r => rfl)) <;>
                      exact stMonoR_trans hmono1
                        (updRider_stMonoR { st with riders := reg1 } _ _ hstage)
                · rw [if_neg hsc]
                  dsimp only
                  refine stMonoR_trans ?_
                    (updRider_stMonoR_of_stage_eq _ _ _ (fun r => rfl))
                  refine stMonoR_trans ?_
                    (updRider_stMonoR_of_stage_eq _ _ _ (fun r => rfl))
                  exact stMonoR_trans hmono1
                    (updRider_stMonoR { st with riders := reg1 } _ _ hstage)

/-- Helper: one day-2 assessment row is stage-monotone. -/
theorem day2Row_stMonoR (row : RawRow) (st : DL) :
    stMonoR st.riders ((day2RowStep row) st).1.riders := by
  unfold day2RowStep
  cases h1 : (rowGet row "email" vempty).strip with
  | error e => exact stMonoR_refl _
  | ok email =>
    dsimp only
    by_cases he : email = ""
    · rw [if_pos he]
      exact stMonoR_refl _
    · rw [if_neg he]
      cases hgoc : getOrCreateRider st.riders email (rowGet row "first_name" vempty)
          (rowGet row "last_name" vempty) with
      | mk reg1 res =>
        dsimp only
        have hmono1 : stMonoR st.riders reg1 := by
          have h := getOrCreate_stMonoR st.riders email (rowGet row "first_name" vempty)
            (rowGet row "last_name" vempty)
          rw [hgoc] at h
          exact h
        have hstage : ∀ r : Rider,
            autoLe r.current_stage
              ((fun r : Rider =>
                if r.current_stage = FunnelStage.outreach ∨
                    r.current_stage = FunnelStage.registered ∨
                    r.current_stage = FunnelStage.day1Complete then
                  { r with current_stage := .day2Complete }
                else r) r).current_stage := by
          intro r
          dsimp only
          by_cases h : r.current_stage = FunnelStage.outreach ∨
              r.current_stage = FunnelStage.registered ∨
              r.current_stage = FunnelStage.day1Complete
          · simp only [if_pos h]
            show autoLe r.current_stage FunnelStage.day2Complete
            rcases h with h | h | h <;> rw [h] <;> decide
          · simp only [if_neg h]
            exact autoLe_refl _
        cases res with
        | error e => exact hmono1
        | ok key =>
          dsimp only
          cases hpd : parseDateVal (milestoneDateVal row) with
          | error e =>
            dsimp only
            exact stMonoR_trans hmono1
              (updRider_stMonoR { st with riders := reg1 } _ _ hstage)
          | ok d =>
            dsimp only
            refine stMonoR_trans ?_
              (updRider_stMonoR_of_stage_eq _ _ _ (fun r => rfl))
            refine stMonoR_trans ?_
              (updRider_stMonoR_of_stage_eq _ _ _ (fun r => rfl))
            exact stMonoR_trans hmono1
              (updRider_stMonoR { st with riders := reg1 } _ _ hstage)

/-- Helper: the xperiencify tag mapping only moves stages along `autoLe`. -/
theorem xperiencifyNewStage_autoLe {t : String} {cur s : FunnelStage}
    (h : xperiencifyNewStage t cur = some s) : autoLe cur s := by
  unfold xperiencifyNewStage at h
  by_cases c1 : pySubstr "day 3 completed" t
  · rw [if_pos c1] at h
    cases h
  · rw [if_neg c1] at h
    by_cases c2 : pySubstr "day 2 completed" t
    · rw [if_pos c2] at h
      by_cases c3 : cur ≠ FunnelStage.strategyCallBooked ∧ cur ≠ FunnelStage.client
      · rw [if_pos c3] at h
        injection h with h
        subst h
        obtain ⟨a1, a2⟩ := c3
        cases cur <;> first | decide | exact absurd rfl a1 | exact absurd rfl a2
      · rw [if_neg c3] at h
        cases h
    · rw [if_neg c2] at h
      by_cases c4 : pySubstr "day 1 completed" t
      · rw [if_pos c4] at h
        by_cases c5 : cur ≠ FunnelStage.day2Complete ∧
            cur ≠ FunnelStage.strategyCallBooked ∧ cur ≠ FunnelStage.client
        · rw [if_pos c5] at h
          injection h with h
          subst h
          obtain ⟨a1, a2, a3⟩ := c5
          cases cur <;>
            first | decide | exact absurd rfl a1 | exact absurd rfl a2 | exact absurd rfl a3
        · rw [if_neg c5] at h
          cases h
      · rw [if_neg c4] at h
        by_cases c6 : pySubstr "mission accepted" t ∨ pySubstr "blueprint started" t
        · rw [if_pos c6] at h
          by_cases c7 : cur = FunnelStage.outreach ∨ cur = FunnelStage.contact
          · rw [if_pos c7] at h
            injection h with h
            subst h
            rcases c7 with h | h <;> rw [h] <;> decide
          · rw [if_neg c7] at h
            cases h
        · rw [if_neg c6] at h
          cases h

/-- Helper: one xperiencify row is stage-monotone. -/
theorem xperiencifyRow_stMonoR (row : RawRow) (st : DL) :
    stMonoR st.riders ((xperiencifyRowStep row) st).1.riders := by
  unfold xperiencifyRowStep
  cases h1 : (rowGet row "email" vempty).strip with
  | error e => exact stMonoR_refl _
  | ok email =>
    dsimp only
    by_cases he : email = ""
    · rw [if_pos he]
      exact stMonoR_refl _
    · rw [if_neg he]
      cases hgoc : getOrCreateRider st.riders email (rowGet row "first_name" vempty)
          (rowGet row "last_name" vempty) with
      | mk reg1 res =>
        dsimp only
        have hmono1 : stMonoR st.riders reg1 := by
          have h := getOrCreate_stMonoR st.riders email (rowGet row "first_name" vempty)
            (rowGet row "last_name" vempty)
          rw [hgoc] at h
          exact h
        cases res with
        | error e => exact hmono1
        | ok key =>
          dsimp only
          have h2 : stMonoR st.riders
              (if (rowGetD row "phone").truthy then
                updRider { st with riders := reg1 } key
                  (fun r => { r with phone := rowGetD row "phone" })
              else { st with riders := reg1 }).riders := by
            split
            · exact stMonoR_trans hmono1
                (updRider_stMonoR_of_stage_eq { st with riders := reg1 } _ _ (fun r => rfl))
            · exact hmono1
          set stp := (if (rowGetD row "phone").truthy then
                updRider { st with riders := reg1 } key
                  (fun r => { r with phone := rowGetD row "phone" })
              else { st with riders := reg1 }) with hstp
          have h3 : stMonoR st.riders
              (if (rowGetD row "magic_link").truthy then
                updRider stp key
                  (fun r => { r with magic_link := some (rowGetD row "magic_link") })
              else stp).riders := by
            split
            · exact stMonoR_trans h2 (updRider_stMonoR_of_stage_eq stp _ _ (fun r => rfl))
            · exact h2
          set stm := (if (rowGetD row "magic_link").truthy then
                updRider stp key
                  (fun r => { r with magic_link := some (rowGetD row "magic_link") })
              else stp) with hstm
          have htail : ∀ st4 : DL, stMonoR st.riders st4.riders →
              stMonoR st.riders
                ((match (rowGet row "tags" vempty).lower with
                  | .error e => ((st4, some e) : DL × Option PyErr)
                  | .ok tLower =>
                    (updRider st4 key
                      (fun r =>
                        match xperiencifyNewStage tLower r.current_stage with
                        | some s => { r with current_stage := s }
                        | none => r), none)).1.riders) := by
            intro st4 h4
            cases htl : (rowGet row "tags" vempty).lower with
            | error e => exact h4
            | ok tLower =>
              dsimp only
              refine stMonoR_trans h4 (updRider_stMonoR st4 _ _ (fun r => ?_))
              dsimp only
              cases hx : xperiencifyNewStage tLower r.current_stage with
              | none => exact autoLe_refl _
              | some s => exact xperiencifyNewStage_autoLe hx
          by_cases hj : ((rowGetD row "date_joined").truthy = true)
          · rw [if_pos hj]
            cases hpj : parseDateVal (rowGetD row "date_joined") with
            | error e => exact h3
            | ok od =>
              cases od with
              | none => exact htail stm h3
              | some d =>
                dsimp only
                refine htail _ (stMonoR_trans h3
                  (updRider_stMonoR_of_stage_eq stm _ _ (fun r => ?_)))
                dsimp only
                split <;> split <;> rfl
          · rw [if_neg hj]
            exact htail stm h3

/-- Helper: one flow-profile row is stage-monotone. -/
theorem flowRow_stMonoR (row : RawRow) (st : DL) :
    stMonoR st.riders ((flowRowStep row) st).1.riders := by
  unfold flowRowStep
  cases h1 : (rowGet row "email" vempty).strip with
  | error e => exact stMonoR_refl _
  | ok email =>
    dsimp only
    by_cases he : email = ""
    · rw [if_pos he]
      exact stMonoR_refl _
    · rw [if_neg he]
      cases hgoc : getOrCreateRider st.riders email (rowGet row "first name" vempty)
          (rowGet row "last name" vempty) with
      | mk reg1 res =>
        dsimp only
        have hmono1 : stMonoR st.riders reg1 := by
          have h := getOrCreate_stMonoR st.riders email (rowGet row "first name" vempty)
            (rowGet row "last name" vempty)
          rw [hgoc] at h
          exact h
        cases res with
        | error e => exact hmono1
        | ok key =>
          dsimp only
          cases hpd : parseDateVal (rowGet row "submit date (utc)" vempty) with
          | error e => exact hmono1
          | ok d =>
            dsimp only
            have h2 : stMonoR st.riders
                (updRider { st with riders := reg1 } key
                  (fun r => { r with flow_profile_date := d })).riders :=
              stMonoR_trans hmono1
                (updRider_stMonoR_of_stage_eq { st with riders := reg1 } _ _ (fun r => rfl))
            set st2 := updRider { st with riders := reg1 } key
              (fun r => { r with flow_profile_date := d }) with hst2
            have h3 : stMonoR st.riders
                (match pyFloatOfVal (rowGet row "score" (.vstr "0")) with
                  | .ok v => updRider st2 key (fun r => { r with flow_profile_score := some v })
                  | .error _ => st2).riders := by
              cases hfv : pyFloatOfVal (rowGet row "score" (.vstr "0")) with
              | ok v =>
                exact stMonoR_trans h2
                  (updRider_stMonoR_of_stage_eq st2 _ _ (fun r => rfl))
              | error e => exact h2
            set st3 := (match pyFloatOfVal (rowGet row "score" (.vstr "0")) with
                | .ok v => updRider st2 key (fun r => { r with flow_profile_score := some v })
                | .error _ => st2) with hst3
            have h4 : stMonoR st.riders
                (updRider st3 key
                  (fun r => { r with flow_profile_url := rowGet row "ending" vempty })).riders :=
              stMonoR_trans h3
                (updRider_stMonoR_of_stage_eq st3 _ _ (fun r => rfl))
            set st4 := updRider st3 key
              (fun r => { r with flow_profile_url := rowGet row "ending" vempty }) with hst4
            have h5 : stMonoR st.riders
                (updRider st4 key
                  (fun r =>
                    if r.current_stage = FunnelStage.contact ∨
                        r.current_stage = FunnelStage.outreach then
                      { r with current_stage := .flowProfileCompleted }
                    else r)).riders := by
              refine stMonoR_trans h4 (updRider_stMonoR st4 _ _ (fun r => ?_))
              dsimp only
              by_cases h : r.current_stage = FunnelStage.contact ∨
                  r.current_stage = FunnelStage.outreach
              · simp only [if_pos h]
                show autoLe r.current_stage FunnelStage.flowProfileCompleted
                rcases h with h | h <;> rw [h] <;> decide
              · simp only [if_neg h]
                exact autoLe_refl _
            set st5 := updRider st4 key
              (fun r =>
                if r.current_stage = FunnelStage.contact ∨
                    r.current_stage = FunnelStage.outreach then
                  { r with current_stage := .flowProfileCompleted }
                else r) with hst5
            by_cases hu : ((rowGet row "ending" vempty).truthy = true)
            · rw [if_pos hu]
              cases hlow : (rowGet row "ending" vempty).lower with
              | error e => exact h5
              | ok low =>
                dsimp only
                exact stMonoR_trans h5
                  (updRider_stMonoR_of_stage_eq st5 _ _ (fun r => rfl))
            · rw [if_neg hu]
              exact h5

/-- Helper: one sleep-test row is stage-monotone. -/
theorem sleepRow_stMonoR (row : RawRow) (st : DL) :
    stMonoR st.riders ((sleepRowStep row) st).1.riders := by
  unfold sleepRowStep
  cases h1 : (rowGet row "email" vempty).strip with
  | error e => exact stMonoR_refl _
  | ok email =>
    dsimp only
    by_cases he : email = ""
    · rw [if_pos he]
      exact stMonoR_refl _
    · rw [if_neg he]
      cases hgoc : getOrCreateRider st.riders email (rowGet row "first_name" vempty)
          (rowGet row "last_name" vempty) with
      | mk reg1 res =>
        dsimp only
        have hmono1 : stMonoR st.riders reg1 := by
          have h := getOrCreate_stMonoR st.riders email (rowGet row "first_name" vempty)
            (rowGet row "last_name" vempty)
          rw [hgoc] at h
          exact h
        cases res with
        | error e => exact hmono1
        | ok key =>
          dsimp only
          cases hpd : parseDateVal ((rowGet row "submit_date_utc" vempty).orElse
              (rowGet row "stage_date_utc" vempty)) with
          | error e => exact hmono1
          | ok d =>
            dsimp only
            have h2 : stMonoR st.riders
                (updRider { st with riders := reg1 } key
                  (fun r => { r with sleep_test_date := d })).riders :=
              stMonoR_trans hmono1
                (updRider_stMonoR_of_stage_eq { st with riders := reg1 } _ _ (fun r => rfl))
            set st2 := updRider { st with riders := reg1 } key
              (fun r => { r with sleep_test_date := d }) with hst2
            have htail : ∀ st3 : DL, stMonoR st.riders st3.riders →
                stMonoR st.riders
                  ((updRider st3 key
                    (fun r =>
                      if r.current_stage = FunnelStage.contact ∨
                          r.current_stage = FunnelStage.outreach then
                        { r with current_stage := .sleepTestCompleted }
                      else r)).riders) := by
              intro st3 h3
              refine stMonoR_trans h3 (updRider_stMonoR st3 _ _ (fun r => ?_))
              dsimp only
              by_cases h : r.current_stage = FunnelStage.contact ∨
                  r.current_stage = FunnelStage.outreach
              · simp only [if_pos h]
                show autoLe r.current_stage FunnelStage.sleepTestCompleted
                rcases h with h | h <;> rw [h] <;> decide
              · simp only [if_neg h]
                exact autoLe_refl _
            by_cases hsc : (((rowGet row "Overall Score - Actual" vempty).orElse
                (rowGet row "Score" vempty)).truthy = true)
            · rw [if_pos hsc]
              cases hfv : pyFloatOfVal ((rowGet row "Overall Score - Actual" vempty).orElse
                  (rowGet row "Score" vempty)) with
              | ok v =>
                dsimp only
                exact htail _ (stMonoR_trans h2
                  (updRider_stMonoR_of_stage_eq st2 _ _ (fun r => rfl)))
              | error ev =>
                cases ev with
                | valueError => exact htail st2 h2
                | attributeError => exact h2
                | typeError => exact h2
                | nameError => exact h2
            · rw [if_neg hsc]
              exact htail st2 h2

/-- Helper: one mindset-quiz row is stage-monotone. -/
theorem mindsetRow_stMonoR (row : RawRow) (st : DL) :
    stMonoR st.riders ((mindsetRowStep row) st).1.riders := by
  unfold mindsetRowStep
  cases h1 : (rowGet row "email" vempty).strip with
  | error e => exact stMonoR_refl _
  | ok email =>
    dsimp only
    by_cases he : email = ""
    · rw [if_pos he]
      exact stMonoR_refl _
    · rw [if_neg he]
      cases hgoc : getOrCreateRider st.riders email (rowGet row "first_name" vempty)
          (rowGet row "last_name" vempty) with
      | mk reg1 res =>
        dsimp only
        have hmono1 : stMonoR st.riders reg1 := by
          have h := getOrCreate_stMonoR st.riders email (rowGet row "first_name" vempty)
            (rowGet row "last_name" vempty)
          rw [hgoc] at h
          exact h
        cases res with
        | error e => exact hmono1
        | ok key =>
          dsimp only
          cases hpd : parseDateVal ((rowGet row "submit_date_utc" vempty).orElse
              (rowGet row "stage_date_utc" vempty)) with
          | error e => exact hmono1
          | ok d =>
            dsimp only
            have h2 : stMonoR st.riders
                (updRider { st with riders := reg1 } key
                  (fun r => { r with mindset_quiz_date := d })).riders :=
              stMonoR_trans hmono1
                (updRider_stMonoR_of_stage_eq { st with riders := reg1 } _ _ (fun r => rfl))
            set st2 := updRider { st with riders := reg1 } key
              (fun r => { r with mindset_quiz_date := d }) with hst2
            have hstage : ∀ st4 : Funnel.DL, stMonoR st.riders st4.riders →
                stMonoR st.riders
                  ((updRider st4 key
                    (fun r =>
                      if r.current_stage = FunnelStage.contact ∨
                          r.current_stage = FunnelStage.outreach then
                        { r with current_stage := .mindsetQuizCompleted }
                      else r)).riders) := by
              intro st4 h4
              refine stMonoR_trans h4 (updRider_stMonoR st4 _ _ (fun r => ?_))
              dsimp only
              by_cases h : r.current_stage = FunnelStage.contact ∨
                  r.current_stage = FunnelStage.outreach
              · simp only [if_pos h]
                show autoLe r.current_stage FunnelStage.mindsetQuizCompleted
                rcases h with h | h <;> rw [h] <;> decide
              · simp only [if_neg h]
                exact autoLe_refl _
            have houtcome : ∀ st3 : Funnel.DL, stMonoR st.riders st3.riders →
                stMonoR st.riders
                  ((match (if ((rowGet row "Outcome" vempty).orElse
                        (rowGet row "Your Mindset" vempty)).truthy then
                      match ((rowGet row "Outcome" vempty).orElse
                          (rowGet row "Your Mindset" vempty)).strip with
                      | .error e => ((st3, some e) : DL × Option PyErr)
                      | .ok s =>
                        (updRider st3 key
                          (fun r => { r with mindset_result := .vstr s }), none)
                    else (st3, none)) with
                  | (st4, some e) => ((st4, some e) : DL × Option PyErr)
                  | (st4, none) =>
                    (updRider st4 key
                      (fun r =>
                        if r.current_stage = FunnelStage.contact ∨
                            r.current_stage = FunnelStage.outreach then
                          { r with current_stage := .mindsetQuizCompleted }
                        else r), none)).1.riders) := by
              intro st3 h3
              by_cases ho : (((rowGet row "Outcome" vempty).orElse
                  (rowGet row "Your Mindset" vempty)).truthy = true)
              · rw [if_pos ho]
                cases hos : ((rowGet row "Outcome" vempty).orElse
                    (rowGet row "Your Mindset" vempty)).strip with
                | error e => exact h3
                | ok s =>
                  dsimp only
                  exact hstage _ (stMonoR_trans h3
                    (updRider_stMonoR_of_stage_eq st3 _ _ (fun r => rfl)))
              · rw [if_neg ho]
                exact hstage st3 h3
            by_cases hsc : (((rowGet row "Overall Score - Actual" vempty).orElse
                (rowGet row "Score" vempty)).truthy = true)
            · rw [if_pos hsc]
              cases hfv : pyFloatOfVal ((rowGet row "Overall Score - Actual" vempty).orElse
                  (rowGet row "Score" vempty)) with
              | ok v =>
                dsimp only
                exact houtcome _ (stMonoR_trans h2
                  (updRider_stMonoR_of_stage_eq st2 _ _ (fun r => rfl)))
              | error ev =>
                cases ev with
                | valueError => exact houtcome st2 h2
                | attributeError => exact h2
                | typeError => exact h2
                | nameError => exact h2
            · rw [if_neg hsc]
              exact houtcome st2 h2

/-- Helper: one race-review row is stage-monotone. -/
theorem raceReviewRow_stMonoR (row : RawRow) (st : DL) :
    stMonoR st.riders ((raceReviewRowStep row) st).1.riders := by
  unfold raceReviewRowStep
  cases h1 : (rowGet row "email" vempty).strip with
  | error e => exact stMonoR_refl _
  | ok email =>
    dsimp only
    by_cases he : email = ""
    · rw [if_pos he]
      exact stMonoR_refl _
    · rw [if_neg he]
      cases hgoc : getOrCreateRider st.riders email (rowGet row "first_name" vempty)
          (rowGet row "last_name" vempty) with
      | mk reg1 res =>
        dsimp only
        have hmono1 : stMonoR st.riders reg1 := by
          have h := getOrCreate_stMonoR st.riders email (rowGet row "first_name" vempty)
            (rowGet row "last_name" vempty)
          rw [hgoc] at h
          exact h
        cases res with
        | error e => exact hmono1
        | ok key =>
          dsimp only
          cases hpd : parseDateVal ((rowGetD row "scorecard_finished_at").orElse
              ((rowGetD row "submit_date_utc").orElse
                (rowGetD row "Submit Date (UTC)"))) with
          | error e => exact hmono1
          | ok od =>
            cases od with
            | none => exact hmono1
            | some d =>
              dsimp only
              exact stMonoR_trans hmono1
                (updRider_stMonoR_of_stage_eq { st with riders := reg1 } _ _
                  (fun r => by split <;> rfl))

/-- Helper: any stage can move to `CLIENT` under `autoLe`. -/
theorem autoLe_client (a : FunnelStage) : autoLe a FunnelStage.client := by
  cases a <;> decide

/-- Helper: one revenue-log row is stage-monotone (it only ever forces the
stage to `SALE_CLOSED = CLIENT`, the top of the funnel order). -/
theorem revenueRow_stMonoR (row : RawRow) (st : DL) :
    stMonoR st.riders ((revenueRowStep row) st).1.riders := by
  unfold revenueRowStep
  cases h1 : (rowGet row "email" vempty).strip with
  | error e => exact stMonoR_refl _
  | ok emailStripped =>
    dsimp only
    cases hamt : (match alLookup row "amount" with
        | none => Except.ok (PyFloat.fin 0)
        | some v => pyFloatOfVal v) with
    | error ev =>
      cases ev <;> exact stMonoR_refl _
    | ok amount =>
      dsimp only
      by_cases hc : pyLower emailStripped ≠ "" ∧ amount.posit = true
      · rw [if_pos hc]
        cases hgoc : getOrCreateRider st.riders (pyLower emailStripped)
            (.vstr "") (.vstr "") with
        | mk reg1 res =>
          dsimp only
          have hmono1 : stMonoR st.riders reg1 := by
            have h := getOrCreate_stMonoR st.riders (pyLower emailStripped)
              (.vstr "") (.vstr "")
            rw [hgoc] at h
            exact h
          cases res with
          | error e => exact hmono1
          | ok key =>
            dsimp only
            have h2 : stMonoR st.riders
                (updRider { st with riders := reg1 } key
                  (fun r => { r with sale_value := some amount })).riders :=
              stMonoR_trans hmono1
                (updRider_stMonoR_of_stage_eq { st with riders := reg1 } _ _ (fun r => rfl))
            refine stMonoR_trans h2 (updRider_stMonoR _ _ _ (fun r => ?_))
            dsimp only
            by_cases h : r.current_stage ≠ FunnelStage.saleClosed
            · simp only [if_pos h]
              exact autoLe_client _
            · simp only [if_neg h]
              exact autoLe_refl _
      · rw [if_neg hc]
        exact stMonoR_refl _

/-- Helper: `andThen` preserves a relation through both sub-steps. -/
theorem andThen_rel (R : Reg → Reg → Prop)
    (htrans : ∀ {a b c}, R a b → R b c → R a c)
    {base : Reg} {a : DL × Option PyErr} {f : DL → DL × Option PyErr}
    (h1 : R base a.1.riders) (h2 : ∀ st', R st'.riders (f st').1.riders) :
    R base (andThen a f).1.riders := by
  unfold andThen
  cases a with
  | mk st' e =>
    cases e with
    | none => exact htrans h1 (h2 st')
    | some err => exact h1

/-- Helper: the social-column sweep of one scan row is stage-monotone. -/
theorem scanSocialsList_stMonoR (key : String) :
    ∀ (cols : List String) (row : RawRow) (st : DL),
      stMonoR st.riders ((scanSocialsList key cols row) st).1.riders
  | [], _, st => stMonoR_refl _
  | col :: rest, row, st => by
    unfold scanSocialsList
    cases hs : (rowGetD row col).strip with
    | error e => exact stMonoR_refl _
    | ok val =>
      dsimp only
      refine stMonoR_trans ?_ (scanSocialsList_stMonoR key rest row _)
      split
      · split
        · exact updRider_stMonoR_of_stage_eq st _ _ (fun r => rfl)
        · split
          · exact updRider_stMonoR_of_stage_eq st _ _ (fun r => rfl)
          · split
            · exact updRider_stMonoR_of_stage_eq st _ _ (fun r => rfl)
            · exact stMonoR_refl _
      · exact stMonoR_refl _

/-- Helper: one row of the social/review scan is stage-monotone. -/
theorem scanRow_stMonoR (cfg : Cfg) (headers : List String) (isRace isSeason : Bool)
    (row : RawRow) (st : DL) :
    stMonoR st.riders ((scanRowStep cfg headers isRace isSeason row) st).1.riders := by
  unfold scanRowStep
  dsimp only
  split
  · exact stMonoR_refl _
  · split
    · next s heq =>
      split
      · exact stMonoR_refl _
      · try dsimp only
        cases hgoc : getOrCreateRider st.riders s (.vstr "") (.vstr "") with
        | mk reg1 res =>
          dsimp only
          have hmono1 : stMonoR st.riders reg1 := by
            have h := getOrCreate_stMonoR st.riders s (.vstr "") (.vstr "")
            rw [hgoc] at h
            exact h
          cases res with
          | error e => exact hmono1
          | ok key =>
            dsimp only
            refine andThen_rel stMonoR (fun {a b c} => stMonoR_trans)
              (stMonoR_trans hmono1 (scanSocialsList_stMonoR key (rowKeys row) row
                { st with riders := reg1 })) (fun st2 => ?_)
            dsimp only
            have h3 : stMonoR st2.riders
                (updRider st2 key
                  (fun r =>
                    if ¬ r.first_name.truthy ∧ headers.contains "first_name" then
                      { r with first_name := rowGet row "first_name" vempty }
                    else r)).riders :=
              updRider_stMonoR_of_stage_eq st2 _ _ (fun r => by split <;> rfl)
            set st3 := updRider st2 key
              (fun r =>
                if ¬ r.first_name.truthy ∧ headers.contains "first_name" then
                  { r with first_name := rowGet row "first_name" vempty }
                else r) with hst3
            have h4 : stMonoR st2.riders
                (updRider st3 key
                  (fun r =>
                    if ¬ r.last_name.truthy ∧ headers.contains "last_name" then
                      { r with last_name := rowGet row "last_name" vempty }
                    else r)).riders :=
              stMonoR_trans h3
                (updRider_stMonoR_of_stage_eq st3 _ _ (fun r => by split <;> rfl))
            set st4 := updRider st3 key
              (fun r =>
                if ¬ r.last_name.truthy ∧ headers.contains "last_name" then
                  { r with last_name := rowGet row "last_name" vempty }
                else r) with hst4
            cases hpd : (if ((rowGetD row "scorecard_finished_at").orElse
                  ((rowGetD row "submit_date_utc").orElse
                    ((rowGetD row "Sumit Date (UTC)").orElse
                      (rowGetD row "Submit Date (UTC)")))).truthy then
                parseDateVal ((rowGetD row "scorecard_finished_at").orElse
                  ((rowGetD row "submit_date_utc").orElse
                    ((rowGetD row "Sumit Date (UTC)").orElse
                      (rowGetD row "Submit Date (UTC)"))))
              else Except.ok none) with
            | error e => exact h4
            | ok submitDate =>
              dsimp only
              cases submitDate with
              | none => exact h4
              | some d =>
                dsimp only
                have h5 : stMonoR st2.riders
                    (if isRace then
                      updRider st4 key
                        (fun r =>
                          if r.race_weekend_review_date = none ∨
                              (r.race_weekend_review_date.all (fun old => old.lt d)) then
                            { r with
                              race_weekend_review_date := some d
                              race_weekend_review_status := .vstr "completed" }
                          else r)
                    else st4).riders := by
                  split
                  · exact stMonoR_trans h4
                      (updRider_stMonoR_of_stage_eq st4 _ _ (fun r => by split <;> rfl))
                  · exact h4
                set st5 := (if isRace then
                    updRider st4 key
                      (fun r =>
                        if r.race_weekend_review_date = none ∨
                            (r.race_weekend_review_date.all (fun old => old.lt d)) then
                          { r with
                            race_weekend_review_date := some d
                            race_weekend_review_status := .vstr "completed" }
                        else r)
                  else st4) with hst5
                split
                · exact stMonoR_trans h5
                    (updRider_stMonoR_of_stage_eq st5 _ _ (fun r => by split <;> rfl))
                · exact h5
    · exact stMonoR_refl _

/-- Helper: one file of the social/review scan is stage-monotone. -/
theorem scanFile_stMonoR (cfg : Cfg) (filename : String) (file : CsvFile) (st : DL) :
    stMonoR st.riders ((scanFileStep cfg filename file) st).1.riders := by
  unfold scanFileStep
  split
  · exact stMonoR_refl _
  · dsimp only
    split
    · exact stMonoR_refl _
    · split
      · exact stMonoR_refl _
      · exact runRows_rel stMonoR stMonoR_refl (fun {a b c} => stMonoR_trans) _
          (fun row st' => scanRow_stMonoR cfg _ _ _ row st') file.rows st

/-- Helper: a fold over the data files preserves a reflexive-transitive
relation preserved by each file. -/
theorem foldl_rel_riders (R : Reg → Reg → Prop)
    (hrefl : ∀ a, R a a) (htrans : ∀ {a b c}, R a b → R b c → R a c)
    (g : DL → String × CsvFile → DL)
    (hg : ∀ st f, R st.riders (g st f).riders) :
    ∀ (l : List (String × CsvFile)) (st : DL), R st.riders (l.foldl g st).riders
  | [], st => hrefl _
  | f :: rest, st =>
    htrans (hg st f) (foldl_rel_riders R hrefl htrans g hg rest (g st f))

/-- Helper: the whole social/review scan is stage-monotone. -/
theorem scan_stMonoR (cfg : Cfg) (st : DL) :
    stMonoR st.riders ((scanForSocialAndReviews cfg) st).1.riders := by
  unfold scanForSocialAndReviews
  dsimp only
  refine foldl_rel_riders stMonoR stMonoR_refl (fun {a b c} => stMonoR_trans) _
    (fun st' f => ?_) cfg.files st
  split
  · exact scanFile_stMonoR cfg f.1 f.2 st'
  · exact stMonoR_refl _

/-- Helper: the Facebook identity resolution is stage-monotone. -/
theorem fbKeyRes_stMonoR (st : DL) (cleanName slug : String) :
    stMonoR st.riders (fbKeyRes st cleanName slug).1.riders := by
  unfold fbKeyRes
  cases hex : (st.riders.find?
      (fun kv => pyLower kv.2.fullName = pyLower cleanName)).map (fun kv => kv.2.email) with
  | some emailK => exact stMonoR_refl _
  | none =>
    dsimp only
    cases hgoc : getOrCreateRider st.riders ("no_email_" ++ slug)
        (.vstr ((pySplitSpace cleanName).headD ""))
        (.vstr (if (pySplitSpace cleanName).length > 1 then
          pyJoinSpace (pySplitSpace cleanName).tail else "")) with
    | mk reg1 res =>
      dsimp only
      have hmono1 : stMonoR st.riders reg1 := by
        have h := getOrCreate_stMonoR st.riders ("no_email_" ++ slug)
          (.vstr ((pySplitSpace cleanName).headD ""))
          (.vstr (if (pySplitSpace cleanName).length > 1 then
            pyJoinSpace (pySplitSpace cleanName).tail else ""))
        rw [hgoc] at h
        exact h
      cases res with
      | error e => exact hmono1
      | ok key =>
        exact stMonoR_trans hmono1
          (updRider_stMonoR_of_stage_eq { st with riders := reg1 } _ _ (fun r => rfl))

/-- Helper: one Facebook conversation group is stage-monotone. -/
theorem fbGroup_stMonoR (cfg : Cfg) (rows : List FbRow) (title : String) (st : DL) :
    stMonoR st.riders ((fbGroupStep cfg rows title) st).1.riders := by
  unfold fbGroupStep
  dsimp only
  split
  · exact stMonoR_refl _
  · cases hkr : fbKeyRes st
        (pyStrip ⟨(pyStrip title).data.filter (fun c => pyIsAlnum c ∨ c = ' ')⟩)
        (pyReplaceChar
          (pyLower (pyStrip ⟨(pyStrip title).data.filter (fun c => pyIsAlnum c ∨ c = ' ')⟩))
          ' ' '_') with
    | mk st1 res =>
      have hmono1 : stMonoR st.riders st1.riders := by
        have h := fbKeyRes_stMonoR st
          (pyStrip ⟨(pyStrip title).data.filter (fun c => pyIsAlnum c ∨ c = ' ')⟩)
          (pyReplaceChar
            (pyLower (pyStrip ⟨(pyStrip title).data.filter (fun c => pyIsAlnum c ∨ c = ' ')⟩))
            ' ' '_')
        rw [hkr] at h
        exact h
      cases res with
      | error e => exact hmono1
      | ok key =>
        dsimp only
        have h2 : stMonoR st.riders
            (updRider st1 key
              (fun r =>
                if r.current_stage = FunnelStage.contact ∨
                    r.current_stage = FunnelStage.outreach then
                  { r with current_stage := .messaged }
                else r)).riders := by
          refine stMonoR_trans hmono1 (updRider_stMonoR st1 _ _ (fun r => ?_))
          dsimp only
          by_cases h : r.current_stage = FunnelStage.contact ∨
              r.current_stage = FunnelStage.outreach
          · simp only [if_pos h]
            show autoLe r.current_stage FunnelStage.messaged
            rcases h with h | h <;> rw [h] <;> decide
          · simp only [if_neg h]
            exact autoLe_refl _
        set st2 := updRider st1 key
          (fun r =>
            if r.current_stage = FunnelStage.contact ∨
                r.current_stage = FunnelStage.outreach then
              { r with current_stage := .messaged }
            else r) with hst2
        cases hmt : fbMinTs (rows.filter (fun fr => fr.title = some title)) with
        | none => exact h2
        | some m =>
          dsimp only
          refine stMonoR_trans h2 (updRider_stMonoR_of_stage_eq st2 _ _ (fun r => ?_))
          split
          · split <;> rfl
          · rfl

/-- Helper: the whole Facebook-history loader is stage-monotone. -/
theorem loadFacebookHistory_stMonoR (cfg : Cfg) (st : DL) :
    stMonoR st.riders ((loadFacebookHistory cfg) st).1.riders := by
  unfold loadFacebookHistory
  cases hfb : cfg.fbFile with
  | none => exact stMonoR_refl _
  | some fb =>
    dsimp only [pyTry]
    split
    · exact stMonoR_refl _
    · refine runSteps_rel stMonoR stMonoR_refl (fun {a b c} => stMonoR_trans) _
        (fun s hs st' => ?_) st
      obtain ⟨t, ht, rfl⟩ := List.mem_map.mp hs
      exact fbGroup_stMonoR cfg fb.rows t st'

/-! ### Loader-level stage monotonicity -/

/-- Helper: the blueprint-registration loader is stage-monotone. -/
theorem loadBlueprint_stMonoR (cfg : Cfg) (st : DL) :
    stMonoR st.riders ((loadBlueprintRegistrations cfg) st).1.riders :=
  runRows_rel stMonoR stMonoR_refl (fun {a b c} => stMonoR_trans) _
    (fun row st' => blueprintRow_stMonoR row st') _ st

/-- Helper: the day-1 assessment loader is stage-monotone. -/
theorem loadDay1_stMonoR (cfg : Cfg) (st : DL) :
    stMonoR st.riders ((loadDay1Assessments cfg) st).1.riders :=
  runRows_rel stMonoR stMonoR_refl (fun {a b c} => stMonoR_trans) _
    (fun row st' => day1Row_stMonoR row st') _ st

/-- Helper: the day-2 assessment loader is stage-monotone. -/
theorem loadDay2_stMonoR (cfg : Cfg) (st : DL) :
    stMonoR st.riders ((loadDay2Assessments cfg) st).1.riders :=
  runRows_rel stMonoR stMonoR_refl (fun {a b c} => stMonoR_trans) _
    (fun row st' => day2Row_stMonoR row st') _ st

/-- Helper: the Xperiencify loader is stage-monotone. -/
theorem loadXperiencify_stMonoR (cfg : Cfg) (st : DL) :
    stMonoR st.riders ((loadXperiencifyCsv cfg) st).1.riders :=
  runRows_rel stMonoR stMonoR_refl (fun {a b c} => stMonoR_trans) _
    (fun row st' => xperiencifyRow_stMonoR row st') _ st

/-- Helper: the flow-profile loader is stage-monotone. -/
theorem loadFlow_stMonoR (cfg : Cfg) (st : DL) :
    stMonoR st.riders ((loadFlowProfileResults cfg) st).1.riders :=
  runRows_rel stMonoR stMonoR_refl (fun {a b c} => stMonoR_trans) _
    (fun row st' => flowRow_stMonoR row st') _ st

/-- Helper: the sleep-test loader is stage-monotone. -/
theorem loadSleep_stMonoR (cfg : Cfg) (st : DL) :
    stMonoR st.riders ((loadSleepTest cfg) st).1.riders :=
  runRows_rel stMonoR stMonoR_refl (fun {a b c} => stMonoR_trans) _
    (fun row st' => sleepRow_stMonoR row st') _ st

/-- Helper: the mindset-quiz loader is stage-monotone. -/
theorem loadMindset_stMonoR (cfg : Cfg) (st : DL) :
    stMonoR st.riders ((loadMindsetQuiz cfg) st).1.riders :=
  runRows_rel stMonoR stMonoR_refl (fun {a b c} => stMonoR_trans) _
    (fun row st' => mindsetRow_stMonoR row st') _ st

/-- Helper: the race-review loader is stage-monotone. -/
theorem loadRaceReviews_stMonoR (cfg : Cfg) (st : DL) :
    stMonoR st.riders ((loadRaceReviews cfg) st).1.riders :=
  runRows_rel stMonoR stMonoR_refl (fun {a b c} => stMonoR_trans) _
    (fun row st' => raceReviewRow_stMonoR row st') _ st

/-- Helper: the revenue-log loader is stage-monotone. -/
theorem loadRevenue_stMonoR (cfg : Cfg) (st : DL) :
    stMonoR st.riders ((loadRevenueLog cfg) st).1.riders := by
  unfold loadRevenueLog
  cases hf : alLookup cfg.files "revenue_log.csv" with
  | none => exact stMonoR_refl _
  | some file =>
    exact runRows_rel stMonoR stMonoR_refl (fun {a b c} => stMonoR_trans) _
      (fun row st' => revenueRow_stMonoR row st') file.rows st

/-- Helper: a stage-monotone loader never regresses a stored rider in the
canonical ordering. -/
theorem stMono_loader_noRegress (F : Cfg → Step)
    (hF : ∀ cfg st, stMonoR st.riders ((F cfg) st).1.riders) :
    ∀ (cfg : Cfg) (st : DL) (k : String) (r r' : Rider),
      rLookup st.riders k = some r →
      rLookup ((F cfg) st).1.riders k = some r' →
      noRegress r.current_stage r'.current_stage := by
  intro cfg st k r r' h1 h2
  obtain ⟨r2, hr2, hle⟩ := hF cfg st k r h1
  rw [h2] at hr2
  injection hr2 with hr2
  subst hr2
  exact autoLe_noRegress hle

/-! ### Key preservation (`regMonoR`) for the non-monotone loaders -/

/-- Helper: a rider update never drops a registry key. -/
theorem updRider_regMonoR (st : DL) (k : String) (g : Rider → Rider) :
    regMonoR st.riders (updRider st k g).riders := by
  unfold updRider
  cases hx : rLookup st.riders k with
  | none => exact regMonoR_refl _
  | some r0 =>
    dsimp only
    intro k' hk'
    by_cases hkk : k = k'
    · subst hkk
      rw [rLookup_rSet_self _ _ _ (by rw [hx]; rfl)]
      rfl
    · rw [rLookup_rSet_ne _ _ _ _ hkk]
      exact hk'

/-- Helper: the registry returned by `_get_or_create_rider` keeps every
key of the incoming registry. -/
theorem getOrCreate_pair_regMonoR {reg : Reg} {e : String} {f l : Val}
    {reg1 : Reg} {res : Except PyErr String}
    (h : getOrCreateRider reg e f l = (reg1, res)) : regMonoR reg reg1 := by
  have h0 := stMonoR_regMonoR (getOrCreate_stMonoR reg e f l)
  rw [h] at h0
  exact h0

/-- Helper: one strategy-call row never drops a registry key. -/
theorem strategyRow_regMonoR (row : RawRow) (st : DL) :
    regMonoR st.riders ((strategyRowStep row) st).1.riders := by
  unfold strategyRowStep
  cases h1 : (rowGet row "email" vempty).strip with
  | error e => exact regMonoR_refl _
  | ok email =>
    dsimp only
    by_cases he : email = ""
    · rw [if_pos he]
      exact regMonoR_refl _
    · rw [if_neg he]
      cases hgoc : getOrCreateRider st.riders email (rowGet row "first_name" vempty)
          (rowGet row "last_name" vempty) with
      | mk reg1 res =>
        dsimp only
        have hmono1 : regMonoR st.riders reg1 := getOrCreate_pair_regMonoR hgoc
        cases res with
        | error e => exact hmono1
        | ok key =>
          dsimp only
          cases hpd : parseDateVal (milestoneDateVal row) with
          | error e =>
            exact regMonoR_trans hmono1
              (updRider_regMonoR { st with riders := reg1 } _ _)
          | ok d =>
            dsimp only
            refine regMonoR_trans ?_ (updRider_regMonoR _ _ _)
            refine regMonoR_trans ?_ (updRider_regMonoR _ _ _)
            refine regMonoR_trans ?_ (updRider_regMonoR _ _ _)
            refine regMonoR_trans ?_ (updRider_regMonoR _ _ _)
            refine regMonoR_trans ?_ (updRider_regMonoR _ _ _)
            exact regMonoR_trans hmono1
              (updRider_regMonoR { st with riders := reg1 } _ _)

/-- Helper: the strategy-call loader never drops a registry key. -/
theorem loadStrategy_regMonoR (cfg : Cfg) (st : DL) :
    regMonoR st.riders ((loadStrategyCallApplications cfg) st).1.riders :=
  runRows_rel regMonoR regMonoR_refl (fun {a b c} => regMonoR_trans) _
    (fun row st' => strategyRow_regMonoR row st') _ st

/-- Helper: one manual-update row never drops a registry key. -/
theorem manualUpdateRow_regMonoR (row : RawRow) (st : DL) :
    regMonoR st.riders ((manualUpdateRowStep row) st).1.riders := by
  unfold manualUpdateRowStep
  cases h1 : (rowGet row "email" vempty).strip with
  | error e => exact regMonoR_refl _
  | ok emailStripped =>
    dsimp only
    split
    · exact regMonoR_refl _
    · cases hfind : stageList.find?
          (fun s => valEqStr (rowGet row "stage" vempty) s.value) with
      | none => exact regMonoR_refl _
      | some stg =>
        dsimp only
        cases hgoc : getOrCreateRider st.riders (pyLower emailStripped)
            (.vstr "") (.vstr "") with
        | mk reg1 res =>
          dsimp only
          have hmono1 : regMonoR st.riders reg1 := getOrCreate_pair_regMonoR hgoc
          cases res with
          | error e => exact hmono1
          | ok key =>
            dsimp only
            split
            · cases hpd : parseDateVal (rowGet row "timestamp" vempty) with
              | error e =>
                exact regMonoR_trans hmono1
                  (updRider_regMonoR { st with riders := reg1 } _ _)
              | ok od =>
                cases od with
                | none =>
                  exact regMonoR_trans hmono1
                    (updRider_regMonoR { st with riders := reg1 } _ _)
                | some t =>
                  dsimp only
                  refine regMonoR_trans ?_ (updRider_regMonoR _ _ _)
                  exact regMonoR_trans hmono1
                    (updRider_regMonoR { st with riders := reg1 } _ _)
            · exact regMonoR_trans hmono1
                (updRider_regMonoR { st with riders := reg1 } _ _)

/-- Helper: the manual-update loader never drops a registry key. -/
theorem loadManualUpdates_regMonoR (cfg : Cfg) (st : DL) :
    regMonoR st.riders ((loadManualUpdates cfg) st).1.riders := by
  unfold loadManualUpdates
  cases hf : alLookup cfg.files "manual_updates.csv" with
  | none => exact regMonoR_refl _
  | some file =>
    exact runRows_rel regMonoR regMonoR_refl (fun {a b c} => regMonoR_trans) _
      (fun row st' => manualUpdateRow_regMonoR row st') file.rows st

/-- Helper: one rider-details row never drops a registry key. -/
theorem riderDetailsRow_regMonoR (row : RawRow) (st : DL) :
    regMonoR st.riders ((riderDetailsRowStep row) st).1.riders := by
  unfold riderDetailsRowStep
  cases h1 : (rowGet row "email" vempty).strip with
  | error e => exact regMonoR_refl _
  | ok emailStripped =>
    dsimp only
    split
    · exact regMonoR_refl _
    · cases hgoc : getOrCreateRider st.riders (pyLower emailStripped)
          (.vstr "") (.vstr "") with
      | mk reg1 res =>
        dsimp only
        have hmono1 : regMonoR st.riders reg1 := getOrCreate_pair_regMonoR hgoc
        cases res with
        | error e => exact hmono1
        | ok key =>
          dsimp only
          split
          · cases hpd : parseDateVal (rowGetD row "value") with
            | error e => exact hmono1
            | ok d =>
              exact regMonoR_trans hmono1
                (updRider_regMonoR { st with riders := reg1 } _ _)
          · split
            · exact regMonoR_trans hmono1
                (updRider_regMonoR { st with riders := reg1 } _ _)
            · split
              · cases hfv : pyFloatOfVal (rowGetD row "value") with
                | ok v =>
                  exact regMonoR_trans hmono1
                    (updRider_regMonoR { st with riders := reg1 } _ _)
                | error e => exact hmono1
              · split <;> first
                  | exact regMonoR_trans hmono1
                      (updRider_regMonoR { st with riders := reg1 } _ _)
                  | exact hmono1

/-- Helper: the rider-details loader never drops a registry key. -/
theorem loadRiderDetails_regMonoR (cfg : Cfg) (st : DL) :
    regMonoR st.riders ((loadRiderDetails cfg) st).1.riders := by
  unfold loadRiderDetails
  cases hf : alLookup cfg.files "rider_details.csv" with
  | none => exact regMonoR_refl _
  | some file =>
    exact runRows_rel regMonoR regMonoR_refl (fun {a b c} => regMonoR_trans) _
      (fun row st' => riderDetailsRow_regMonoR row st') file.rows st

/-- Helper: a guarded rider write never drops a registry key. -/
theorem atUpd_step_regMonoR (c : Prop) [Decidable c] (k : String)
    (g : Rider → Rider) (stE : DL) :
    regMonoR stE.riders (atUpd c k g stE).riders := by
  unfold atUpd
  split
  · exact updRider_regMonoR stE k g
  · exact regMonoR_refl _

/-- Helper: an optional-value rider write never drops a registry key. -/
theorem atUpdOpt_step_regMonoR {α : Type} (o : Option α) (k : String)
    (g : α → Rider → Rider) (stE : DL) :
    regMonoR stE.riders (atUpdOpt o k g stE).riders := by
  unfold atUpdOpt
  cases o with
  | some a => exact updRider_regMonoR stE k _
  | none => exact regMonoR_refl _

/-- Helper: a fallible numeric write never drops a registry key. -/
theorem atScore_step_regMonoR (sc : Option (Except PyErr PyFloat)) (k : String)
    (g : PyFloat → Rider → Rider) (stE : DL) :
    regMonoR stE.riders (atScore sc k g stE).1.riders := by
  unfold atScore
  cases sc with
  | none => exact regMonoR_refl _
  | some x =>
    cases x with
    | ok v => exact updRider_regMonoR stE k _
    | error e => exact regMonoR_refl _

/-- Helper: the field harvesting of one rider-database row never drops a
registry key (it is built from lookups and `updRider` writes only). -/
theorem riderDbFields_regMonoR (cfg : Cfg) (row1 : RawRow) (key : String)
    (firstV lastV : Val) (st : DL) :
    regMonoR st.riders ((riderDbFields cfg row1 key firstV lastV) st).1.riders := by
  unfold riderDbFields
  refine andThen_rel regMonoR (fun {a b c} => regMonoR_trans) ?_ (fun s1 => ?_)
  · cases hlk : rLookup st.riders key with
    | none => exact regMonoR_refl _
    | some r0 =>
      dsimp only
      split
      · split
        · exact regMonoR_refl _
        · exact updRider_regMonoR st _ _
      · exact regMonoR_refl _
  · dsimp only
    refine andThen_rel regMonoR (fun {a b c} => regMonoR_trans) ?_ (fun s2 => ?_)
    · split
      · split
        · exact updRider_regMonoR _ _ _
        · refine regMonoR_trans ?_ (updRider_regMonoR _ _ _)
          exact updRider_regMonoR _ _ _
      · exact updRider_regMonoR _ _ _
    · refine andThen_rel regMonoR (fun {a b c} => regMonoR_trans) ?_ (fun s3 => ?_)
      · split
        · split
          · exact regMonoR_refl _
          · exact updRider_regMonoR _ _ _
        · exact regMonoR_refl _
      · refine andThen_rel regMonoR (fun {a b c} => regMonoR_trans) ?_ (fun s4 => ?_)
        · split
          · split
            · split
              · exact regMonoR_refl _
              · exact updRider_regMonoR _ _ _
            · exact regMonoR_refl _
          · exact regMonoR_refl _
        · refine andThen_rel regMonoR (fun {a b c} => regMonoR_trans) ?_ (fun s5 => ?_)
          · split
            · split
              · exact regMonoR_refl _
              · exact updRider_regMonoR _ _ _
            · exact regMonoR_refl _
          · refine andThen_rel regMonoR (fun {a b c} => regMonoR_trans) ?_ (fun s6 => ?_)
            · split
              · split
                · exact regMonoR_refl _
                · exact updRider_regMonoR _ _ _
              · exact regMonoR_refl _
            · dsimp only
              refine andThen_rel regMonoR (fun {a b c} => regMonoR_trans) ?_
                (fun s7 => ?_)
              · split
                · split
                  · exact atUpdOpt_step_regMonoR _ _ _ _
                  · split
                    · refine regMonoR_trans ?_ (updRider_regMonoR _ _ _)
                      exact atUpdOpt_step_regMonoR _ _ _ _
                    · exact atUpdOpt_step_regMonoR _ _ _ _
                · exact atUpdOpt_step_regMonoR _ _ _ _
              · dsimp only
                refine regMonoR_trans ?_ (atUpd_step_regMonoR _ _ _ _)
                refine regMonoR_trans ?_ (atUpd_step_regMonoR _ _ _ _)
                refine regMonoR_trans ?_ (atUpdOpt_step_regMonoR _ _ _ _)
                refine regMonoR_trans ?_ (atUpd_step_regMonoR _ _ _ _)
                refine regMonoR_trans ?_ (atUpd_step_regMonoR _ _ _ _)
                exact regMonoR_refl _

/-- Helper: one rider-database row never drops a registry key. -/
theorem riderDbRow_regMonoR (cfg : Cfg) (row : RawRow) (st : DL) :
    regMonoR st.riders ((riderDbRowStep cfg row) st).1.riders := by
  unfold riderDbRowStep
  cases hid : riderDbIdentity row with
  | error e => exact regMonoR_refl _
  | ok o =>
    cases o with
    | none => exact regMonoR_refl _
    | some q =>
      obtain ⟨email, firstV, lastV, row1⟩ := q
      dsimp only
      cases hgoc : getOrCreateRider st.riders email
          (firstV.orElse vempty) (lastV.orElse vempty) with
      | mk reg1 res =>
        dsimp only
        have hmono1 : regMonoR st.riders reg1 := getOrCreate_pair_regMonoR hgoc
        cases res with
        | error e => exact hmono1
        | ok key =>
          dsimp only
          refine regMonoR_trans hmono1 ?_
          exact riderDbFields_regMonoR cfg row1 key firstV lastV
            { riders := reg1, total := st.total + 1, loaded := st.loaded + 1,
              skipped := st.skipped, reasons := st.reasons }

/-- Helper: the rider-database loader never drops a registry key. -/
theorem loadRiderDatabase_regMonoR (cfg : Cfg) (st : DL) :
    regMonoR st.riders ((loadRiderDatabase cfg) st).1.riders :=
  runRows_rel regMonoR regMonoR_refl (fun {a b c} => regMonoR_trans) _
    (fun row st' => riderDbRow_regMonoR cfg row st') _ st

/-- Helper: the Airtable field mapping never drops a registry key. -/
theorem airtableFields_regMonoR (cfg : Cfg) (r : ATRec) (key : String) (st1 : DL) :
    regMonoR st1.riders ((airtableFields cfg r key) st1).1.riders := by
  unfold airtableFields
  dsimp only
  refine andThen_rel regMonoR (fun {a b c} => regMonoR_trans) ?_ (fun st7 => ?_)
  · refine regMonoR_trans ?_ (atScore_step_regMonoR _ _ _ _)
    refine regMonoR_trans ?_ (atUpdOpt_step_regMonoR _ _ _ _)
    refine regMonoR_trans ?_ (atUpd_step_regMonoR _ _ _ _)
    refine regMonoR_trans ?_ (atUpd_step_regMonoR _ _ _ _)
    refine regMonoR_trans ?_ (atUpd_step_regMonoR _ _ _ _)
    refine regMonoR_trans ?_ (atUpd_step_regMonoR _ _ _ _)
    exact regMonoR_refl _
  · dsimp only
    refine regMonoR_trans ?_ (atUpdOpt_step_regMonoR _ _ _ _)
    refine regMonoR_trans ?_ (atUpd_step_regMonoR _ _ _ _)
    refine regMonoR_trans ?_ (atUpd_step_regMonoR _ _ _ _)
    refine regMonoR_trans ?_ (atUpd_step_regMonoR _ _ _ _)
    exact regMonoR_refl _

/-- Helper: one Airtable record never drops a registry key. -/
theorem airtableRecord_regMonoR (cfg : Cfg) (r : ATRec) (st : DL)
    (lk : Option String) :
    regMonoR st.riders (airtableRecord cfg r st lk).1.riders := by
  unfold airtableRecord
  dsimp only
  split
  · by_cases h2 : (¬ optTruthy (some (slugOfName (r.fullName.getD ""))) = true)
    · rw [if_pos h2]
      exact regMonoR_refl _
    · rw [if_neg h2]
      cases hfl : (if ¬ optTruthy r.firstName ∧ optTruthy r.fullName then
          (some ((pySplitSpace (r.fullName.getD "")).headD ""),
            if (pySplitSpace (r.fullName.getD "")).length > 1 then
              some (pyJoinSpace (pySplitSpace (r.fullName.getD "")).tail)
            else r.lastName)
        else (r.firstName, r.lastName)) with
      | mk first1 last1 =>
        dsimp only
        cases hgoc : getOrCreateRider st.riders
            (pyStrip ((some (slugOfName (r.fullName.getD ""))).getD ""))
            (.vstr (if optTruthy first1 then first1.getD "" else ""))
            (.vstr (if optTruthy last1 then last1.getD "" else "")) with
        | mk reg1 res =>
          dsimp only
          have hmono1 : regMonoR st.riders reg1 := getOrCreate_pair_regMonoR hgoc
          cases res with
          | error e => exact hmono1
          | ok key =>
            dsimp only
            cases haf : airtableFields cfg r key { st with riders := reg1 } with
            | mk stF eF =>
              dsimp only
              have h := airtableFields_regMonoR cfg r key { st with riders := reg1 }
              rw [haf] at h
              exact regMonoR_trans hmono1 h
  · by_cases h2 : (¬ optTruthy r.email = true)
    · rw [if_pos h2]
      exact regMonoR_refl _
    · rw [if_neg h2]
      cases hfl : (if ¬ optTruthy r.firstName ∧ optTruthy r.fullName then
          (some ((pySplitSpace (r.fullName.getD "")).headD ""),
            if (pySplitSpace (r.fullName.getD "")).length > 1 then
              some (pyJoinSpace (pySplitSpace (r.fullName.getD "")).tail)
            else r.lastName)
        else (r.firstName, r.lastName)) with
      | mk first1 last1 =>
        dsimp only
        cases hgoc : getOrCreateRider st.riders (pyStrip (r.email.getD ""))
            (.vstr (if optTruthy first1 then first1.getD "" else ""))
            (.vstr (if optTruthy last1 then last1.getD "" else "")) with
        | mk reg1 res =>
          dsimp only
          have hmono1 : regMonoR st.riders reg1 := getOrCreate_pair_regMonoR hgoc
          cases res with
          | error e => exact hmono1
          | ok key =>
            dsimp only
            cases haf : airtableFields cfg r key { st with riders := reg1 } with
            | mk stF eF =>
              dsimp only
              have h := airtableFields_regMonoR cfg r key { st with riders := reg1 }
              rw [haf] at h
              exact regMonoR_trans hmono1 h

/-- Helper: the Airtable record loop never drops a registry key. -/
theorem airtableLoop_regMonoR (cfg : Cfg) :
    ∀ (records : List ATRec) (st : DL) (lk : Option String),
      regMonoR st.riders (airtableLoop cfg records st lk).1.riders
  | [], st, lk => regMonoR_refl _
  | r :: rest, st, lk => by
    unfold airtableLoop
    cases hx : airtableRecord cfg r st lk with
    | mk st' p =>
      cases p with
      | mk lk' e =>
        have h1 : regMonoR st.riders st'.riders := by
          have h := airtableRecord_regMonoR cfg r st lk
          rw [hx] at h
          exact h
        cases e with
        | none => exact regMonoR_trans h1 (airtableLoop_regMonoR cfg rest st' lk')
        | some err => exact h1

/-- Helper: the whole Airtable loader never drops a registry key. -/
theorem loadFromAirtable_regMonoR (cfg : Cfg) (st : DL) :
    regMonoR st.riders ((loadFromAirtable cfg) st).1.riders := by
  unfold loadFromAirtable
  cases hat : cfg.airtable with
  | none => exact regMonoR_refl _
  | some records =>
    dsimp only
    cases hloop : airtableLoop cfg records st none with
    | mk st' p =>
      cases p with
      | mk lk e =>
        have h1 : regMonoR st.riders st'.riders := by
          have h := airtableLoop_regMonoR cfg records st none
          rw [hloop] at h
          exact h
        cases e with
        | some err => exact h1
        | none =>
          dsimp only
          cases hlast : records.getLast? with
          | none => exact h1
          | some rl =>
            dsimp only
            refine regMonoR_trans h1 ?_
            repeat' (first
              | exact regMonoR_refl _
              | exact updRider_regMonoR _ _ _
              | refine regMonoR_trans ?_ (updRider_regMonoR _ _ _)
              | refine andThen_rel regMonoR (fun {a b c} => regMonoR_trans) ?_
                  (fun s => ?_)
              | split
              | dsimp only)

/-- Helper: when `_get_or_create_rider` returns a key, that key is bound
in the registry it returns. -/
theorem getOrCreate_ok_present (reg : Reg) (e : String) (f l : Val) :
    ∀ key, (getOrCreateRider reg e f l).2 = .ok key →
      (rLookup (getOrCreateRider reg e f l).1 key).isSome := by
  unfold getOrCreateRider
  dsimp only
  cases hx : rLookup reg (normKey e) with
  | none =>
    cases hf : stripName f with
    | error ef =>
      cases hls : stripName l with
      | error el => intro key h; cases h
      | ok sl => intro key h; cases h
    | ok sf =>
      cases hls : stripName l with
      | error el => intro key h; cases h
      | ok sl =>
        intro key h
        dsimp only at h ⊢
        injection h with h
        subst h
        rw [rLookup_append_single, hx]
        dsimp only
        rw [if_pos rfl]
        rfl
  | some r =>
    dsimp only
    cases hc1 : (if (f.truthy : Prop) ∧ ¬ r.first_name.truthy then
        (f.strip).map (fun s => { r with first_name := .vstr s })
      else .ok r) with
    | error e1 => intro key h; cases h
    | ok r1 =>
      dsimp only
      cases hc2 : (if (l.truthy : Prop) ∧ ¬ r1.last_name.truthy then
          (l.strip).map (fun s => { r1 with last_name := .vstr s })
        else .ok r1) with
      | error e2 => intro key h; cases h
      | ok r2 =>
        intro key h
        dsimp only at h ⊢
        injection h with h
        subst h
        rw [rLookup_rSet_self _ _ _ (by rw [hx]; rfl)]
        rfl

/-- Helper: looking up the updated key after `updRider` yields the update
applied to the stored record. -/
theorem rLookup_updRider_self {st : DL} {k : String} {r : Rider}
    (g : Rider → Rider) (h : rLookup st.riders k = some r) :
    rLookup (updRider st k g).riders k = some (g r) := by
  unfold updRider
  rw [h]
  dsimp only
  exact rLookup_rSet_self _ _ _ (by rw [h]; rfl)

/-- Helper: an optional stage write with a present value forces the stored
rider's stage to that value. -/
theorem atUpdOpt_some_stage {stE : DL} {k : String} (stg : FunnelStage)
    (h : (rLookup stE.riders k).isSome) :
    ∃ r', rLookup (atUpdOpt (some stg) k
        (fun stg rd => { rd with current_stage := stg }) stE).riders k = some r' ∧
      r'.current_stage = stg := by
  obtain ⟨r0, hr0⟩ := Option.isSome_iff_exists.mp h
  unfold atUpdOpt
  exact ⟨_, rLookup_updRider_self _ hr0, rfl⟩

/-! ### Counterexamples found against the specification -/

/-- Counterexample to C2 (non-destructive merge): the strategy-call
ingestor assigns `rider.phone = row.get('phone', '')` unconditionally, so
a row without a phone column blanks a stored non-blank phone — and this
loader is not a manual override path. -/
theorem strategy_blanks_phone_counterexample :
    (rLookup fixtureDL.riders "a@b.com").map Rider.phone = some (.vstr "123") ∧
    (loadStrategyCallApplications strategyRowCfg fixtureDL).2 = none ∧
    (rLookup (loadStrategyCallApplications strategyRowCfg fixtureDL).1.riders
        "a@b.com").map Rider.phone = some (.vstr "") := by
  decide

/-- Counterexample to C3 (stage monotonicity): the strategy-call ingestor
sets `current_stage = STRATEGY_CALL_BOOKED` unconditionally, moving a
rider already at `Client` strictly back in the canonical ordering. -/
theorem strategy_regresses_client_counterexample :
    (rLookup fixtureDL.riders "a@b.com").map Rider.current_stage = some .client ∧
    (rLookup (loadStrategyCallApplications strategyRowCfg fixtureDL).1.riders
        "a@b.com").map Rider.current_stage = some .strategyCallBooked ∧
    (∃ i j, stageRank .strategyCallBooked = some i ∧ stageRank .client = some j ∧
      i < j) := by
  refine ⟨by decide, by decide, 7, 8, rfl, rfl, by decide⟩

/-- Counterexample to C5 (timestamp fill-once): the day-1 ingestor assigns
`rider.day1_complete_date = self._parse_date(date_val)` unconditionally,
so a further completed row with no date columns clears an already-set
timestamp. -/
theorem day1_timestamp_overwritten_counterexample :
    (rLookup fixtureDL.riders "a@b.com").map Rider.day1_complete_date =
      some (some ⟨2024, 1, 1, 0, 0, 0, 0⟩) ∧
    (loadDay1Assessments day1RowCfg fixtureDL).2 = none ∧
    (rLookup (loadDay1Assessments day1RowCfg fixtureDL).1.riders
        "a@b.com").map Rider.day1_complete_date = some none := by
  decide

/-- Counterexample to C7 (per-feed failure isolation): `load_all_data` has
no per-feed `try`; the `AttributeError` raised while ingesting the
strategy-call feed (a NaN email cell) aborts every subsequent feed — the
well-formed blueprint feed that would have created `b@c.com` never runs. -/
theorem feed_failure_not_isolated_counterexample :
    (loadAllData nanEmailCfg {}).2 = some .attributeError ∧
    rKeys (loadAllData nanEmailCfg {}).1.riders = [] ∧
    (rLookup (loadBlueprintRegistrations nanEmailCfg {}).1.riders "b@c.com").isSome := by
  refine ⟨by decide, by decide, by decide⟩

/-- Counterexample to C9 (name-slug identity): for a Facebook-history row
with name `"Andy DiBrino"` and no email, the derived identity key is
`"no_email_andy_dibrino"`, not the plain slug `"andy_dibrino"` the claim
describes (which is what the rider-database path derives). -/
theorem fb_slug_key_counterexample :
    riderDbSlug "Andy" "DiBrino" = "andy_dibrino" ∧
    (loadFacebookHistory fbAndyCfg {}).2 = none ∧
    rKeys (loadFacebookHistory fbAndyCfg {}).1.riders = ["no_email_andy_dibrino"] ∧
    rLookup (loadFacebookHistory fbAndyCfg {}).1.riders "andy_dibrino" = none := by
  refine ⟨by decide, by decide, by decide, by decide⟩

/-- Counterexample to C1 (idempotent re-ingestion): on `driftCfg` the
first run leaves the rider at `Messaged` (blueprint guard fails on the
fresh `Contact` rider, Facebook history bumps it), while the second run's
blueprint ingestion sees `Messaged` and advances to `Blueprint Started` —
the same feeds, re-ingested, change a field value. -/
theorem load_all_data_not_idempotent_counterexample :
    (loadAllData driftCfg {}).2 = none ∧
    (loadAllData driftCfg (loadAllData driftCfg {}).1).2 = none ∧
    (rLookup (loadAllData driftCfg {}).1.riders "x@y.com").map Rider.current_stage =
      some .messaged ∧
    (rLookup (loadAllData driftCfg (loadAllData driftCfg {}).1).1.riders
        "x@y.com").map Rider.current_stage = some .blueprintStarted ∧
    (loadAllData driftCfg (loadAllData driftCfg {}).1).1.riders ≠
      (loadAllData driftCfg {}).1.riders := by
  refine ⟨by decide, by decide, by decide, by decide, by decide⟩

/-! ### Amended claims -/

/-- C2 (amended): the non-destructive-merge guarantee fails for the
strategy-call ingestor, whose unconditional `rider.phone = row.get('phone',
'')` blanks a stored phone (see the counterexample); it does hold for the
shared identity/merge path `_get_or_create_rider`: a stored non-blank
`first_name`/`last_name` is never replaced there, and no other stored
field (in particular `phone`) is touched by that path. -/
theorem get_or_create_never_blanks :
    ∀ (reg : Reg) (email f l : String) (k : String) (r : Rider),
      rLookup reg k = some r →
      ∃ r', rLookup (getOrCreateRider reg email (.vstr f) (.vstr l)).1 k = some r' ∧
        (r.first_name.truthy → r'.first_name = r.first_name) ∧
        (r.last_name.truthy → r'.last_name = r.last_name) ∧
        r'.phone = r.phone := by
  intro reg email f l k r hk
  rw [getOrCreate_vstr_eq]
  cases hl : rLookup reg (normKey email) with
  | none =>
    dsimp only
    refine ⟨r, ?_, fun _ => rfl, fun _ => rfl, rfl⟩
    rw [rLookup_append_single, hk]
  | some r0 =>
    dsimp only
    by_cases hkk : normKey email = k
    · subst hkk
      rw [hk] at hl
      injection hl with hl
      subst hl
      refine ⟨_, rLookup_rSet_self _ _ _ (by rw [hk]; rfl), ?_, ?_, rfl⟩
      · intro ht
        dsimp only
        rw [if_neg (fun hc => hc.2 ht)]
      · intro ht
        dsimp only
        rw [if_neg (fun hc => hc.2 ht)]
    · refine ⟨r, ?_, fun _ => rfl, fun _ => rfl, rfl⟩
      rw [rLookup_rSet_ne _ _ _ _ hkk]
      exact hk

/-- Witness for the amended C2 theorem: a blank-named call against the
stored fixture rider leaves its names and phone intact. -/
theorem get_or_create_never_blanks_witness :
    ∃ r', rLookup (getOrCreateRider fixtureDL.riders "A@B.com"
        (.vstr "") (.vstr "")).1 "a@b.com" = some r' ∧
      (fixtureRider.first_name.truthy = true →
        r'.first_name = fixtureRider.first_name) ∧
      (fixtureRider.last_name.truthy = true →
        r'.last_name = fixtureRider.last_name) ∧
      r'.phone = fixtureRider.phone :=
  get_or_create_never_blanks fixtureDL.riders "A@B.com" "" "" "a@b.com"
    fixtureRider rfl

/-- C5 (amended): the fill-once rule fails — the day-1 ingestor (like the
strategy, blueprint and day-2 ingestors) assigns the milestone timestamp
unconditionally, so on every further completed row the stored
`day1_complete_date` is replaced by that row's parsed date value (which
the counterexample shows can clear an already-set timestamp). -/
theorem day1_timestamp_unconditional :
    ∀ (row : RawRow) (st : DL) (email : String) (reg1 : Reg) (key : String)
      (d : Option DateTime),
      (rowGet row "email" vempty).strip = .ok email →
      email ≠ "" →
      (rowGet row "completed" vempty).lower = .ok "yes" →
      getOrCreateRider st.riders email (rowGet row "first_name" vempty)
        (rowGet row "last_name" vempty) = (reg1, .ok key) →
      parseDateVal (day1DateVal row) = .ok d →
      ∃ r', rLookup ((day1RowStep row) st).1.riders key = some r' ∧
        r'.day1_complete_date = d := by
  intro row st email reg1 key d hemail hne hcomp hgoc hpd
  have hp : (rLookup reg1 key).isSome := by
    have h1 := getOrCreate_ok_present st.riders email (rowGet row "first_name" vempty)
      (rowGet row "last_name" vempty) key (by rw [hgoc])
    rw [hgoc] at h1
    exact h1
  obtain ⟨r0, hr0⟩ := Option.isSome_iff_exists.mp hp
  unfold day1RowStep
  rw [hemail]
  dsimp only
  rw [if_neg hne, hcomp]
  dsimp only
  rw [if_neg (fun hc => hc rfl), hgoc]
  dsimp only
  rw [hpd]
  dsimp only
  have h2 : rLookup (updRider { st with riders := reg1 } key
      (fun r =>
        if r.current_stage = FunnelStage.outreach ∨
            r.current_stage = FunnelStage.registered then
          { r with current_stage := .day1Complete }
        else r)).riders key = some
      ((fun r =>
        if r.current_stage = FunnelStage.outreach ∨
            r.current_stage = FunnelStage.registered then
          { r with current_stage := FunnelStage.day1Complete }
        else r) r0) :=
    rLookup_updRider_self _ hr0
  set st2 := updRider { st with riders := reg1 } key
    (fun r =>
      if r.current_stage = FunnelStage.outreach ∨
          r.current_stage = FunnelStage.registered then
        { r with current_stage := .day1Complete }
      else r) with hst2
  have h3 := rLookup_updRider_self
    (fun r => { r with day1_complete_date := d }) h2
  set st3 := updRider st2 key (fun r => { r with day1_complete_date := d }) with hst3
  by_cases hsc : ((rowGet row "Overall Score - Actual" (.vstr "0")).truthy = true)
  · rw [if_pos hsc]
    cases hfv : pyFloatOfVal (rowGet row "Overall Score - Actual" (.vstr "0")) with
    | ok v =>
      dsimp only
      exact ⟨_, rLookup_updRider_self
        (fun r => { r with day1_score := some v }) h3, rfl⟩
    | error ev =>
      cases ev <;> exact ⟨_, h3, rfl⟩
  · rw [if_neg hsc]
    dsimp only
    exact ⟨_, rLookup_updRider_self
      (fun r => { r with day1_score := none }) h3, rfl⟩

/-- Witness for the amended C5 theorem: a completed day-1 row writes its
parsed date over the fixture rider's already-set timestamp. -/
theorem day1_timestamp_unconditional_witness :
    ∃ r', rLookup ((day1RowStep
        [("email", Val.vstr "a@b.com"), ("completed", Val.vstr "yes"),
          ("date", Val.vstr "2024-03-01")]) fixtureDL).1.riders "a@b.com" =
        some r' ∧
      r'.day1_complete_date = some ⟨2024, 3, 1, 0, 0, 0, 0⟩ :=
  day1_timestamp_unconditional
    [("email", Val.vstr "a@b.com"), ("completed", Val.vstr "yes"),
      ("date", Val.vstr "2024-03-01")]
    fixtureDL "a@b.com" _ _ (some ⟨2024, 3, 1, 0, 0, 0, 0⟩)
    rfl (by decide) rfl rfl rfl

/-- C3 (amended): stage monotonicity holds for the automatic milestone,
lead-magnet, review, revenue, scan and Facebook-history ingestors — for a
rider already stored, none of these feeds ever moves `current_stage` to a
stage strictly earlier in the canonical funnel ordering.  (It fails for
the strategy-call-application feed, which writes `STRATEGY_CALL_BOOKED`
unconditionally, and never applied to the manual-update, rider-database
and Airtable override paths.) -/
theorem auto_ingestors_never_regress :
    ∀ L ∈ [loadBlueprintRegistrations, loadDay1Assessments, loadDay2Assessments,
      loadXperiencifyCsv, loadFlowProfileResults, loadSleepTest, loadMindsetQuiz,
      loadRaceReviews, loadRevenueLog, scanForSocialAndReviews, loadFacebookHistory],
    ∀ (cfg : Cfg) (st : DL) (k : String) (r r' : Rider),
      rLookup st.riders k = some r →
      rLookup ((L cfg) st).1.riders k = some r' →
      noRegress r.current_stage r'.current_stage := by
  intro L hL
  simp only [List.mem_cons, List.not_mem_nil, or_false] at hL
  rcases hL with rfl | rfl | rfl | rfl | rfl | rfl | rfl | rfl | rfl | rfl | rfl
  · exact stMono_loader_noRegress _ loadBlueprint_stMonoR
  · exact stMono_loader_noRegress _ loadDay1_stMonoR
  · exact stMono_loader_noRegress _ loadDay2_stMonoR
  · exact stMono_loader_noRegress _ loadXperiencify_stMonoR
  · exact stMono_loader_noRegress _ loadFlow_stMonoR
  · exact stMono_loader_noRegress _ loadSleep_stMonoR
  · exact stMono_loader_noRegress _ loadMindset_stMonoR
  · exact stMono_loader_noRegress _ loadRaceReviews_stMonoR
  · exact stMono_loader_noRegress _ loadRevenue_stMonoR
  · exact stMono_loader_noRegress _ scan_stMonoR
  · exact stMono_loader_noRegress _ loadFacebookHistory_stMonoR

/-- C1 (amended): re-ingestion is not idempotent — field values can drift
across a second run of `load_all_data` on the same feeds (see the
counterexample) — but re-running never removes an identity key: every key
present in the registry before a run of `load_all_data` is still present
after it, whichever feeds are configured. -/
theorem load_all_data_keys_never_dropped :
    ∀ (cfg : Cfg) (st : DL) (k : String),
      (rLookup st.riders k).isSome →
      (rLookup ((loadAllData cfg) st).1.riders k).isSome := by
  intro cfg st
  unfold loadAllData
  refine runSteps_rel regMonoR regMonoR_refl (fun {a b c} => regMonoR_trans) _
    (fun s hs st' => ?_) st
  simp only [List.mem_cons, List.not_mem_nil, or_false] at hs
  rcases hs with rfl | rfl | rfl | rfl | rfl | rfl | rfl | rfl | rfl | rfl | rfl | rfl |
    rfl | rfl | rfl | rfl | rfl
  · exact loadStrategy_regMonoR cfg st'
  · exact stMonoR_regMonoR (loadBlueprint_stMonoR cfg st')
  · exact stMonoR_regMonoR (loadDay1_stMonoR cfg st')
  · exact stMonoR_regMonoR (loadDay2_stMonoR cfg st')
  · exact stMonoR_regMonoR (loadXperiencify_stMonoR cfg st')
  · exact stMonoR_regMonoR (loadFlow_stMonoR cfg st')
  · exact stMonoR_regMonoR (loadSleep_stMonoR cfg st')
  · exact stMonoR_regMonoR (loadSleep_stMonoR cfg st')
  · exact stMonoR_regMonoR (loadMindset_stMonoR cfg st')
  · exact stMonoR_regMonoR (loadRaceReviews_stMonoR cfg st')
  · exact loadManualUpdates_regMonoR cfg st'
  · exact stMonoR_regMonoR (loadRevenue_stMonoR cfg st')
  · exact loadRiderDetails_regMonoR cfg st'
  · exact loadRiderDatabase_regMonoR cfg st'
  · exact stMonoR_regMonoR (scan_stMonoR cfg st')
  · exact stMonoR_regMonoR (loadFacebookHistory_stMonoR cfg st')
  · exact loadFromAirtable_regMonoR cfg st'

/-- Witness for the amended C1 theorem: the fixture rider's key survives a
full `load_all_data` run. -/
theorem load_all_data_keys_never_dropped_witness :
    (rLookup ((loadAllData driftCfg) fixtureDL).1.riders "a@b.com").isSome :=
  load_all_data_keys_never_dropped driftCfg fixtureDL "a@b.com" (by decide)

/-- C6: the Airtable master source is the last step of `load_all_data`,
and its field mapping writes a recognised `Stage` string to
`current_stage` unconditionally (provided the record's email identifies a
rider and the fallible score conversion does not abort the record): a
rider that local feeds left at `Day 2 Completed` ends at `Client`. -/
theorem airtable_applied_last_and_wins :
    (∀ (cfg : Cfg) (st : DL),
      (loadAllData cfg) st =
        runSteps (preAirtableSteps cfg ++ [loadFromAirtable cfg]) st) ∧
    (∀ (cfg : Cfg) (r : ATRec) (st1 : DL) (key : String) (stg : FunnelStage),
      (rLookup st1.riders key).isSome →
      optTruthy r.overallScore = false →
      optTruthy r.stage = true →
      airtableMapStage (pyLower (pyStrip (r.stage.getD ""))) = some stg →
      ∃ r', rLookup ((airtableFields cfg r key) st1).1.riders key = some r' ∧
        r'.current_stage = stg) ∧
    ((rLookup ((runSteps (preAirtableSteps masterCfg)) {}).1.riders "x@y.com").map
        Rider.current_stage = some .day2Complete ∧
      (rLookup ((loadAllData masterCfg) {}).1.riders "x@y.com").map
        Rider.current_stage = some .client) := by
  refine ⟨fun cfg st => rfl, ?_, by decide, by decide⟩
  intro cfg r st1 key stg h1 hsc hst hmap
  unfold airtableFields
  dsimp only
  rw [if_neg (by rw [hsc]; decide)]
  dsimp only [atScore, andThen]
  rw [if_pos hst, hmap]
  refine atUpdOpt_some_stage stg ?_
  refine atUpd_step_regMonoR _ _ _ _ key ?_
  refine atUpd_step_regMonoR _ _ _ _ key ?_
  refine atUpd_step_regMonoR _ _ _ _ key ?_
  refine atUpdOpt_step_regMonoR _ _ _ _ key ?_
  refine atUpd_step_regMonoR _ _ _ _ key ?_
  refine atUpd_step_regMonoR _ _ _ _ key ?_
  refine atUpd_step_regMonoR _ _ _ _ key ?_
  refine atUpd_step_regMonoR _ _ _ _ key ?_
  exact h1

/-- Witness for the C6 theorem: a master record with `Stage = "client"`
forces a stored rider to `Client`. -/
theorem airtable_applied_last_and_wins_witness :
    ∃ r', rLookup ((airtableFields masterCfg
        { email := some "x@y.com", stage := some "client" } "x@y.com")
        { riders := [("x@y.com", mkRider "x@y.com" "" "")] }).1.riders "x@y.com" =
        some r' ∧ r'.current_stage = FunnelStage.client :=
  airtable_applied_last_and_wins.2.1 masterCfg
    { email := some "x@y.com", stage := some "client" }
    { riders := [("x@y.com", mkRider "x@y.com" "" "")] } "x@y.com" .client
    (by decide) (by decide) (by decide) (by decide)

/-- C7 (amended): there is no per-feed isolation in `load_all_data` (the
counterexample shows one failing feed aborting all later ones); the only
isolation in the pipeline is local — the manual-update, revenue,
rider-details, scan and Facebook loaders swallow their own exceptions
(`try: … except: pass` around the whole loader or file), and the
rider-database loader isolates each row, so its bad rows are skipped while
good rows still load. -/
theorem failure_isolation_only_local :
    (∀ (cfg : Cfg) (st : DL), ((loadManualUpdates cfg) st).2 = none) ∧
    (∀ (cfg : Cfg) (st : DL), ((loadRevenueLog cfg) st).2 = none) ∧
    (∀ (cfg : Cfg) (st : DL), ((loadRiderDetails cfg) st).2 = none) ∧
    (∀ (cfg : Cfg) (st : DL), ((scanForSocialAndReviews cfg) st).2 = none) ∧
    (∀ (cfg : Cfg) (st : DL), ((loadFacebookHistory cfg) st).2 = none) ∧
    (∀ (cfg : Cfg) (row : RawRow) (st : DL), ((riderDbRowStep cfg row) st).2 = none) ∧
    ((loadRiderDatabase riderDbIsolationCfg {}).2 = none ∧
      (rLookup (loadRiderDatabase riderDbIsolationCfg {}).1.riders
        "good@x.com").isSome ∧
      (loadRiderDatabase riderDbIsolationCfg {}).1.total = 2 ∧
      (loadRiderDatabase riderDbIsolationCfg {}).1.loaded = 1) := by
  refine ⟨?_, ?_, ?_, ?_, ?_, ?_, by decide, by decide, by decide, by decide⟩
  · intro cfg st
    unfold loadManualUpdates
    cases alLookup cfg.files "manual_updates.csv" with
    | none => rfl
    | some file => rfl
  · intro cfg st
    unfold loadRevenueLog
    cases alLookup cfg.files "revenue_log.csv" with
    | none => rfl
    | some file => rfl
  · intro cfg st
    unfold loadRiderDetails
    cases alLookup cfg.files "rider_details.csv" with
    | none => rfl
    | some file => rfl
  · intro cfg st
    rfl
  · intro cfg st
    unfold loadFacebookHistory
    cases cfg.fbFile with
    | none => rfl
    | some fb => rfl
  · intro cfg row st
    unfold riderDbRowStep
    cases hid : riderDbIdentity row with
    | error e => rfl
    | ok o =>
      cases o with
      | none => rfl
      | some q =>
        obtain ⟨email, firstV, lastV, row1⟩ := q
        dsimp only
        cases hgoc : getOrCreateRider st.riders email
            (firstV.orElse vempty) (lastV.orElse vempty) with
        | mk reg1 res =>
          cases res with
          | error e => rfl
          | ok key => rfl

/-- C9 (amended): the name slug itself is as described — the
rider-database and Airtable paths agree on
`lower(first+' '+last)`, spaces to underscores, non-word characters
stripped, `unknown_rider` fallback — but the Facebook-history path
prefixes `no_email_` to it when it creates a record (see the
counterexample), and resolves an existing rider by case-insensitive full
name rather than by key, which is how the two feeds still collapse to a
single record. -/
theorem name_slug_and_collapse :
    (riderDbSlug "Andy" "DiBrino" = "andy_dibrino") ∧
    (∀ first last : String, riderDbSlug first last = slugOfName (first ++ " " ++ last)) ∧
    (dbFbCollapseRun.2 = none ∧
      rKeys dbFbCollapseRun.1.riders = ["andy_dibrino"] ∧
      (rLookup dbFbCollapseRun.1.riders "andy_dibrino").map Rider.outreach_channel =
        some none) := by
  refine ⟨by decide, fun first last => rfl, by decide, by decide, by decide⟩

/-- Witness for the amended C3 theorem: the blueprint ingestor applied to
the stored `Client` fixture rider. -/
theorem auto_ingestors_never_regress_witness :
    noRegress fixtureRider.current_stage
      ((rLookup ((loadBlueprintRegistrations strategyRowCfg) fixtureDL).1.riders
        "a@b.com").getD fixtureRider).current_stage :=
  auto_ingestors_never_regress loadBlueprintRegistrations
    (List.mem_cons_self _ _) strategyRowCfg fixtureDL "a@b.com" fixtureRider _
    (by decide) rfl

end Funnel
